import Mathlib

/-!
Solar controller firmware (`solarCtl/main.c`): shallow embedding

The firmware is one C file for an ATtiny84A: three interrupt handlers
(`TIM0_OVF`, `TIM1_COMPA`, `EXT_INT0`) and a foreground loop in `main`.
All program variables are globals; the embedding gathers them in one record
`State` and turns every handler and every block of the foreground loop into a
function `State → State`.

Conventions of the embedding

* `unsigned char` is a `Nat` reduced `% 256`, `unsigned int` a `Nat` reduced
  `% 65536` (the AVR `int` is 16 bits wide), `signed int` / `signed char` an
  `Int` wrapped into the two's complement range.
* The arrays `rd`, `wt`, `cmd_buf`, `tmp_buf` are maps from index to byte.  The
  C arrays have 32 (resp. 16) slots; indices beyond that are outside the C
  object.
* I/O registers that the program reads back or whose bits carry behaviour are
  fields of the state (`PORTA`, `ADMUX`, `TIMSK1`, `GIMSK`, `OCR1A`, `TCNT1`).
  Pure configuration registers and the write-one-to-clear flag registers
  (`GIFR`, `TIFR1`) are not modelled.
* A one-line conditional assignment `if (c) x = v;` that is followed by further
  statements is written as the assignment `x := if c then v else x`; other
  conditionals are `if … then … else …` on states.
* Handlers and foreground blocks are atomic steps; the inputs from the outside
  world (the level of the receive pin, the result of an A/D conversion) are
  arguments of the step that reads them.
-/

namespace SolarCtl

/-! ## Machine integers and registers -/

/-- Capacity of the three byte buffers (`#define BUF_LEN 32`). -/
def BUF_LEN : Nat := 32

/-- Timer compare value of one bit time (`#define ONE_BIT 255`). -/
def ONE_BIT : Nat := 255

/-- Timer compare value of half a bit time (`#define ONE_HALF_BIT 127`). -/
def ONE_HALF_BIT : Nat := 127

/-- Bit number of `OCIE1A` in `TIMSK1` (ATtiny84A register map). -/
def OCIE1A : Nat := 1

/-- Bit number of `INT0` in `GIMSK` (ATtiny84A register map). -/
def INT0 : Nat := 6

/-- Value kept by an `unsigned char`. -/
def u8 (n : Nat) : Nat := n % 256

/-- Value kept by an `unsigned int` (16 bits). -/
def u16 (n : Nat) : Nat := n % 65536

/-- Value kept by a `signed char`. -/
def s8 (x : Int) : Int := (x + 128) % 256 - 128

/-- Value kept by a `signed int` (16 bits). -/
def s16 (x : Int) : Int := (x + 32768) % 65536 - 32768

/-- Conversion of an `int` to `unsigned char`. -/
def int_to_u8 (x : Int) : Nat := (x % 256).toNat

/-- Register update `R |= (1 << n)` on an 8-bit register. -/
def setbit (r n : Nat) : Nat := r ||| (1 <<< n)

/-- Register update `R &= ~(1 << n)` on an 8-bit register. -/
def clrbit (r n : Nat) : Nat := r &&& (255 ^^^ (1 <<< n))

/-- Register test `R & (1 << n)`, as a C truth value. -/
def tstbit (r n : Nat) : Bool := decide (r &&& (1 <<< n) ≠ 0)

/-- Array store `a[i] = v`. -/
def upd (a : Nat → Nat) (i v : Nat) : Nat → Nat := fun k => if k = i then v else a k

/-! ## Program state -/

/-- The global variables of `main.c` and the modelled I/O registers. -/
structure State where
  bat_volt : Int
  temp : Int
  tick : Nat
  sec : Nat
  old_sec : Nat
  min : Nat
  a_min : Nat
  s_min : Nat
  hour : Nat
  a_hour : Nat
  s_hour : Nat
  SwUartTXState : Nat
  rd : Nat → Nat
  rd_rd_pnt : Nat
  rd_wt_pnt : Nat
  wt : Nat → Nat
  wt_rd_pnt : Nat
  wt_wt_pnt : Nat
  cmd_buf : Nat → Nat
  cmd_buf_pnt : Nat
  cmd_flag : Nat
  SwUartRXBitCount : Nat
  SwUartRXData : Nat
  SwUartTXData : Nat
  SwUartTXBitCount : Nat
  tmp_char : Nat
  tmp_buf : Nat → Nat
  i : Int
  j : Int
  low_flag : Nat
  time_set_flag : Nat
  ten_sec_flag : Nat
  blink_flag : Nat
  boot_flag : Nat
  kill_flag : Nat
  boot_cnt : Int
  PORTA : Nat
  ADMUX : Nat
  TIMSK1 : Nat
  GIMSK : Nat
  OCR1A : Nat
  TCNT1 : Nat

/-- The string `hello` in program memory: "Hello from controller !" CR LF NUL. -/
def hello : List Nat :=
  [72, 101, 108, 108, 111, 32, 102, 114, 111, 109, 32, 99, 111, 110, 116, 114, 111, 108,
   108, 101, 114, 32, 33, 13, 10, 0]

/-- The string `error` in program memory: "Command error" CR LF NUL. -/
def error : List Nat :=
  [67, 111, 109, 109, 97, 110, 100, 32, 101, 114, 114, 111, 114, 13, 10, 0]

/-- The string `kill` in program memory: "Bye bye" CR LF NUL. -/
def kill : List Nat := [66, 121, 101, 32, 98, 121, 101, 13, 10, 0]

/-- The string `boot` in program memory: "Rebooting" CR LF NUL. -/
def boot : List Nat := [82, 101, 98, 111, 111, 116, 105, 110, 103, 13, 10, 0]

/-- The variables as initialised at reset, and the registers as left by the
configuration code at the top of `main` (lines 234-257): led pin and TD pin
high, load and solar switch off, ADC multiplexer `0x80`, start-bit interrupt
enabled. -/
def reset_state : State where
  bat_volt := 0
  temp := 0
  tick := 0
  sec := 0
  old_sec := 0
  min := 0
  a_min := 0
  s_min := 0
  hour := 0
  a_hour := 20
  s_hour := 23
  SwUartTXState := 0
  rd := fun _ => 0
  rd_rd_pnt := 0
  rd_wt_pnt := 0
  wt := fun _ => 0
  wt_rd_pnt := 0
  wt_wt_pnt := 0
  cmd_buf := fun _ => 0
  cmd_buf_pnt := 0
  cmd_flag := 0
  SwUartRXBitCount := 0
  SwUartRXData := 0
  SwUartTXData := 0
  SwUartTXBitCount := 0
  tmp_char := 0
  tmp_buf := fun _ => 0
  i := 0
  j := 0
  low_flag := 0
  time_set_flag := 0
  ten_sec_flag := 0
  blink_flag := 1
  boot_flag := 0
  kill_flag := 0
  boot_cnt := 3
  PORTA := clrbit (clrbit (setbit (setbit 0 3) 7) 1) 2
  ADMUX := 128
  TIMSK1 := 0
  GIMSK := setbit 0 INT0
  OCR1A := ONE_BIT
  TCNT1 := 0

/-- Line 259, `PORTA |= (1<<1)`: the load is switched on when the start-up
wait `while(sec != 5)` is left. -/
def enter_loop (s : State) : State := { s with PORTA := setbit s.PORTA 1 }

/-- Load switch output, `PORTA & (1<<1)`. -/
def load_on (s : State) : Bool := tstbit s.PORTA 1

/-- Solar (charging path) switch output, `PORTA & (1<<2)`. -/
def solar_on (s : State) : Bool := tstbit s.PORTA 2

/-- Level of the transmit pin PA7. -/
def tx_pin (s : State) : Bool := tstbit s.PORTA 7

/-! ## Low level output functions (lines 100-123) -/

/-- The loop body shared by `pgm_out_str` and `out_str`:
`wt[wt_wt_pnt] = c; wt_wt_pnt++; if(wt_wt_pnt == BUF_LEN) wt_wt_pnt = 0;`. -/
def wt_put (c : Nat) (s : State) : State :=
  let s : State := { s with wt := upd s.wt s.wt_wt_pnt c }
  let s : State := { s with wt_wt_pnt := u16 (s.wt_wt_pnt + 1) }
  if s.wt_wt_pnt = BUF_LEN then { s with wt_wt_pnt := 0 } else s

/-- Function `pgm_out_str(strng)`: copies the bytes of a program-memory string
up to its NUL into the outbound buffer.  `tmp_char` holds the byte last read. -/
def pgm_out_str : List Nat → State → State
  | [], s => { s with tmp_char := 0 }
  | c :: rest, s =>
    let s : State := { s with tmp_char := c }
    if s.tmp_char ≠ 0 then pgm_out_str rest (wt_put s.tmp_char s) else s

/-- The `while (tmp_buf[i])` loop of `out_str`, `i` being its local index.
The first argument bounds the number of iterations by the size of `tmp_buf`. -/
def out_str_loop : Nat → Nat → State → State
  | 0, _, s => s
  | fuel + 1, i, s =>
    if s.tmp_buf i ≠ 0 then out_str_loop fuel (i + 1) (wt_put (s.tmp_buf i) s) else s

/-- Function `out_str`: it ignores its argument and copies `tmp_buf`. -/
def out_str (s : State) : State := out_str_loop 16 0 s

/-! ## Interrupt handlers (lines 128-221) -/

/-- First half of `ISR (TIM0_OVF_vect)`, lines 131-150: time keeping. -/
def timekeeping (s : State) : State :=
  let s : State := { s with tick := u16 (s.tick + 1) }
  if s.tick = 2400 then
    let s : State := { s with tick := 0 }
    let s : State := { s with sec := u8 (s.sec + 1) }
    if s.sec = 60 then
      let s : State := { s with sec := 0 }
      let s : State := { s with min := u8 (s.min + 1) }
      if s.min = 60 then
        let s : State := { s with min := 0 }
        let s : State := { s with hour := u8 (s.hour + 1) }
        if s.hour = 24 then { s with hour := 0 } else s
      else s
    else s
  else s

/-- Second half of `ISR (TIM0_OVF_vect)`, lines 153-185: software UART
transmitter. -/
def uart_tx (s : State) : State :=
  if s.SwUartTXState = 0 then
    if s.wt_rd_pnt ≠ s.wt_wt_pnt then
      let s : State := { s with PORTA := clrbit s.PORTA 7 }
      let s : State := { s with SwUartTXState := 1 }
      let s : State := { s with SwUartTXBitCount := 0 }
      let s : State := { s with SwUartTXData := s.wt s.wt_rd_pnt }
      let s : State := { s with wt_rd_pnt := u16 (s.wt_rd_pnt + 1) }
      if s.wt_rd_pnt = BUF_LEN then { s with wt_rd_pnt := 0 } else s
    else s
  else
    if s.SwUartTXBitCount < 8 then
      let s : State :=
        { s with PORTA := if s.SwUartTXData &&& 1 ≠ 0 then setbit s.PORTA 7 else clrbit s.PORTA 7 }
      let s : State := { s with SwUartTXData := s.SwUartTXData >>> 1 }
      { s with SwUartTXBitCount := u8 (s.SwUartTXBitCount + 1) }
    else
      let s : State := { s with PORTA := setbit s.PORTA 7 }
      { s with SwUartTXState := 0 }

/-- Handler `ISR (TIM0_OVF_vect)`: time keeping, then the transmitter. -/
def TIM0_OVF (s : State) : State := uart_tx (timekeeping s)

/-- Handler `ISR (TIM1_COMPA_vect)`; `pin` is the level read from `PINB` bit 2. -/
def TIM1_COMPA (pin : Bool) (s : State) : State :=
  if s.SwUartRXBitCount < 9 then
    let s : State := { s with SwUartRXBitCount := u8 (s.SwUartRXBitCount + 1) }
    let s : State := { s with SwUartRXData := s.SwUartRXData >>> 1 }
    let s : State :=
      { s with SwUartRXData := if pin then s.SwUartRXData ||| 128 else s.SwUartRXData }
    { s with OCR1A := ONE_BIT }
  else
    let s : State := { s with rd := upd s.rd s.rd_wt_pnt s.SwUartRXData }
    let s : State := { s with rd_wt_pnt := u16 (s.rd_wt_pnt + 1) }
    let s : State := { s with rd_wt_pnt := if s.rd_wt_pnt = BUF_LEN then 0 else s.rd_wt_pnt }
    let s : State := { s with TIMSK1 := clrbit s.TIMSK1 OCIE1A }
    { s with GIMSK := setbit s.GIMSK INT0 }

/-- Handler `ISR (EXT_INT0_vect)`: start bit detection. -/
def EXT_INT0 (s : State) : State :=
  let s : State := { s with GIMSK := clrbit s.GIMSK INT0 }
  let s : State := { s with SwUartRXBitCount := 0 }
  let s : State := { s with TCNT1 := 0 }
  let s : State := { s with OCR1A := ONE_HALF_BIT }
  { s with TIMSK1 := setbit s.TIMSK1 OCIE1A }

/-! ## Library functions used by the command interpreter

The functions `atoi`, `itoa` and `strlen` come from the C library; they are
modelled by their contract on NUL-terminated strings held in a byte array. -/

/-- Predicate `isspace` of the C locale. -/
def isspace (c : Nat) : Bool := decide (c = 32 ∨ (9 ≤ c ∧ c ≤ 13))

/-- Predicate `isdigit`. -/
def isdigit (c : Nat) : Bool := decide (48 ≤ c ∧ c ≤ 57)

/-- Position of the first byte at or after `p` that is not white space. -/
def atoi_skip (buf : Nat → Nat) : Nat → Nat → Nat
  | 0, p => p
  | fuel + 1, p => if isspace (buf p) then atoi_skip buf fuel (p + 1) else p

/-- Accumulation of the decimal digits found from position `p` on, in 16-bit
arithmetic. -/
def atoi_digits (buf : Nat → Nat) : Nat → Nat → Int → Int
  | 0, _, acc => acc
  | fuel + 1, p, acc =>
    if isdigit (buf p) then
      atoi_digits buf fuel (p + 1) (s16 (acc * 10 + ((buf p : Int) - 48)))
    else acc

/-- Library function `atoi(&buf[off])`: optional white space, optional sign,
decimal digits; conversion stops at the first other byte. -/
def atoi (buf : Nat → Nat) (off : Nat) : Int :=
  let p := atoi_skip buf BUF_LEN off
  if buf p = 45 then s16 (-(atoi_digits buf BUF_LEN (p + 1) 0))
  else if buf p = 43 then atoi_digits buf BUF_LEN (p + 1) 0
  else atoi_digits buf BUF_LEN p 0

/-- Decimal digits of `n`, most significant first, as ASCII codes. -/
def dec_digits : Nat → Nat → List Nat → List Nat
  | 0, _, acc => acc
  | fuel + 1, n, acc =>
    if n < 10 then (48 + n) :: acc else dec_digits fuel (n / 10) ((48 + n % 10) :: acc)

/-- Characters written by `itoa(v, _, 10)`, without the terminating NUL. -/
def itoa_chars (v : Int) : List Nat :=
  if v < 0 then 45 :: dec_digits 6 (-v).toNat [] else dec_digits 6 v.toNat []

/-- Stores the characters `cs` followed by NUL into `buf` from index `off`. -/
def poke (buf : Nat → Nat) : Nat → List Nat → Nat → Nat
  | off, [] => upd buf off 0
  | off, c :: cs => poke (upd buf off c) (off + 1) cs

/-- Library function `itoa(v, &buf[off], 10)`. -/
def itoa (v : Int) (buf : Nat → Nat) (off : Nat) : Nat → Nat := poke buf off (itoa_chars v)

/-- Library function `strlen(&buf[p])`; the first argument bounds the scan by
the size of the array. -/
def strlen (buf : Nat → Nat) : Nat → Nat → Nat
  | 0, _ => 0
  | fuel + 1, p => if buf p = 0 then 0 else 1 + strlen buf fuel (p + 1)

/-- Loop `for(i = n - 1; i >= 0; i--) buf[i + 2] = buf[i];`. -/
def shift2 (buf : Nat → Nat) : Nat → Nat → Nat
  | 0 => buf
  | n + 1 => shift2 (upd buf (n + 2) (buf n)) n

/-! ## Foreground loop: the once-per-second block (lines 267-335) -/

/-- Result of one A/D conversion as the program sees it: `ADC` is the raw
conversion register, `volt` the value of the expression
`(int)((float)ADC * 15.14)`, whose floating point evaluation is left outside
the embedding. -/
structure AdcIn where
  ADC : Nat
  volt : Int

/-- Lines 272-292: led blinking and the alternating A/D conversions. -/
def sample (a : AdcIn) (s : State) : State :=
  if s.blink_flag ≠ 0 then
    let s : State := { s with bat_volt := s16 a.volt }
    let s : State := { s with ADMUX := 128 }
    let s : State :=
      { s with PORTA := if s.time_set_flag = 0 then clrbit s.PORTA 3 else s.PORTA }
    { s with blink_flag := 0 }
  else
    let s : State := { s with temp := s16 ((a.ADC : Int) - 264) }
    let s : State := { s with ADMUX := 162 }
    let s : State := { s with PORTA := setbit s.PORTA 3 }
    { s with blink_flag := 1 }

/-- Lines 295-299: the load is switched on at the starting time unless the
battery is low. -/
def schedule_start (s : State) : State :=
  if s.sec = 0 ∧ s.min = s.a_min ∧ s.hour = s.a_hour ∧ s.low_flag = 0 then
    let s : State := { s with PORTA := setbit s.PORTA 1 }
    let s : State := { s with time_set_flag := 0 }
    { s with boot_cnt := 3 }
  else s

/-- Line 300: the load is switched off at the ending time. -/
def schedule_stop (s : State) : State :=
  if s.sec = 0 ∧ s.min = s.s_min ∧ s.hour = s.s_hour then
    { s with PORTA := clrbit s.PORTA 1 }
  else s

/-- Lines 295-300: starting and ending times. -/
def schedule (s : State) : State := schedule_stop (schedule_start s)

/-- Lines 306-314: solar switch hysteresis and low battery inhibition. -/
def battery (s : State) : State :=
  let s : State := { s with PORTA := if s.bat_volt > 12300 then clrbit s.PORTA 2 else s.PORTA }
  let s : State := { s with PORTA := if s.bat_volt < 12200 then setbit s.PORTA 2 else s.PORTA }
  let s : State := { s with ten_sec_flag := if s.sec = 10 then 1 else s.ten_sec_flag }
  let s : State :=
    { s with low_flag := if s.bat_volt < 9300 ∧ s.ten_sec_flag ≠ 0 then 1 else s.low_flag }
  let s : State := { s with low_flag := if s.bat_volt > 9600 then 0 else s.low_flag }
  { s with PORTA := if tstbit s.PORTA 1 = true ∧ s.low_flag ≠ 0 then clrbit s.PORTA 1 else s.PORTA }

/-- Lines 317-321: countdown of a kill command. -/
def kill_countdown (s : State) : State :=
  if s.kill_flag > 0 then
    let s : State := { s with kill_flag := s.kill_flag - 1 }
    if s.kill_flag = 0 then { s with PORTA := clrbit s.PORTA 1 } else s
  else s

/-- Lines 322-327: countdown of a boot command. -/
def boot_countdown (s : State) : State :=
  if s.boot_flag > 0 then
    let s : State := { s with boot_flag := s.boot_flag - 1 }
    let s : State := { s with PORTA := if s.boot_flag = 5 then clrbit s.PORTA 1 else s.PORTA }
    if s.boot_flag = 0 then { s with PORTA := setbit s.PORTA 1 } else s
  else s

/-- Lines 328-334: no time update seen at second 59, hence reboot or kill. -/
def liveness_check (s : State) : State :=
  if s.sec = 59 ∧ s.time_set_flag = 0 then
    let s : State := { s with boot_cnt := s8 (s.boot_cnt - 1) }
    if s.boot_cnt > 0 then { s with boot_flag := 10 }
    else if s.boot_cnt = 0 then { s with kill_flag := 5 }
    else { s with boot_cnt := 0 }
  else s

/-- Lines 317-334: kill and reboot countdowns, liveness check at second 59. -/
def escalation (s : State) : State := liveness_check (boot_countdown (kill_countdown s))

/-- The body of `if (old_sec != sec)`, lines 269-334: one supervisor
evaluation, fed with the result `a` of its A/D conversion. -/
def supervisor (a : AdcIn) (s : State) : State :=
  escalation (battery (schedule (sample a { s with old_sec := s.sec })))

/-! ## Foreground loop: receiving and interpreting commands (lines 337-594) -/

/-- Body of the loop `while(rd_rd_pnt != rd_wt_pnt)`, lines 340-345. -/
def drain_step (s : State) : State :=
  let s : State := { s with cmd_buf := upd s.cmd_buf s.cmd_buf_pnt (s.rd s.rd_rd_pnt) }
  let s : State := { s with cmd_flag := if s.rd s.rd_rd_pnt = 13 then 1 else s.cmd_flag }
  let s : State := { s with rd_rd_pnt := u16 (s.rd_rd_pnt + 1) }
  let s : State := { s with rd_rd_pnt := if s.rd_rd_pnt = BUF_LEN then 0 else s.rd_rd_pnt }
  let s : State := { s with cmd_buf_pnt := u16 (s.cmd_buf_pnt + 1) }
  if s.cmd_buf_pnt = BUF_LEN then { s with cmd_buf_pnt := BUF_LEN - 1 } else s

/-- Loop `while(rd_rd_pnt != rd_wt_pnt)` with a bound on its iterations. -/
def drain_loop : Nat → State → State
  | 0, s => s
  | fuel + 1, s => if s.rd_rd_pnt ≠ s.rd_wt_pnt then drain_loop fuel (drain_step s) else s

/-- Lines 337-346.  With both cursors below `BUF_LEN` the loop ends within
`BUF_LEN` iterations. -/
def drain (s : State) : State := drain_loop BUF_LEN s

/-- Set form of `T`, lines 420-426. -/
def set_T (s : State) : State :=
  let s : State := { s with cmd_buf := upd s.cmd_buf 5 0 }
  let s : State := { s with min := int_to_u8 (atoi s.cmd_buf 3) }
  let s : State := { s with min := if s.min > 59 then 59 else s.min }
  let s : State := { s with cmd_buf := upd s.cmd_buf 3 0 }
  let s : State := { s with hour := int_to_u8 (atoi s.cmd_buf 1) }
  let s : State := { s with hour := if s.hour > 23 then 23 else s.hour }
  { s with time_set_flag := 1 }

/-- Set form of `A`, lines 467-472. -/
def set_A (s : State) : State :=
  let s : State := { s with cmd_buf := upd s.cmd_buf 5 0 }
  let s : State := { s with a_min := int_to_u8 (atoi s.cmd_buf 3) }
  let s : State := { s with a_min := if s.a_min > 59 then 59 else s.a_min }
  let s : State := { s with cmd_buf := upd s.cmd_buf 3 0 }
  let s : State := { s with a_hour := int_to_u8 (atoi s.cmd_buf 1) }
  { s with a_hour := if s.a_hour > 23 then 23 else s.a_hour }

/-- Set form of `S`, lines 513-518. -/
def set_S (s : State) : State :=
  let s : State := { s with cmd_buf := upd s.cmd_buf 5 0 }
  let s : State := { s with s_min := int_to_u8 (atoi s.cmd_buf 3) }
  let s : State := { s with s_min := if s.s_min > 59 then 59 else s.s_min }
  let s : State := { s with cmd_buf := upd s.cmd_buf 3 0 }
  let s : State := { s with s_hour := int_to_u8 (atoi s.cmd_buf 1) }
  { s with s_hour := if s.s_hour > 23 then 23 else s.s_hour }

/-- The reply block `case 3:` of `T`, `A` and `S` (lines 429-452, 475-498,
521-544).  The three copies differ only in the tag letter and in the pair of
variables printed, here `tag`, `h` and `m`.  The block works on `tmp_buf`, `j`
and `i` only; `buf` and `j` below are those variables, stored back before the
call of `out_str`. -/
def tell (tag h m : Nat) (s : State) : State :=
  let buf := itoa h s.tmp_buf 0
  let j := strlen buf 16 0
  let buf := if j = 1 then upd (upd buf 1 (buf 0)) 0 48 else buf
  let buf := upd buf 2 58
  let buf := itoa m buf 3
  let j := strlen buf 16 0
  let buf := if j = 4 then upd (upd buf 4 (buf 3)) 3 48 else buf
  let buf := upd buf 5 0
  let buf := shift2 buf 6
  let buf := upd buf 0 tag
  let buf := upd buf 1 61
  let buf := upd buf 7 13
  let buf := upd buf 8 10
  let buf := upd buf 9 0
  out_str { s with tmp_buf := buf, j := j, i := -1 }

/-- One tagged field of the `B` reply (lines 375-382 with `tag` = 'B' and
`v = bat_volt`, lines 384-391 with `tag` = 'T' and `v = temp`), on `tmp_buf`,
`j` and `i` as in `tell`. -/
def tell_val (tag : Nat) (v : Int) (s : State) : State :=
  let buf := itoa v s.tmp_buf 0
  let j := strlen buf 16 0
  let buf := shift2 buf j
  let buf := upd buf 0 tag
  let buf := upd buf 1 61
  let buf := upd buf (j + 2) 32
  let buf := upd buf (j + 3) 0
  out_str { s with tmp_buf := buf, j := j, i := -1 }

/-- Reply of `B`, lines 375-405. -/
def tell_B (s : State) : State :=
  let s := tell_val 66 s.bat_volt s
  let s := tell_val 84 s.temp s
  let buf := upd s.tmp_buf 0 83
  let buf := upd buf 1 61
  let buf := if tstbit s.PORTA 2 = true then upd buf 2 49 else upd buf 2 48
  let buf := upd buf 3 32
  let buf := upd buf 4 76
  let buf := upd buf 5 61
  let buf := if tstbit s.PORTA 1 = true then upd buf 6 49 else upd buf 6 48
  let buf := upd buf 7 13
  let buf := upd buf 8 10
  let buf := upd buf 9 0
  out_str { s with tmp_buf := buf }

/-- The statement `switch(cmd_buf[0])`, lines 350-589. -/
def command_switch (s : State) : State :=
  let c := s.cmd_buf 0
  if c = 72 ∨ c = 104 then
    if s.cmd_buf_pnt = 3 then pgm_out_str hello { s with i := 0 }
    else pgm_out_str error s
  else if c = 66 ∨ c = 98 then
    if s.cmd_buf_pnt = 3 then tell_B s
    else pgm_out_str error s
  else if c = 84 ∨ c = 116 then
    if s.cmd_buf_pnt = 6 then
      let s := set_T s
      tell 84 s.hour s.min s
    else if s.cmd_buf_pnt = 3 then tell 84 s.hour s.min s
    else pgm_out_str error s
  else if c = 65 ∨ c = 97 then
    if s.cmd_buf_pnt = 6 then
      let s := set_A s
      tell 65 s.a_hour s.a_min s
    else if s.cmd_buf_pnt = 3 then tell 65 s.a_hour s.a_min s
    else pgm_out_str error s
  else if c = 83 ∨ c = 115 then
    if s.cmd_buf_pnt = 6 then
      let s := set_S s
      tell 83 s.s_hour s.s_min s
    else if s.cmd_buf_pnt = 3 then tell 83 s.s_hour s.s_min s
    else pgm_out_str error s
  else if c = 75 ∨ c = 107 then
    if s.cmd_buf_pnt = 3 then
      let s := pgm_out_str kill { s with i := 0 }
      { s with kill_flag := 5 }
    else pgm_out_str error s
  else if c = 82 ∨ c = 114 then
    if s.cmd_buf_pnt = 3 then
      let s := pgm_out_str boot { s with i := 0 }
      { s with boot_flag := 10 }
    else pgm_out_str error s
  else pgm_out_str error s

/-- The body of `if(cmd_flag)`, lines 350-593: interpretation of the line held
in `cmd_buf`, then the reset of line buffer, flag and inbound buffer. -/
def dispatch (s : State) : State :=
  let s := command_switch s
  let s : State := { s with cmd_buf_pnt := 0 }
  let s : State := { s with cmd_flag := 0 }
  { s with rd_rd_pnt := s.rd_wt_pnt }

/-- One pass through the endless loop of `main`, lines 267-594, fed with the
A/D conversion result used if the supervisor block runs. -/
def main_loop (a : AdcIn) (s : State) : State :=
  let s := if s.old_sec ≠ s.sec then supervisor a s else s
  let s := drain s
  if s.cmd_flag ≠ 0 then dispatch s else s

/-- State of the foreground once the bytes of `line` have been drained into an
empty line buffer: they sit at the start of `cmd_buf`, `cmd_buf_pnt` counts
them and `cmd_flag` is raised. -/
def with_line (line : List Nat) (s : State) : State :=
  { s with
    cmd_buf := fun k => if k < line.length then line.getD k 0 else s.cmd_buf k
    cmd_buf_pnt := line.length
    cmd_flag := 1 }

/-! ## Specification vocabulary -/

/-- The clock fields are in range. -/
def valid_clock (s : State) : Prop := s.hour ≤ 23 ∧ s.min ≤ 59 ∧ s.sec ≤ 59

/-- Seconds elapsed since midnight according to the clock. -/
def seconds_of_day (s : State) : Nat := 3600 * s.hour + 60 * s.min + s.sec

/-- The timer-0 handler run `n` times in a row. -/
def ticks (n : Nat) (s : State) : State := Nat.iterate TIM0_OVF n s

instance (s : State) : Decidable (valid_clock s) := by
  unfold valid_clock; infer_instance

/-- Levels of the transmit pin after each of the next `n` runs of the timer-0
handler. -/
def tx_levels : Nat → State → List Bool
  | 0, _ => []
  | n + 1, s => tx_pin (TIM0_OVF s) :: tx_levels n (TIM0_OVF s)

/-- A clock one second before midnight, part of the way through the second. -/
def eve_state : State := { reset_state with hour := 23, min := 59, sec := 59, tick := 1234 }

/-- An idle transmitter with the byte `0x54` waiting at slot 31 of the
outbound buffer. -/
def tx_pending_state : State :=
  { reset_state with wt := upd reset_state.wt 31 84, wt_rd_pnt := 31, wt_wt_pnt := 0 }

/-- Ring buffer write of the bytes `bs` from cursor `w` on: resulting contents
and cursor. -/
def ring_put (wt : Nat → Nat) (w : Nat) : List Nat → (Nat → Nat) × Nat
  | [] => (wt, w)
  | b :: bs => ring_put (upd wt w b) ((w + 1) % BUF_LEN) bs

/-- Predicate relating `s` to `t` when the outbound buffer of `t` is that of `s` with
exactly the bytes `reply` appended: byte `k` sits `k` slots after the old write
cursor (modulo the capacity), every other slot is as before, the write cursor
has moved past the reply and the read cursor has not moved. -/
def Enqueued (s t : State) (reply : List Nat) : Prop :=
  t.wt_wt_pnt = (s.wt_wt_pnt + reply.length) % BUF_LEN ∧
    t.wt_rd_pnt = s.wt_rd_pnt ∧
    (∀ k, k < reply.length → t.wt ((s.wt_wt_pnt + k) % BUF_LEN) = reply.getD k 0) ∧
    (∀ p, (∀ k, k < reply.length → p ≠ (s.wt_wt_pnt + k) % BUF_LEN) → t.wt p = s.wt p)

/-- The reply "X=hh:mm" CR LF with tag letter `tag` and two-digit fields. -/
def time_reply (tag h m : Nat) : List Nat :=
  [tag, 61, 48 + h / 10, 48 + h % 10, 58, 48 + m / 10, 48 + m % 10, 13, 10]

/-- The reply "Command error" CR LF. -/
def error_reply : List Nat := [67, 111, 109, 109, 97, 110, 100, 32, 101, 114, 114, 111, 114, 13, 10]

/-- Byte `c` is one of the command letters H, B, T, A, S, K, R in either case. -/
def is_cmd_letter (c : Nat) : Prop :=
  c ∈ [72, 104, 66, 98, 84, 116, 65, 97, 83, 115, 75, 107, 82, 114]

/-- Byte `c` is one of the letters T, A, S (in either case), which have a set form. -/
def takes_arg (c : Nat) : Prop := c ∈ [84, 116, 65, 97, 83, 115]

/-- A completed line with first byte `c` and `n` bytes (terminator included)
has no recognised form: the first byte is no command letter, or the length is
not 3 and, for T, A and S, not 6 either. -/
def malformed (c n : Nat) : Prop := ¬ is_cmd_letter c ∨ (n ≠ 3 ∧ ¬ (takes_arg c ∧ n = 6))

instance (c : Nat) : Decidable (is_cmd_letter c) := by unfold is_cmd_letter; infer_instance

instance (c : Nat) : Decidable (takes_arg c) := by unfold takes_arg; infer_instance

instance (c n : Nat) : Decidable (malformed c n) := by unfold malformed; infer_instance

/-- The 6-byte set line: letter, two hour digits, two minute digits, CR. -/
def set_line (tag h m : Nat) : List Nat :=
  [tag, 48 + h / 10, 48 + h % 10, 48 + m / 10, 48 + m % 10, 13]

/-- The 3-byte query line: letter, question mark, CR. -/
def query_line (tag : Nat) : List Nat := [tag, 63, 13]

/-- Dispatch of a completed line: the line is in the line buffer, then the
command interpreter runs. -/
def send (line : List Nat) (s : State) : State := dispatch (with_line line s)

/-- Clock and schedule are in range: hours at most 23, minutes and seconds at
most 59. -/
def times_ok (s : State) : Prop :=
  s.hour ≤ 23 ∧ s.min ≤ 59 ∧ s.sec ≤ 59 ∧ s.a_hour ≤ 23 ∧ s.a_min ≤ 59 ∧
    s.s_hour ≤ 23 ∧ s.s_min ≤ 59

instance (s : State) : Decidable (times_ok s) := by unfold times_ok; infer_instance

/-- State `t` has the clock and schedule of `s`. -/
def same_times (s t : State) : Prop :=
  t.hour = s.hour ∧ t.min = s.min ∧ t.sec = s.sec ∧ t.a_hour = s.a_hour ∧
    t.a_min = s.a_min ∧ t.s_hour = s.s_hour ∧ t.s_min = s.s_min

/-- States the program can be in between two atomic steps: from reset, by runs
of the three interrupt handlers (with any level on the receive pin), by leaving
the start-up wait once the clock shows second 5, by passes through the endless
loop (with any A/D result), and by dispatches of command lines of arbitrary
content. -/
inductive Reachable : State → Prop
  | reset : Reachable reset_state
  | tim0 {s : State} : Reachable s → Reachable (TIM0_OVF s)
  | tim1 {s : State} (pin : Bool) : Reachable s → Reachable (TIM1_COMPA pin s)
  | int0 {s : State} : Reachable s → Reachable (EXT_INT0 s)
  | enter {s : State} : Reachable s → s.sec = 5 → Reachable (enter_loop s)
  | loop {s : State} (a : AdcIn) : Reachable s → Reachable (main_loop a s)
  | command {s : State} (line : List Nat) : Reachable s → Reachable (send line s)

/-- The clock reads `Schedule.start` at second 0. -/
def start_due (s : State) : Prop := s.sec = 0 ∧ s.min = s.a_min ∧ s.hour = s.a_hour

/-- The clock reads `Schedule.stop` at second 0. -/
def stop_due (s : State) : Prop := s.sec = 0 ∧ s.min = s.s_min ∧ s.hour = s.s_hour

instance (s : State) : Decidable (start_due s) := by unfold start_due; infer_instance

instance (s : State) : Decidable (stop_due s) := by unfold stop_due; infer_instance

/-- One second of operation without serial traffic being handled: 2400 runs of
the timer-0 handler, then the supervisor evaluation for the new second, fed
with the A/D result `a`. -/
def second_step (a : AdcIn) (s : State) : State := supervisor a (ticks 2400 s)

/-- State after `k` seconds of operation from `s`, the `i`-th supervisor
evaluation (counted from 0) being fed with the A/D result `adc i`. -/
def after (adc : Nat → AdcIn) : Nat → State → State
  | 0, s => s
  | k + 1, s => second_step (adc k) (after adc k s)

/-- A state of the running system with an empty battery: load off and
inhibited, 9000 mV measured, a reboot countdown in its last second, the next
conversion being a temperature one. -/
def low_battery_reboot_state : State :=
  { reset_state with sec := 30, old_sec := 29, bat_volt := 9000, low_flag := 1,
                     ten_sec_flag := 1, blink_flag := 0, boot_flag := 1, boot_cnt := 2 }

/-- The running system at 20:00:00, the default starting time: load off, not
inhibited, 12000 mV measured, and a kill countdown in its last second. -/
def start_with_kill_state : State :=
  { reset_state with hour := 20, min := 0, sec := 0, old_sec := 59, bat_volt := 12000,
                     blink_flag := 0, ten_sec_flag := 1, kill_flag := 1 }

/-- The running system with the charging path enabled and 12250 mV measured. -/
def charging_state : State :=
  { reset_state with sec := 7, old_sec := 6, bat_volt := 12250, PORTA := setbit reset_state.PORTA 2 }

/-- Number of seconds until the next supervisor evaluation at second 59. -/
def first_boundary (s : State) : Nat := if s.sec = 59 then 60 else 59 - s.sec

/-- The variables of the liveness escalation: second, `boot_cnt`, `boot_flag`,
`kill_flag`. -/
def esc_of (s : State) : Nat × Int × Nat × Nat := (s.sec, s.boot_cnt, s.boot_flag, s.kill_flag)

/-- Lines 317-334 on the escalation variables alone, for one second in which
the time has not been set and no scheduled start fires: the second advances,
both countdowns count down, and at second 59 `boot_cnt` is consumed. -/
def esc_step (e : Nat × Int × Nat × Nat) : Nat × Int × Nat × Nat :=
  let sec := (e.1 + 1) % 60
  if sec = 59 then
    if s8 (e.2.1 - 1) > 0 then (sec, s8 (e.2.1 - 1), 10, e.2.2.2 - 1)
    else if s8 (e.2.1 - 1) = 0 then (sec, 0, e.2.2.1 - 1, 5)
    else (sec, 0, e.2.2.1 - 1, e.2.2.2 - 1)
  else (sec, e.2.1, e.2.2.1 - 1, e.2.2.2 - 1)

/-- The step `esc_step` repeated `n` times. -/
def esc_run : Nat → Nat × Int × Nat × Nat → Nat × Int × Nat × Nat
  | 0, e => e
  | n + 1, e => esc_step (esc_run n e)

/-- The running system two seconds after start-up (00:00:07, load on,
`boot_cnt = 3`, time not set, no countdown), the starting time having been set
to 00:02 by an `A` command in between; 12000 mV measured. -/
def early_start_state : State :=
  { enter_loop reset_state with sec := 7, old_sec := 7, a_hour := 0, a_min := 2,
                                bat_volt := 12000, blink_flag := 0 }

/-- A constant A/D input: 12000 mV. -/
def steady_adc : Nat → AdcIn := fun _ => ⟨792, 12000⟩

/-- The test of line 295: the clock reads `Schedule.start` at second 0 and the
battery is not flagged low, so that this supervisor evaluation switches the
load on and sets `boot_cnt` back to 3. -/
def start_fires (s : State) : Prop := start_due s ∧ s.low_flag = 0

instance (s : State) : Decidable (start_fires s) := by unfold start_fires; infer_instance

/-- The system when the start-up wait `while(sec != 5)` of line 258 is left and
line 259 has switched the load on: 00:00:05, `boot_cnt = 3`, time not set, no
countdown running, default schedule (start 20:00, stop 23:00). -/
def loop_entry_state : State := { enter_loop reset_state with sec := 5 }

/-- The bit-interval handler run once for each line level of `levels`, in
order. -/
def rx_frame (levels : List Bool) (s : State) : State :=
  levels.foldl (fun t pin => TIM1_COMPA pin t) s

/-- A receiver in mid-traffic: shift register `0xff` left by the previous
byte, inbound write cursor at the last slot. -/
def rx_busy_state : State := { reset_state with SwUartRXData := 255, rd_wt_pnt := 31 }

/-- Signed base-10 rendering of `v` as ASCII codes: a minus sign for a negative
value, then the decimal digits of the magnitude as `Nat.toDigits` gives them. -/
def decimal (v : Int) : List Nat :=
  if v < 0 then 45 :: (Nat.toDigits 10 (-v).toNat).map Char.toNat
  else (Nat.toDigits 10 v.toNat).map Char.toNat

/-- The reply of `B`: "B=" voltage " T=" temperature " S=" solar " L=" load CR
LF, the switch states as the digits 1 (on) and 0 (off). -/
def battery_reply (v t : Int) (solar load : Bool) : List Nat :=
  [66, 61] ++ decimal v ++ [32, 84, 61] ++ decimal t ++
    [32, 83, 61, if solar = true then 49 else 48, 32, 76, 61,
     if load = true then 49 else 48, 13, 10]

/-- The unread bytes of the inbound buffer, oldest first: the slots from the
read cursor up to the write cursor, modulo the capacity. -/
def inbound (s : State) : List Nat :=
  (List.range ((s.rd_wt_pnt + BUF_LEN - s.rd_rd_pnt) % BUF_LEN)).map
    (fun k => s.rd ((s.rd_rd_pnt + k) % BUF_LEN))

/-- The running system at 10:30:20, the supervisor block already run for this
second, with the bytes `bytes` received and not yet drained, the first of them
at slot `r` of the inbound buffer. -/
def received (r : Nat) (bytes : List Nat) : State :=
  { enter_loop reset_state with
    hour := 10, min := 30, sec := 20, old_sec := 20,
    rd := fun k => bytes.getD ((k + BUF_LEN - r) % BUF_LEN) 0,
    rd_rd_pnt := r, rd_wt_pnt := (r + bytes.length) % BUF_LEN }

/-- The running system at 10:00:30 with the time set (`time_set_flag = 1`), the
load off and a reboot countdown in its last second, as nine evaluations after
an `R` command leave it; 12000 mV measured. -/
def confirmed_reboot_state : State :=
  { reset_state with hour := 10, sec := 30, old_sec := 29, bat_volt := 12000,
                     blink_flag := 0, ten_sec_flag := 1, time_set_flag := 1, boot_flag := 1 }

/-- The reply "Rebooting" CR LF. -/
def boot_reply : List Nat := [82, 101, 98, 111, 111, 116, 105, 110, 103, 13, 10]

/-- State `s` is as an evaluation leaves it whose liveness check (lines
328-331) has armed the reboot countdown: second 59, the time not set, and
retries left after the decrement. -/
def rearmed (s : State) : Prop := s.sec = 59 ∧ s.time_set_flag = 0 ∧ s.boot_cnt > 0

instance (s : State) : Decidable (rearmed s) := by unfold rearmed; infer_instance

/-- The running system at 10:30:20 with 12000 mV measured, the battery not
flagged low, and the line 'R?' CR drained into the line buffer. -/
def reboot_line_state : State :=
  with_line [82, 63, 13] { received 0 [] with bat_volt := 12000 }

/-- The running system at 10:30:54 with the time not set, `boot_cnt = 3`, the
load on, 12000 mV measured, and the line 'R?' CR drained into the line
buffer. -/
def reboot_request_state : State :=
  with_line [82, 63, 13]
    { received 0 [] with sec := 54, old_sec := 54, bat_volt := 12000, blink_flag := 0 }

/-- The variables the supervisor block works with that no command writes:
the port register with both switch outputs, the two readings, the low-battery
flag, `boot_cnt`, the second, and the bookkeeping of the block itself; with
them the two cursors owned by the interrupt handlers. -/
def plant (s : State) : Nat × Int × Int × Nat × Int × Nat × Nat × Nat × Nat × Nat × Nat × Nat × Nat :=
  (s.PORTA, s.bat_volt, s.temp, s.low_flag, s.boot_cnt, s.sec, s.old_sec, s.tick, s.blink_flag,
   s.ten_sec_flag, s.ADMUX, s.rd_wt_pnt, s.wt_rd_pnt)

/-- The variables a command can set: clock hour and minute, both schedule
times, `time_set_flag`, `boot_flag` and `kill_flag`. -/
def control (s : State) : Nat × Nat × Nat × Nat × Nat × Nat × Nat × Nat × Nat :=
  (s.hour, s.min, s.a_hour, s.a_min, s.s_hour, s.s_min, s.time_set_flag, s.boot_flag, s.kill_flag)

/-- State `t` differs from `s` in nothing the supervisor block works with, and
its outbound write cursor is inside the buffer if that of `s` is. -/
def quiet (s t : State) : Prop :=
  plant t = plant s ∧ control t = control s ∧ (s.wt_wt_pnt < BUF_LEN → t.wt_wt_pnt < BUF_LEN)

/-- The line buffer holds a 3-byte line whose first byte is one of the letters
H, B, T, A, S in either case: a query. -/
def is_query (s : State) : Prop :=
  s.cmd_buf_pnt = 3 ∧ s.cmd_buf 0 ∈ [72, 104, 66, 98, 84, 116, 65, 97, 83, 115]

instance (s : State) : Decidable (is_query s) := by unfold is_query; infer_instance

/-- What the interpretation of a line may do, from `s` to `t`: nothing to the
variables of `plant`; the outbound write cursor stays inside the buffer; the
reboot countdown is kept or set to 10, the kill countdown kept or set to 5; and
a query changes none of the variables of `control`. -/
def command_effect (s t : State) : Prop :=
  plant t = plant s ∧ (s.wt_wt_pnt < BUF_LEN → t.wt_wt_pnt < BUF_LEN) ∧
    (t.boot_flag = s.boot_flag ∨ t.boot_flag = 10) ∧
    (t.kill_flag = s.kill_flag ∨ t.kill_flag = 5) ∧ (is_query s → control t = control s)

/-- An idle system whose outbound write cursor stands two slots before the end
of the buffer. -/
def near_wrap_state : State := { reset_state with wt_rd_pnt := 30, wt_wt_pnt := 30 }

/-- The escalation variables are in range: reboot countdown at most 10, kill
countdown at most 5, `boot_cnt` between 0 and 3. -/
def esc_ok (s : State) : Prop :=
  s.boot_flag ≤ 10 ∧ s.kill_flag ≤ 5 ∧ 0 ≤ s.boot_cnt ∧ s.boot_cnt ≤ 3

instance (s : State) : Decidable (esc_ok s) := by unfold esc_ok; infer_instance

/-- The four ring-buffer cursors and the index into the line buffer are below
the capacity. -/
def cursors_ok (s : State) : Prop :=
  s.rd_rd_pnt < BUF_LEN ∧ s.rd_wt_pnt < BUF_LEN ∧ s.wt_rd_pnt < BUF_LEN ∧
    s.wt_wt_pnt < BUF_LEN ∧ s.cmd_buf_pnt < BUF_LEN

instance (s : State) : Decidable (cursors_ok s) := by unfold cursors_ok; infer_instance

/-! # Properties -/

/-! ## Register bits -/

theorem tstbit_eq (r n : Nat) : tstbit r n = r.testBit n := by
  unfold tstbit
  rw [Nat.one_shiftLeft]
  cases h : r.testBit n
  · have : r &&& 2 ^ n = 0 := by
      apply Nat.eq_of_testBit_eq
      intro k
      simp only [Nat.testBit_and, Nat.testBit_two_pow, Nat.zero_testBit]
      by_cases hk : n = k
      · subst hk; simp [h]
      · simp [hk]
    simp [this]
  · have : r &&& 2 ^ n ≠ 0 := by
      intro h0
      have := congrArg (fun x => Nat.testBit x n) h0
      simp [Nat.testBit_and, Nat.testBit_two_pow, h] at this
    simp [this]

theorem testBit_setbit (r n m : Nat) :
    (setbit r n).testBit m = (r.testBit m || decide (n = m)) := by
  simp [setbit, Nat.one_shiftLeft, Nat.testBit_two_pow]

theorem testBit_clrbit (r n m : Nat) :
    (clrbit r n).testBit m = (r.testBit m && (decide (m < 8) != decide (n = m))) := by
  have h255 : (255 : Nat) = 2 ^ 8 - 1 := by norm_num
  unfold clrbit
  rw [Nat.testBit_and, Nat.testBit_xor, h255, Nat.testBit_two_pow_sub_one, Nat.one_shiftLeft,
    Nat.testBit_two_pow]

/-! ## Time base -/

theorem uart_tx_clock (s : State) :
    (uart_tx s).tick = s.tick ∧ (uart_tx s).sec = s.sec ∧ (uart_tx s).min = s.min ∧
      (uart_tx s).hour = s.hour := by
  unfold uart_tx
  dsimp only
  split_ifs <;> exact ⟨rfl, rfl, rfl, rfl⟩

theorem TIM0_OVF_within (s : State) (h : s.tick + 1 < 2400) :
    (TIM0_OVF s).tick = s.tick + 1 ∧ (TIM0_OVF s).sec = s.sec ∧ (TIM0_OVF s).min = s.min ∧
      (TIM0_OVF s).hour = s.hour := by
  have hu : u16 (s.tick + 1) = s.tick + 1 := by unfold u16; omega
  have hk : timekeeping s = { s with tick := s.tick + 1 } := by
    unfold timekeeping
    simp only [hu]
    rw [if_neg (by omega)]
  unfold TIM0_OVF
  rw [hk]
  obtain ⟨h1, h2, h3, h4⟩ := uart_tx_clock { s with tick := s.tick + 1 }
  exact ⟨h1, h2, h3, h4⟩

theorem TIM0_OVF_rollover (s : State) (hv : valid_clock s) (h : s.tick + 1 = 2400) :
    (TIM0_OVF s).tick = 0 ∧
      (TIM0_OVF s).sec = (if s.sec = 59 then 0 else s.sec + 1) ∧
      (TIM0_OVF s).min =
        (if s.sec = 59 then (if s.min = 59 then 0 else s.min + 1) else s.min) ∧
      (TIM0_OVF s).hour =
        (if s.sec = 59 ∧ s.min = 59 then (if s.hour = 23 then 0 else s.hour + 1)
         else s.hour) := by
  obtain ⟨hh, hm, hs⟩ := hv
  have hu : u16 (s.tick + 1) = 2400 := by unfold u16; omega
  have e1 : u8 (s.sec + 1) = s.sec + 1 := by unfold u8; omega
  have e2 : u8 (s.min + 1) = s.min + 1 := by unfold u8; omega
  have e3 : u8 (s.hour + 1) = s.hour + 1 := by unfold u8; omega
  obtain ⟨h1, h2, h3, h4⟩ := uart_tx_clock (timekeeping s)
  unfold TIM0_OVF
  rw [h1, h2, h3, h4]
  unfold timekeeping
  simp only [hu, e1, e2, e3, if_true]
  by_cases c1 : s.sec = 59
  · by_cases c2 : s.min = 59
    · by_cases c3 : s.hour = 23
      · simp [c1, c2, c3]
      · have : ¬ s.hour + 1 = 24 := by omega
        simp [c1, c2, c3, this]
    · have : ¬ s.min + 1 = 60 := by omega
      simp [c1, c2, this]
  · have : ¬ s.sec + 1 = 60 := by omega
    simp [c1, this]

theorem ticks_succ (n : Nat) (s : State) : ticks (n + 1) s = ticks n (TIM0_OVF s) := by
  unfold ticks
  rw [Function.iterate_succ_apply]

theorem ticks_add (m n : Nat) (s : State) : ticks (m + n) s = ticks m (ticks n s) := by
  unfold ticks
  rw [Function.iterate_add_apply]

theorem ticks_within (n : Nat) : ∀ s : State, s.tick + n < 2400 →
    (ticks n s).tick = s.tick + n ∧ (ticks n s).sec = s.sec ∧ (ticks n s).min = s.min ∧
      (ticks n s).hour = s.hour := by
  induction n with
  | zero => intro s _; simp [ticks]
  | succ n ih =>
    intro s h
    rw [ticks_succ]
    obtain ⟨a1, a2, a3, a4⟩ := TIM0_OVF_within s (by omega)
    obtain ⟨b1, b2, b3, b4⟩ := ih (TIM0_OVF s) (by omega)
    refine ⟨?_, ?_, ?_, ?_⟩
    · rw [b1, a1]; omega
    · rw [b2, a2]
    · rw [b3, a3]
    · rw [b4, a4]

theorem ticks_one_second (s : State) (hv : valid_clock s) (ht : s.tick < 2400) :
    (ticks 2400 s).tick = s.tick ∧
      (ticks 2400 s).sec = (if s.sec = 59 then 0 else s.sec + 1) ∧
      (ticks 2400 s).min =
        (if s.sec = 59 then (if s.min = 59 then 0 else s.min + 1) else s.min) ∧
      (ticks 2400 s).hour =
        (if s.sec = 59 ∧ s.min = 59 then (if s.hour = 23 then 0 else s.hour + 1)
         else s.hour) ∧
      valid_clock (ticks 2400 s) ∧
      seconds_of_day (ticks 2400 s) = (seconds_of_day s + 1) % 86400 := by
  have hsplit : 2400 = s.tick + ((2399 - s.tick) + 1) := by omega
  have e : ticks 2400 s = ticks s.tick (TIM0_OVF (ticks (2399 - s.tick) s)) := by
    conv_lhs => rw [hsplit]
    rw [ticks_add, Nat.add_comm (2399 - s.tick) 1, ticks_add]
    rfl
  obtain ⟨a1, a2, a3, a4⟩ := ticks_within (2399 - s.tick) s (by omega)
  have hv1 : valid_clock (ticks (2399 - s.tick) s) := by
    unfold valid_clock; rw [a2, a3, a4]; exact hv
  obtain ⟨b1, b2, b3, b4⟩ := TIM0_OVF_rollover _ hv1 (by rw [a1]; omega)
  obtain ⟨c1, c2, c3, c4⟩ := ticks_within s.tick (TIM0_OVF (ticks (2399 - s.tick) s))
    (by rw [b1]; omega)
  rw [a2] at b2
  rw [a2, a3] at b3
  rw [a2, a3, a4] at b4
  rw [b1] at c1
  rw [b2] at c2
  rw [b3] at c3
  rw [b4] at c4
  rw [e]
  obtain ⟨hh, hm, hs⟩ := hv
  refine ⟨by omega, c2, c3, c4, ?_, ?_⟩
  · unfold valid_clock
    rw [c2, c3, c4]
    refine ⟨?_, ?_, ?_⟩ <;> split_ifs <;> omega
  · unfold seconds_of_day
    rw [c2, c3, c4]
    split_ifs <;> omega

/-- C4: from a valid clock and a sub-second counter below 2400, 2400 runs of
the timer-0 handler advance the clock by exactly one second with cascading
rollover (59 s → 0 with the minute advanced, 59 min → 0 with the hour advanced,
hour 23 → 0), keep the clock valid and bring the sub-second counter back to
its starting value. -/
theorem C4_one_second (s : State) (hv : valid_clock s) (ht : s.tick < 2400) :
    (ticks 2400 s).tick = s.tick ∧
      (ticks 2400 s).sec = (if s.sec = 59 then 0 else s.sec + 1) ∧
      (ticks 2400 s).min =
        (if s.sec = 59 then (if s.min = 59 then 0 else s.min + 1) else s.min) ∧
      (ticks 2400 s).hour =
        (if s.sec = 59 ∧ s.min = 59 then (if s.hour = 23 then 0 else s.hour + 1)
         else s.hour) ∧
      valid_clock (ticks 2400 s) ∧
      seconds_of_day (ticks 2400 s) = (seconds_of_day s + 1) % 86400 :=
  ticks_one_second s hv ht

/-- C4 at 23:59:59: one second later the clock reads 00:00:00. -/
theorem C4_one_second_witness :
    valid_clock eve_state ∧ eve_state.tick < 2400 ∧
      (ticks 2400 eve_state).hour = 0 ∧ (ticks 2400 eve_state).min = 0 ∧
      (ticks 2400 eve_state).sec = 0 ∧ (ticks 2400 eve_state).tick = 1234 := by
  have h := C4_one_second eve_state (by decide) (by decide)
  obtain ⟨h1, h2, h3, h4, _, _⟩ := h
  refine ⟨by decide, by decide, ?_, ?_, ?_, ?_⟩
  · rw [h4]; rfl
  · rw [h3]; rfl
  · rw [h2]; rfl
  · rw [h1]; rfl

/-! ## Software UART transmitter -/

theorem ticks_succ_outer (n : Nat) (s : State) : ticks (n + 1) s = TIM0_OVF (ticks n s) := by
  unfold ticks
  rw [Function.iterate_succ_apply']

theorem timekeeping_tx (s : State) :
    (timekeeping s).PORTA = s.PORTA ∧ (timekeeping s).SwUartTXState = s.SwUartTXState ∧
      (timekeeping s).SwUartTXBitCount = s.SwUartTXBitCount ∧
      (timekeeping s).SwUartTXData = s.SwUartTXData ∧
      (timekeeping s).wt_rd_pnt = s.wt_rd_pnt ∧ (timekeeping s).wt_wt_pnt = s.wt_wt_pnt ∧
      (timekeeping s).wt = s.wt := by
  unfold timekeeping
  dsimp only
  split_ifs <;> exact ⟨rfl, rfl, rfl, rfl, rfl, rfl, rfl⟩

theorem TIM0_OVF_start (s : State) (h0 : s.SwUartTXState = 0)
    (hne : s.wt_rd_pnt ≠ s.wt_wt_pnt) (hr : s.wt_rd_pnt < BUF_LEN) :
    tx_pin (TIM0_OVF s) = false ∧ (TIM0_OVF s).SwUartTXState = 1 ∧
      (TIM0_OVF s).SwUartTXBitCount = 0 ∧
      (TIM0_OVF s).SwUartTXData = s.wt s.wt_rd_pnt ∧
      (TIM0_OVF s).wt_rd_pnt = (s.wt_rd_pnt + 1) % BUF_LEN := by
  obtain ⟨k1, k2, k3, k4, k5, k6, k7⟩ := timekeeping_tx s
  unfold BUF_LEN at hr
  have hu : u16 (s.wt_rd_pnt + 1) = s.wt_rd_pnt + 1 := by unfold u16; omega
  by_cases c : s.wt_rd_pnt + 1 = 32
  · have e : (s.wt_rd_pnt + 1) % 32 = 0 := by omega
    simp [TIM0_OVF, uart_tx, k1, k2, k5, k6, k7, h0, hne, c, u16, BUF_LEN, tx_pin, tstbit_eq,
      testBit_clrbit]
  · have e : (s.wt_rd_pnt + 1) % 32 = s.wt_rd_pnt + 1 := by omega
    simp [TIM0_OVF, uart_tx, k1, k2, k5, k6, k7, h0, hne, hu, c, e, BUF_LEN, tx_pin,
      tstbit_eq, testBit_clrbit]

theorem TIM0_OVF_bit (s : State) (h1 : s.SwUartTXState = 1) (hc : s.SwUartTXBitCount < 8) :
    tx_pin (TIM0_OVF s) = s.SwUartTXData.testBit 0 ∧ (TIM0_OVF s).SwUartTXState = 1 ∧
      (TIM0_OVF s).SwUartTXBitCount = s.SwUartTXBitCount + 1 ∧
      (TIM0_OVF s).SwUartTXData = s.SwUartTXData >>> 1 ∧
      (TIM0_OVF s).wt_rd_pnt = s.wt_rd_pnt := by
  obtain ⟨k1, k2, k3, k4, k5, k6, k7⟩ := timekeeping_tx s
  have hu : u8 (s.SwUartTXBitCount + 1) = s.SwUartTXBitCount + 1 := by unfold u8; omega
  by_cases c : s.SwUartTXData % 2 = 1
  · simp [TIM0_OVF, uart_tx, k1, k2, k3, k4, k5, h1, hc, hu, c, tx_pin, tstbit_eq,
      testBit_setbit]
  · have c0 : s.SwUartTXData % 2 = 0 := by omega
    simp [TIM0_OVF, uart_tx, k1, k2, k3, k4, k5, h1, hc, hu, c0, tx_pin, tstbit_eq,
      testBit_clrbit]

theorem TIM0_OVF_stop (s : State) (h1 : s.SwUartTXState = 1) (hc : s.SwUartTXBitCount = 8) :
    tx_pin (TIM0_OVF s) = true ∧ (TIM0_OVF s).SwUartTXState = 0 ∧
      (TIM0_OVF s).wt_rd_pnt = s.wt_rd_pnt := by
  obtain ⟨k1, k2, k3, k4, k5, k6, k7⟩ := timekeeping_tx s
  simp [TIM0_OVF, uart_tx, k1, k2, k3, k5, h1, hc, tx_pin, tstbit_eq, testBit_setbit]

theorem tx_data_bits (n : Nat) : ∀ (s : State) (c : Nat), s.SwUartTXState = 1 →
    s.SwUartTXBitCount = c → c + n ≤ 8 →
    tx_levels n s = (List.range n).map (fun k => s.SwUartTXData.testBit k) ∧
      (ticks n s).SwUartTXState = 1 ∧ (ticks n s).SwUartTXBitCount = c + n ∧
      (ticks n s).wt_rd_pnt = s.wt_rd_pnt := by
  induction n with
  | zero => intro s c h1 hc _; exact ⟨rfl, h1, hc, rfl⟩
  | succ n ih =>
    intro s c h1 hc hle
    obtain ⟨a1, a2, a3, a4, a5⟩ := TIM0_OVF_bit s h1 (by omega)
    obtain ⟨b1, b2, b3, b4⟩ := ih (TIM0_OVF s) (c + 1) a2 (by rw [a3, hc]) (by omega)
    rw [ticks_succ]
    refine ⟨?_, b2, by rw [b3]; omega, by rw [b4, a5]⟩
    rw [tx_levels, b1, a1, a4, List.range_succ_eq_map]
    simp [Nat.testBit_shiftRight, Function.comp_def, Nat.add_comm]

/-- C10: with the transmitter idle, the outbound buffer non-empty, its read
cursor inside the buffer and `b` the byte at the read cursor, the next ten runs
of the timer-0 handler put the TX pin to 0 (start bit), then to bits 0 to 7 of
`b` in that order, then to 1 (stop bit); afterwards the transmitter is idle
and the read cursor has advanced by one modulo the buffer capacity. -/
theorem C10_frame (s : State) (b : Nat) (h0 : s.SwUartTXState = 0)
    (hne : s.wt_rd_pnt ≠ s.wt_wt_pnt) (hr : s.wt_rd_pnt < BUF_LEN)
    (hb : s.wt s.wt_rd_pnt = b) :
    tx_levels 10 s =
        [false, b.testBit 0, b.testBit 1, b.testBit 2, b.testBit 3, b.testBit 4,
          b.testBit 5, b.testBit 6, b.testBit 7, true] ∧
      (ticks 10 s).SwUartTXState = 0 ∧
      (ticks 10 s).wt_rd_pnt = (s.wt_rd_pnt + 1) % BUF_LEN := by
  obtain ⟨a1, a2, a3, a4, a5⟩ := TIM0_OVF_start s h0 hne hr
  obtain ⟨b1, b2, b3, b4⟩ := tx_data_bits 8 (TIM0_OVF s) 0 a2 a3 (by omega)
  obtain ⟨c1, c2, c3⟩ := TIM0_OVF_stop (ticks 8 (TIM0_OVF s)) b2 (by rw [b3])
  have e : ticks 10 s = TIM0_OVF (ticks 8 (TIM0_OVF s)) := by
    rw [ticks_succ 9 s, ticks_succ_outer 8 (TIM0_OVF s)]
  have l : ∀ (n : Nat) (t : State),
      tx_levels (n + 1) t = tx_levels n t ++ [tx_pin (TIM0_OVF (ticks n t))] := by
    intro n
    induction n with
    | zero => intro t; simp [tx_levels, ticks]
    | succ n ih =>
      intro t
      rw [tx_levels, ih (TIM0_OVF t), ticks_succ n t]
      conv_rhs => rw [tx_levels]
      exact (List.cons_append _ _ _).symm
  refine ⟨?_, by rw [e, c2], by rw [e, c3, b4, a5]⟩
  rw [tx_levels, l 8 (TIM0_OVF s), b1, c1, a1, a4, hb]
  simp [List.range_succ]

/-- C10 on a concrete buffer: the byte `0x54` waiting at slot 31 goes out as
0, then 0 0 1 0 1 0 1 0, then 1, and the read cursor wraps to slot 0. -/
theorem C10_frame_witness :
    tx_levels 10 tx_pending_state =
        [false, false, false, true, false, true, false, true, false, true] ∧
      (ticks 10 tx_pending_state).SwUartTXState = 0 ∧
      (ticks 10 tx_pending_state).wt_rd_pnt = 0 :=
  C10_frame tx_pending_state 84 (by decide) (by decide) (by decide) (by decide)

/-! ## Outbound buffer -/

theorem wt_put_eq (c : Nat) (s : State) (hw : s.wt_wt_pnt < BUF_LEN) :
    wt_put c s =
      { s with wt := upd s.wt s.wt_wt_pnt c, wt_wt_pnt := (s.wt_wt_pnt + 1) % BUF_LEN } := by
  unfold BUF_LEN at hw
  have hu : u16 (s.wt_wt_pnt + 1) = s.wt_wt_pnt + 1 := by unfold u16; omega
  by_cases c1 : s.wt_wt_pnt + 1 = 32
  · have e : (s.wt_wt_pnt + 1) % 32 = 0 := by omega
    simp [wt_put, BUF_LEN, c1, u16]
  · have e : (s.wt_wt_pnt + 1) % 32 = s.wt_wt_pnt + 1 := by omega
    simp [wt_put, BUF_LEN, hu, c1, e]

theorem ring_put_cursor (bs : List Nat) : ∀ (wt : Nat → Nat) (w : Nat),
    (ring_put wt w bs).2 = (w + bs.length) % BUF_LEN ∨ (bs = [] ∧ (ring_put wt w bs).2 = w) := by
  induction bs with
  | nil => intro wt w; right; exact ⟨rfl, rfl⟩
  | cons b bs ih =>
    intro wt w
    left
    rw [ring_put]
    rcases ih (upd wt w b) ((w + 1) % BUF_LEN) with h | ⟨h1, h2⟩
    · rw [h]; unfold BUF_LEN; simp only [List.length_cons]; omega
    · rw [h2, h1]; simp

theorem ring_put_cursor_lt (bs : List Nat) (wt : Nat → Nat) (w : Nat) (hw : w < BUF_LEN) :
    (ring_put wt w bs).2 = (w + bs.length) % BUF_LEN := by
  rcases ring_put_cursor bs wt w with h | ⟨h1, h2⟩
  · exact h
  · rw [h2, h1]; unfold BUF_LEN at *; simp only [List.length_nil]; omega

theorem ring_put_other (bs : List Nat) : ∀ (wt : Nat → Nat) (w p : Nat),
    (∀ k, k < bs.length → p ≠ (w + k) % BUF_LEN) → w < BUF_LEN →
    (ring_put wt w bs).1 p = wt p := by
  induction bs with
  | nil => intro wt w p _ _; rfl
  | cons b bs ih =>
    intro wt w p hp hw
    rw [ring_put]
    unfold BUF_LEN at *
    rw [ih (upd wt w b) ((w + 1) % 32) p ?_ (by omega)]
    · have h0 := hp 0 (by simp)
      have : p ≠ w := by omega
      simp [upd, this]
    · intro k hk
      have := hp (k + 1) (by simp; omega)
      omega

theorem ring_put_slot (bs : List Nat) : ∀ (wt : Nat → Nat) (w k : Nat),
    bs.length ≤ BUF_LEN → w < BUF_LEN → k < bs.length →
    (ring_put wt w bs).1 ((w + k) % BUF_LEN) = bs.getD k 0 := by
  induction bs with
  | nil => intro wt w k _ _ hk; simp at hk
  | cons b bs ih =>
    intro wt w k hl hw hk
    rw [ring_put]
    unfold BUF_LEN at *
    simp only [List.length_cons] at hl hk
    cases k with
    | zero =>
      rw [ring_put_other bs (upd wt w b) ((w + 1) % 32) ((w + 0) % 32) ?_ (by unfold BUF_LEN; omega)]
      · have : (w + 0) % 32 = w := by omega
        rw [this]
        simp [upd]
      · intro j hj
        unfold BUF_LEN
        omega
    | succ k =>
      have := ih (upd wt w b) ((w + 1) % 32) k (by omega) (by omega) (by omega)
      have e : ((w + 1) % 32 + k) % 32 = (w + (k + 1)) % 32 := by omega
      rw [e] at this
      rw [this]
      simp

theorem pgm_out_str_eq (bs rest : List Nat) : ∀ (s : State), s.wt_wt_pnt < BUF_LEN →
    (∀ b ∈ bs, b ≠ 0) →
    pgm_out_str (bs ++ 0 :: rest) s =
      { s with wt := (ring_put s.wt s.wt_wt_pnt bs).1,
               wt_wt_pnt := (ring_put s.wt s.wt_wt_pnt bs).2,
               tmp_char := 0 } := by
  induction bs with
  | nil => intro s _ _; simp [pgm_out_str, ring_put]
  | cons b bs ih =>
    intro s hw hb
    have hb0 : b ≠ 0 := hb b (by simp)
    have hw1 : ({ s with tmp_char := b } : State).wt_wt_pnt < BUF_LEN := hw
    rw [List.cons_append, pgm_out_str]
    simp only [hb0, ne_eq, not_false_eq_true, if_true]
    rw [wt_put_eq b _ hw1]
    rw [ih _ (by unfold BUF_LEN; exact Nat.mod_lt _ (by decide))
      (fun x hx => hb x (by simp [hx]))]
    rfl

theorem out_str_loop_eq (bs : List Nat) : ∀ (fuel i : Nat) (s : State),
    s.wt_wt_pnt < BUF_LEN → bs.length < fuel →
    (∀ k, k < bs.length → s.tmp_buf (i + k) = bs.getD k 0) → (∀ b ∈ bs, b ≠ 0) →
    s.tmp_buf (i + bs.length) = 0 →
    out_str_loop fuel i s =
      { s with wt := (ring_put s.wt s.wt_wt_pnt bs).1,
               wt_wt_pnt := (ring_put s.wt s.wt_wt_pnt bs).2 } := by
  induction bs with
  | nil =>
    intro fuel i s _ hf _ _ h0
    cases fuel with
    | zero => simp at hf
    | succ fuel =>
      have : s.tmp_buf i = 0 := by simpa using h0
      simp [out_str_loop, this, ring_put]
  | cons b bs ih =>
    intro fuel i s hw hf hk hb h0
    cases fuel with
    | zero => simp at hf
    | succ fuel =>
      have hi : s.tmp_buf i = b := by simpa using hk 0 (by simp)
      have hb0 : b ≠ 0 := hb b (by simp)
      rw [out_str_loop, hi]
      simp only [hb0, ne_eq, not_false_eq_true, if_true]
      rw [wt_put_eq b _ hw]
      rw [ih fuel (i + 1) _ (by unfold BUF_LEN; exact Nat.mod_lt _ (by decide))
        (by simp only [List.length_cons] at hf; omega) ?_ (fun x hx => hb x (by simp [hx])) ?_]
      · rfl
      · intro k hk2
        have := hk (k + 1) (by simp; omega)
        simp only [List.getD_cons_succ] at this
        rw [← this]
        show s.tmp_buf (i + 1 + k) = s.tmp_buf (i + (k + 1))
        congr 1
        omega
      · show s.tmp_buf (i + 1 + bs.length) = 0
        rw [← h0]
        congr 1
        simp only [List.length_cons]
        omega

theorem enqueued_of_ring_put (s t : State) (bs : List Nat) (hw : s.wt_wt_pnt < BUF_LEN)
    (hl : bs.length ≤ BUF_LEN) (h1 : t.wt = (ring_put s.wt s.wt_wt_pnt bs).1)
    (h2 : t.wt_wt_pnt = (ring_put s.wt s.wt_wt_pnt bs).2) (h3 : t.wt_rd_pnt = s.wt_rd_pnt) :
    Enqueued s t bs := by
  refine ⟨?_, h3, ?_, ?_⟩
  · rw [h2, ring_put_cursor_lt bs _ _ hw]
  · intro k hk
    rw [h1, ring_put_slot bs _ _ k hl hw hk]
  · intro p hp
    rw [h1, ring_put_other bs _ _ p hp hw]

/-! ## Number formatting -/

theorem itoa_chars_one (h : Nat) (hh : h < 10) : itoa_chars (h : Int) = [48 + h] := by
  have : ¬ ((h : Int) < 0) := by omega
  simp [itoa_chars, dec_digits, this, hh]

theorem itoa_chars_two (h : Nat) (h1 : 10 ≤ h) (h2 : h ≤ 99) :
    itoa_chars (h : Int) = [48 + h / 10, 48 + h % 10] := by
  have : ¬ ((h : Int) < 0) := by omega
  have a : ¬ h < 10 := by omega
  have b : h / 10 < 10 := by omega
  simp [itoa_chars, dec_digits, this, a, b]

theorem out_str_reply (s : State) (bs : List Nat) (hw : s.wt_wt_pnt < BUF_LEN)
    (hl : bs.length < 16) (hk : ∀ k, k < bs.length → s.tmp_buf k = bs.getD k 0)
    (hb : ∀ b ∈ bs, b ≠ 0) (h0 : s.tmp_buf bs.length = 0) :
    out_str s =
      { s with wt := (ring_put s.wt s.wt_wt_pnt bs).1,
               wt_wt_pnt := (ring_put s.wt s.wt_wt_pnt bs).2 } := by
  unfold out_str
  exact out_str_loop_eq bs 16 0 s hw hl (by simpa using hk) hb (by simpa using h0)

theorem time_reply_ne_zero (tag h m : Nat) (ht : tag ≠ 0) : ∀ b ∈ time_reply tag h m, b ≠ 0 := by
  intro b hb
  simp only [time_reply, List.mem_cons, List.mem_singleton, List.not_mem_nil, or_false] at hb
  rcases hb with h | h | h | h | h | h | h | h | h <;> omega

theorem tell_elim (P : State → Prop) (tag h m : Nat) (s : State) (hh : h ≤ 99) (hm : m ≤ 99)
    (ht : tag ≠ 0) (hw : s.wt_wt_pnt < BUF_LEN)
    (hP : ∀ T J, P { s with tmp_buf := T, j := J, i := -1,
                            wt := (ring_put s.wt s.wt_wt_pnt (time_reply tag h m)).1,
                            wt_wt_pnt := (ring_put s.wt s.wt_wt_pnt (time_reply tag h m)).2 }) :
    P (tell tag h m s) := by
  have hne := time_reply_ne_zero tag h m ht
  have hlen : (time_reply tag h m).length < 16 := by simp [time_reply]
  unfold tell
  by_cases c1 : h < 10 <;> by_cases c2 : m < 10
  · have e1 : h / 10 = 0 := by omega
    have e2 : h % 10 = h := by omega
    have e3 : m / 10 = 0 := by omega
    have e4 : m % 10 = m := by omega
    simp only [itoa, itoa_chars_one h c1, itoa_chars_one m c2, poke]
    simp [strlen, upd]
    rw [out_str_reply _ (time_reply tag h m) ?_ hlen ?_ hne ?_]
    · exact hP _ _
    · exact hw
    · intro k hk
      simp only [time_reply, List.length_cons, List.length_nil] at hk
      dsimp only
      interval_cases k <;> simp [shift2, upd, time_reply, e1, e2, e3, e4]
    · dsimp only
      simp [shift2, upd, time_reply]
  · have e1 : h / 10 = 0 := by omega
    have e2 : h % 10 = h := by omega
    simp only [itoa, itoa_chars_one h c1, itoa_chars_two m (by omega) hm, poke]
    simp [strlen, upd]
    rw [out_str_reply _ (time_reply tag h m) ?_ hlen ?_ hne ?_]
    · exact hP _ _
    · exact hw
    · intro k hk
      simp only [time_reply, List.length_cons, List.length_nil] at hk
      dsimp only
      interval_cases k <;> simp [shift2, upd, time_reply, e1, e2]
    · dsimp only
      simp [shift2, upd, time_reply]
  · have e3 : m / 10 = 0 := by omega
    have e4 : m % 10 = m := by omega
    simp only [itoa, itoa_chars_two h (by omega) hh, itoa_chars_one m c2, poke]
    simp [strlen, upd]
    rw [out_str_reply _ (time_reply tag h m) ?_ hlen ?_ hne ?_]
    · exact hP _ _
    · exact hw
    · intro k hk
      simp only [time_reply, List.length_cons, List.length_nil] at hk
      dsimp only
      interval_cases k <;> simp [shift2, upd, time_reply, e3, e4]
    · dsimp only
      simp [shift2, upd, time_reply]
  · simp only [itoa, itoa_chars_two h (by omega) hh, itoa_chars_two m (by omega) hm, poke]
    simp [strlen, upd]
    rw [out_str_reply _ (time_reply tag h m) ?_ hlen ?_ hne ?_]
    · exact hP _ _
    · exact hw
    · intro k hk
      simp only [time_reply, List.length_cons, List.length_nil] at hk
      dsimp only
      interval_cases k <;> simp [shift2, upd, time_reply]
    · dsimp only
      simp [shift2, upd, time_reply]

/-! ## Argument parsing -/

theorem s16_small (x : Int) (h1 : -32768 ≤ x) (h2 : x < 32768) : s16 x = x := by
  unfold s16; omega

theorem atoi_two (buf : Nat → Nat) (off a b : Nat) (ha : a < 10) (hb : b < 10)
    (h0 : buf off = 48 + a) (h1 : buf (off + 1) = 48 + b) (h2 : buf (off + 2) = 0) :
    atoi buf off = ((10 * a + b : Nat) : Int) := by
  have sa : isspace (48 + a) = false := by simp [isspace]; omega
  have da : isdigit (48 + a) = true := by simp [isdigit]; omega
  have db : isdigit (48 + b) = true := by simp [isdigit]; omega
  have n1 : ¬ (48 + a = 45) := by omega
  have n2 : ¬ (48 + a = 43) := by omega
  have hs : atoi_skip buf BUF_LEN off = off := by
    simp [BUF_LEN, atoi_skip, h0, sa]
  have e1 : s16 ((0 : Int) * 10 + (((48 + a : Nat) : Int) - 48)) = (a : Int) := by
    rw [s16_small] <;> push_cast <;> omega
  have e2 : s16 ((a : Int) * 10 + (((48 + b : Nat) : Int) - 48)) = ((10 * a + b : Nat) : Int) := by
    rw [s16_small] <;> push_cast <;> omega
  unfold atoi
  simp only [hs, h0, n1, n2, if_false]
  simp only [BUF_LEN, atoi_digits, h0, h1, h2, da, db, if_true, e1, e2]
  simp [isdigit]

theorem int_to_u8_small (n : Nat) (h : n < 256) : int_to_u8 (n : Int) = n := by
  unfold int_to_u8; omega

theorem parse_field (buf : Nat → Nat) (off v : Nat) (hv : v ≤ 99)
    (h0 : buf off = 48 + v / 10) (h1 : buf (off + 1) = 48 + v % 10) (h2 : buf (off + 2) = 0) :
    int_to_u8 (atoi buf off) = v := by
  rw [atoi_two buf off (v / 10) (v % 10) (by omega) (by omega) h0 h1 h2]
  rw [int_to_u8_small _ (by omega)]
  omega

theorem set_T_eq (s : State) (h m : Nat) (hh : h ≤ 99) (hm : m ≤ 99)
    (h1 : s.cmd_buf 1 = 48 + h / 10) (h2 : s.cmd_buf 2 = 48 + h % 10)
    (h3 : s.cmd_buf 3 = 48 + m / 10) (h4 : s.cmd_buf 4 = 48 + m % 10) :
    set_T s =
      { s with cmd_buf := upd (upd s.cmd_buf 5 0) 3 0, min := min m 59, hour := min h 23,
               time_set_flag := 1 } := by
  have em : int_to_u8 (atoi (upd s.cmd_buf 5 0) 3) = m :=
    parse_field _ 3 m hm (by simp [upd, h3]) (by simp [upd, h4]) (by simp [upd])
  have eh : int_to_u8 (atoi (upd (upd s.cmd_buf 5 0) 3 0) 1) = h :=
    parse_field _ 1 h hh (by simp [upd, h1]) (by simp [upd, h2]) (by simp [upd])
  have q1 : (if m > 59 then 59 else m) = min m 59 := by split_ifs <;> omega
  have q2 : (if h > 23 then 23 else h) = min h 23 := by split_ifs <;> omega
  unfold set_T
  dsimp only
  rw [em, eh, q1, q2]

theorem set_T_any (s : State) :
    ∃ hr mn cb,
      set_T s = { s with cmd_buf := cb, min := mn, hour := hr, time_set_flag := 1 } ∧
      hr ≤ 23 ∧ mn ≤ 59 := by
  unfold set_T
  dsimp only
  exact ⟨_, _, _, rfl, by split_ifs <;> omega, by split_ifs <;> omega⟩

theorem set_A_eq (s : State) (h m : Nat) (hh : h ≤ 99) (hm : m ≤ 99)
    (h1 : s.cmd_buf 1 = 48 + h / 10) (h2 : s.cmd_buf 2 = 48 + h % 10)
    (h3 : s.cmd_buf 3 = 48 + m / 10) (h4 : s.cmd_buf 4 = 48 + m % 10) :
    set_A s =
      { s with cmd_buf := upd (upd s.cmd_buf 5 0) 3 0, a_min := min m 59, a_hour := min h 23 } := by
  have em : int_to_u8 (atoi (upd s.cmd_buf 5 0) 3) = m :=
    parse_field _ 3 m hm (by simp [upd, h3]) (by simp [upd, h4]) (by simp [upd])
  have eh : int_to_u8 (atoi (upd (upd s.cmd_buf 5 0) 3 0) 1) = h :=
    parse_field _ 1 h hh (by simp [upd, h1]) (by simp [upd, h2]) (by simp [upd])
  have q1 : (if m > 59 then 59 else m) = min m 59 := by split_ifs <;> omega
  have q2 : (if h > 23 then 23 else h) = min h 23 := by split_ifs <;> omega
  unfold set_A
  dsimp only
  rw [em, eh, q1, q2]

theorem set_A_any (s : State) :
    ∃ hr mn cb, set_A s = { s with cmd_buf := cb, a_min := mn, a_hour := hr } ∧
      hr ≤ 23 ∧ mn ≤ 59 := by
  unfold set_A
  dsimp only
  exact ⟨_, _, _, rfl, by split_ifs <;> omega, by split_ifs <;> omega⟩

theorem set_S_eq (s : State) (h m : Nat) (hh : h ≤ 99) (hm : m ≤ 99)
    (h1 : s.cmd_buf 1 = 48 + h / 10) (h2 : s.cmd_buf 2 = 48 + h % 10)
    (h3 : s.cmd_buf 3 = 48 + m / 10) (h4 : s.cmd_buf 4 = 48 + m % 10) :
    set_S s =
      { s with cmd_buf := upd (upd s.cmd_buf 5 0) 3 0, s_min := min m 59, s_hour := min h 23 } := by
  have em : int_to_u8 (atoi (upd s.cmd_buf 5 0) 3) = m :=
    parse_field _ 3 m hm (by simp [upd, h3]) (by simp [upd, h4]) (by simp [upd])
  have eh : int_to_u8 (atoi (upd (upd s.cmd_buf 5 0) 3 0) 1) = h :=
    parse_field _ 1 h hh (by simp [upd, h1]) (by simp [upd, h2]) (by simp [upd])
  have q1 : (if m > 59 then 59 else m) = min m 59 := by split_ifs <;> omega
  have q2 : (if h > 23 then 23 else h) = min h 23 := by split_ifs <;> omega
  unfold set_S
  dsimp only
  rw [em, eh, q1, q2]

theorem set_S_any (s : State) :
    ∃ hr mn cb, set_S s = { s with cmd_buf := cb, s_min := mn, s_hour := hr } ∧
      hr ≤ 23 ∧ mn ≤ 59 := by
  unfold set_S
  dsimp only
  exact ⟨_, _, _, rfl, by split_ifs <;> omega, by split_ifs <;> omega⟩

/-! ## Command interpreter -/

theorem command_switch_T (s : State) (hc : s.cmd_buf 0 = 84 ∨ s.cmd_buf 0 = 116) :
    command_switch s =
      if s.cmd_buf_pnt = 6 then tell 84 (set_T s).hour (set_T s).min (set_T s)
      else if s.cmd_buf_pnt = 3 then tell 84 s.hour s.min s
      else pgm_out_str error s := by
  unfold command_switch
  rcases hc with h | h <;> simp [h]

theorem command_switch_A (s : State) (hc : s.cmd_buf 0 = 65 ∨ s.cmd_buf 0 = 97) :
    command_switch s =
      if s.cmd_buf_pnt = 6 then tell 65 (set_A s).a_hour (set_A s).a_min (set_A s)
      else if s.cmd_buf_pnt = 3 then tell 65 s.a_hour s.a_min s
      else pgm_out_str error s := by
  unfold command_switch
  rcases hc with h | h <;> simp [h]

theorem command_switch_S (s : State) (hc : s.cmd_buf 0 = 83 ∨ s.cmd_buf 0 = 115) :
    command_switch s =
      if s.cmd_buf_pnt = 6 then tell 83 (set_S s).s_hour (set_S s).s_min (set_S s)
      else if s.cmd_buf_pnt = 3 then tell 83 s.s_hour s.s_min s
      else pgm_out_str error s := by
  unfold command_switch
  rcases hc with h | h <;> simp [h]

theorem tell_ex (tag h m : Nat) (s : State) (hh : h ≤ 99) (hm : m ≤ 99) (ht : tag ≠ 0)
    (hw : s.wt_wt_pnt < BUF_LEN) :
    ∃ T J, tell tag h m s =
      { s with tmp_buf := T, j := J, i := -1,
               wt := (ring_put s.wt s.wt_wt_pnt (time_reply tag h m)).1,
               wt_wt_pnt := (ring_put s.wt s.wt_wt_pnt (time_reply tag h m)).2 } :=
  tell_elim
    (fun t => ∃ T J, t =
      { s with tmp_buf := T, j := J, i := -1,
               wt := (ring_put s.wt s.wt_wt_pnt (time_reply tag h m)).1,
               wt_wt_pnt := (ring_put s.wt s.wt_wt_pnt (time_reply tag h m)).2 })
    tag h m s hh hm ht hw (fun T J => ⟨T, J, rfl⟩)

theorem pgm_error_eq (s : State) (hw : s.wt_wt_pnt < BUF_LEN) :
    pgm_out_str error s =
      { s with wt := (ring_put s.wt s.wt_wt_pnt error_reply).1,
               wt_wt_pnt := (ring_put s.wt s.wt_wt_pnt error_reply).2,
               tmp_char := 0 } :=
  pgm_out_str_eq error_reply [] s hw (by decide)

theorem dispatch_T_set (s : State) (h m : Nat) (hh : h ≤ 99) (hm : m ≤ 99)
    (hw : s.wt_wt_pnt < BUF_LEN) (h0 : s.cmd_buf 0 = 84 ∨ s.cmd_buf 0 = 116)
    (h1 : s.cmd_buf 1 = 48 + h / 10) (h2 : s.cmd_buf 2 = 48 + h % 10)
    (h3 : s.cmd_buf 3 = 48 + m / 10) (h4 : s.cmd_buf 4 = 48 + m % 10)
    (hp : s.cmd_buf_pnt = 6) :
    ∃ T J, dispatch s =
      { s with cmd_buf := upd (upd s.cmd_buf 5 0) 3 0, min := min m 59, hour := min h 23,
               time_set_flag := 1, tmp_buf := T, j := J, i := -1,
               wt := (ring_put s.wt s.wt_wt_pnt (time_reply 84 (min h 23) (min m 59))).1,
               wt_wt_pnt := (ring_put s.wt s.wt_wt_pnt (time_reply 84 (min h 23) (min m 59))).2,
               cmd_buf_pnt := 0, cmd_flag := 0, rd_rd_pnt := s.rd_wt_pnt } := by
  have es := set_T_eq s h m hh hm h1 h2 h3 h4
  have e1 : (set_T s).hour = min h 23 := by rw [es]
  have e2 : (set_T s).min = min m 59 := by rw [es]
  obtain ⟨T, J, e⟩ := tell_ex 84 (min h 23) (min m 59) (set_T s) (by omega) (by omega)
    (by decide) (by rw [es]; exact hw)
  refine ⟨T, J, ?_⟩
  unfold dispatch
  rw [command_switch_T s h0, if_pos hp, e1, e2, e, es]

theorem dispatch_A_set (s : State) (h m : Nat) (hh : h ≤ 99) (hm : m ≤ 99)
    (hw : s.wt_wt_pnt < BUF_LEN) (h0 : s.cmd_buf 0 = 65 ∨ s.cmd_buf 0 = 97)
    (h1 : s.cmd_buf 1 = 48 + h / 10) (h2 : s.cmd_buf 2 = 48 + h % 10)
    (h3 : s.cmd_buf 3 = 48 + m / 10) (h4 : s.cmd_buf 4 = 48 + m % 10)
    (hp : s.cmd_buf_pnt = 6) :
    ∃ T J, dispatch s =
      { s with cmd_buf := upd (upd s.cmd_buf 5 0) 3 0, a_min := min m 59, a_hour := min h 23,
               tmp_buf := T, j := J, i := -1,
               wt := (ring_put s.wt s.wt_wt_pnt (time_reply 65 (min h 23) (min m 59))).1,
               wt_wt_pnt := (ring_put s.wt s.wt_wt_pnt (time_reply 65 (min h 23) (min m 59))).2,
               cmd_buf_pnt := 0, cmd_flag := 0, rd_rd_pnt := s.rd_wt_pnt } := by
  have es := set_A_eq s h m hh hm h1 h2 h3 h4
  have e1 : (set_A s).a_hour = min h 23 := by rw [es]
  have e2 : (set_A s).a_min = min m 59 := by rw [es]
  obtain ⟨T, J, e⟩ := tell_ex 65 (min h 23) (min m 59) (set_A s) (by omega) (by omega)
    (by decide) (by rw [es]; exact hw)
  refine ⟨T, J, ?_⟩
  unfold dispatch
  rw [command_switch_A s h0, if_pos hp, e1, e2, e, es]

theorem dispatch_S_set (s : State) (h m : Nat) (hh : h ≤ 99) (hm : m ≤ 99)
    (hw : s.wt_wt_pnt < BUF_LEN) (h0 : s.cmd_buf 0 = 83 ∨ s.cmd_buf 0 = 115)
    (h1 : s.cmd_buf 1 = 48 + h / 10) (h2 : s.cmd_buf 2 = 48 + h % 10)
    (h3 : s.cmd_buf 3 = 48 + m / 10) (h4 : s.cmd_buf 4 = 48 + m % 10)
    (hp : s.cmd_buf_pnt = 6) :
    ∃ T J, dispatch s =
      { s with cmd_buf := upd (upd s.cmd_buf 5 0) 3 0, s_min := min m 59, s_hour := min h 23,
               tmp_buf := T, j := J, i := -1,
               wt := (ring_put s.wt s.wt_wt_pnt (time_reply 83 (min h 23) (min m 59))).1,
               wt_wt_pnt := (ring_put s.wt s.wt_wt_pnt (time_reply 83 (min h 23) (min m 59))).2,
               cmd_buf_pnt := 0, cmd_flag := 0, rd_rd_pnt := s.rd_wt_pnt } := by
  have es := set_S_eq s h m hh hm h1 h2 h3 h4
  have e1 : (set_S s).s_hour = min h 23 := by rw [es]
  have e2 : (set_S s).s_min = min m 59 := by rw [es]
  obtain ⟨T, J, e⟩ := tell_ex 83 (min h 23) (min m 59) (set_S s) (by omega) (by omega)
    (by decide) (by rw [es]; exact hw)
  refine ⟨T, J, ?_⟩
  unfold dispatch
  rw [command_switch_S s h0, if_pos hp, e1, e2, e, es]

theorem dispatch_T_query (s : State) (hh : s.hour ≤ 99) (hm : s.min ≤ 99)
    (hw : s.wt_wt_pnt < BUF_LEN) (h0 : s.cmd_buf 0 = 84 ∨ s.cmd_buf 0 = 116)
    (hp : s.cmd_buf_pnt = 3) :
    ∃ T J, dispatch s =
      { s with tmp_buf := T, j := J, i := -1,
               wt := (ring_put s.wt s.wt_wt_pnt (time_reply 84 s.hour s.min)).1,
               wt_wt_pnt := (ring_put s.wt s.wt_wt_pnt (time_reply 84 s.hour s.min)).2,
               cmd_buf_pnt := 0, cmd_flag := 0, rd_rd_pnt := s.rd_wt_pnt } := by
  obtain ⟨T, J, e⟩ := tell_ex 84 s.hour s.min s hh hm (by decide) hw
  refine ⟨T, J, ?_⟩
  unfold dispatch
  rw [command_switch_T s h0, if_neg (show ¬ s.cmd_buf_pnt = 6 by omega), if_pos hp, e]

theorem command_switch_error (s : State) (hm : malformed (s.cmd_buf 0) s.cmd_buf_pnt) :
    command_switch s = pgm_out_str error s := by
  unfold malformed is_cmd_letter takes_arg at hm
  simp only [List.mem_cons, List.mem_singleton, List.not_mem_nil, or_false, not_or] at hm
  unfold command_switch
  dsimp only
  split_ifs <;> first | (exfalso; omega) | rfl

theorem dispatch_error (s : State) (hw : s.wt_wt_pnt < BUF_LEN)
    (hm : malformed (s.cmd_buf 0) s.cmd_buf_pnt) :
    dispatch s =
      { s with wt := (ring_put s.wt s.wt_wt_pnt error_reply).1,
               wt_wt_pnt := (ring_put s.wt s.wt_wt_pnt error_reply).2,
               tmp_char := 0, cmd_buf_pnt := 0, cmd_flag := 0, rd_rd_pnt := s.rd_wt_pnt } := by
  unfold dispatch
  rw [command_switch_error s hm, pgm_error_eq s hw]

/-! ## Claims on the command interpreter -/

theorem ring_put_cursor_bound (bs : List Nat) (wt : Nat → Nat) (w : Nat) (hw : w < BUF_LEN) :
    (ring_put wt w bs).2 < BUF_LEN := by
  rw [ring_put_cursor_lt bs wt w hw]
  exact Nat.mod_lt _ (by decide)

/-- C1: for hh ≤ 23 and mm ≤ 59 written as two decimal digits each, dispatching
the line 'T' hh mm CR leaves `hour = hh`, `min = mm`, the liveness flag set and
exactly "T=hh:mm" CR LF appended to the outbound buffer; dispatching 'T?' CR
right after appends the same reply again and leaves hour, minute and second
as they were. -/
theorem C1_set_then_query (s : State) (hh mm : Nat) (h1 : hh ≤ 23) (h2 : mm ≤ 59)
    (hw : s.wt_wt_pnt < BUF_LEN) :
    (send (set_line 84 hh mm) s).hour = hh ∧ (send (set_line 84 hh mm) s).min = mm ∧
      (send (set_line 84 hh mm) s).time_set_flag = 1 ∧
      Enqueued s (send (set_line 84 hh mm) s) (time_reply 84 hh mm) ∧
      Enqueued (send (set_line 84 hh mm) s)
        (send (query_line 84) (send (set_line 84 hh mm) s)) (time_reply 84 hh mm) ∧
      (send (query_line 84) (send (set_line 84 hh mm) s)).hour = hh ∧
      (send (query_line 84) (send (set_line 84 hh mm) s)).min = mm ∧
      (send (query_line 84) (send (set_line 84 hh mm) s)).sec =
        (send (set_line 84 hh mm) s).sec := by
  have q1 : min hh 23 = hh := by omega
  have q2 : min mm 59 = mm := by omega
  obtain ⟨T, J, e⟩ := dispatch_T_set (with_line (set_line 84 hh mm) s) hh mm (by omega)
    (by omega) hw (Or.inl rfl) rfl rfl rfl rfl rfl
  rw [q1, q2] at e
  have a1 : (send (set_line 84 hh mm) s).hour = hh := by unfold send; rw [e]
  have a2 : (send (set_line 84 hh mm) s).min = mm := by unfold send; rw [e]
  have a3 : (send (set_line 84 hh mm) s).time_set_flag = 1 := by unfold send; rw [e]
  have a4 : (send (set_line 84 hh mm) s).wt =
      (ring_put s.wt s.wt_wt_pnt (time_reply 84 hh mm)).1 := by unfold send; rw [e]; rfl
  have a5 : (send (set_line 84 hh mm) s).wt_wt_pnt =
      (ring_put s.wt s.wt_wt_pnt (time_reply 84 hh mm)).2 := by unfold send; rw [e]; rfl
  have a6 : (send (set_line 84 hh mm) s).wt_rd_pnt = s.wt_rd_pnt := by unfold send; rw [e]; rfl
  have hw1 : (send (set_line 84 hh mm) s).wt_wt_pnt < BUF_LEN := by
    rw [a5]; exact ring_put_cursor_bound _ _ _ hw
  generalize send (set_line 84 hh mm) s = s1 at a1 a2 a3 a4 a5 a6 hw1 ⊢
  obtain ⟨T2, J2, e2⟩ := dispatch_T_query (with_line (query_line 84) s1)
    (by show s1.hour ≤ 99; omega) (by show s1.min ≤ 99; omega) hw1 (Or.inl rfl) rfl
  have b1 : (send (query_line 84) s1).hour = hh := by unfold send; rw [e2]; exact a1
  have b2 : (send (query_line 84) s1).min = mm := by unfold send; rw [e2]; exact a2
  have b3 : (send (query_line 84) s1).sec = s1.sec := by unfold send; rw [e2]; rfl
  have b4 : (send (query_line 84) s1).wt =
      (ring_put s1.wt s1.wt_wt_pnt (time_reply 84 hh mm)).1 := by
    unfold send; rw [e2]; show (ring_put s1.wt s1.wt_wt_pnt (time_reply 84 s1.hour s1.min)).1 = _
    rw [a1, a2]
  have b5 : (send (query_line 84) s1).wt_wt_pnt =
      (ring_put s1.wt s1.wt_wt_pnt (time_reply 84 hh mm)).2 := by
    unfold send; rw [e2]; show (ring_put s1.wt s1.wt_wt_pnt (time_reply 84 s1.hour s1.min)).2 = _
    rw [a1, a2]
  have b6 : (send (query_line 84) s1).wt_rd_pnt = s1.wt_rd_pnt := by unfold send; rw [e2]; rfl
  have hl : (time_reply 84 hh mm).length ≤ BUF_LEN := by simp [time_reply, BUF_LEN]
  exact ⟨a1, a2, a3, enqueued_of_ring_put s s1 _ hw hl a4 a5 a6,
    enqueued_of_ring_put s1 _ _ hw1 hl b4 b5 b6, b1, b2, b3⟩

/-- C1 on 14:30: from the start-up state, 'T1430' CR sets the clock to 14:30
and queues "T=14:30" CR LF, and 'T?' CR queues it again. -/
theorem C1_set_then_query_witness :
    (send [84, 49, 52, 51, 48, 13] reset_state).hour = 14 ∧
      (send [84, 49, 52, 51, 48, 13] reset_state).min = 30 ∧
      (send [84, 49, 52, 51, 48, 13] reset_state).time_set_flag = 1 ∧
      Enqueued reset_state (send [84, 49, 52, 51, 48, 13] reset_state)
        [84, 61, 49, 52, 58, 51, 48, 13, 10] ∧
      Enqueued (send [84, 49, 52, 51, 48, 13] reset_state)
        (send [84, 63, 13] (send [84, 49, 52, 51, 48, 13] reset_state))
        [84, 61, 49, 52, 58, 51, 48, 13, 10] ∧
      (send [84, 63, 13] (send [84, 49, 52, 51, 48, 13] reset_state)).hour = 14 ∧
      (send [84, 63, 13] (send [84, 49, 52, 51, 48, 13] reset_state)).min = 30 ∧
      (send [84, 63, 13] (send [84, 49, 52, 51, 48, 13] reset_state)).sec =
        (send [84, 49, 52, 51, 48, 13] reset_state).sec :=
  C1_set_then_query reset_state 14 30 (by decide) (by decide) (by decide)

/-- C2: a 6-byte set line with letter T, A or S and two-digit arguments h and m
(0..99) is answered with the time reply, not the error reply: the reply shows
min(h, 23) and min(m, 59), and the hour and minute variables addressed by the
letter hold those clamped values afterwards. -/
theorem C2_clamp (s : State) (tag h m : Nat) (htag : tag = 84 ∨ tag = 65 ∨ tag = 83)
    (hh : h ≤ 99) (hm : m ≤ 99) (hw : s.wt_wt_pnt < BUF_LEN) :
    Enqueued s (send (set_line tag h m) s) (time_reply tag (min h 23) (min m 59)) ∧
      (tag = 84 → (send (set_line tag h m) s).hour = min h 23 ∧
        (send (set_line tag h m) s).min = min m 59) ∧
      (tag = 65 → (send (set_line tag h m) s).a_hour = min h 23 ∧
        (send (set_line tag h m) s).a_min = min m 59) ∧
      (tag = 83 → (send (set_line tag h m) s).s_hour = min h 23 ∧
        (send (set_line tag h m) s).s_min = min m 59) := by
  have hl : ∀ t, (time_reply t (min h 23) (min m 59)).length ≤ BUF_LEN := by
    intro t; simp [time_reply, BUF_LEN]
  rcases htag with rfl | rfl | rfl
  · obtain ⟨T, J, e⟩ := dispatch_T_set (with_line (set_line 84 h m) s) h m hh hm hw
      (Or.inl rfl) rfl rfl rfl rfl rfl
    unfold send
    rw [e]
    exact ⟨enqueued_of_ring_put s _ _ hw (hl 84) rfl rfl rfl, fun _ => ⟨rfl, rfl⟩,
      fun h => absurd h (by decide), fun h => absurd h (by decide)⟩
  · obtain ⟨T, J, e⟩ := dispatch_A_set (with_line (set_line 65 h m) s) h m hh hm hw
      (Or.inl rfl) rfl rfl rfl rfl rfl
    unfold send
    rw [e]
    exact ⟨enqueued_of_ring_put s _ _ hw (hl 65) rfl rfl rfl, fun h => absurd h (by decide),
      fun _ => ⟨rfl, rfl⟩, fun h => absurd h (by decide)⟩
  · obtain ⟨T, J, e⟩ := dispatch_S_set (with_line (set_line 83 h m) s) h m hh hm hw
      (Or.inl rfl) rfl rfl rfl rfl rfl
    unfold send
    rw [e]
    exact ⟨enqueued_of_ring_put s _ _ hw (hl 83) rfl rfl rfl, fun h => absurd h (by decide),
      fun h => absurd h (by decide), fun _ => ⟨rfl, rfl⟩⟩

/-- C2 on 'T2599' CR: the reply is "T=23:59" CR LF and the clock reads 23:59. -/
theorem C2_clamp_witness :
    Enqueued reset_state (send [84, 50, 53, 57, 57, 13] reset_state)
        [84, 61, 50, 51, 58, 53, 57, 13, 10] ∧
      (send [84, 50, 53, 57, 57, 13] reset_state).hour = 23 ∧
      (send [84, 50, 53, 57, 57, 13] reset_state).min = 59 :=
  have h := C2_clamp reset_state 84 25 99 (Or.inl rfl) (by decide) (by decide) (by decide)
  ⟨h.1, h.2.1 rfl⟩

/-- C3: a completed line whose first byte is no command letter, or whose length
(terminator included) is not 3 and, for T, A and S, not 6 either, gets exactly
"Command error" CR LF appended to the outbound buffer, and clock, schedule,
liveness flag and both countdowns are left as they were. -/
theorem C3_error (s : State) (hw : s.wt_wt_pnt < BUF_LEN)
    (hm : malformed (s.cmd_buf 0) s.cmd_buf_pnt) :
    Enqueued s (dispatch s) error_reply ∧
      (dispatch s).hour = s.hour ∧ (dispatch s).min = s.min ∧ (dispatch s).sec = s.sec ∧
      (dispatch s).a_hour = s.a_hour ∧ (dispatch s).a_min = s.a_min ∧
      (dispatch s).s_hour = s.s_hour ∧ (dispatch s).s_min = s.s_min ∧
      (dispatch s).time_set_flag = s.time_set_flag ∧
      (dispatch s).boot_flag = s.boot_flag ∧ (dispatch s).kill_flag = s.kill_flag := by
  rw [dispatch_error s hw hm]
  exact ⟨enqueued_of_ring_put s _ _ hw (by decide) rfl rfl rfl, rfl, rfl, rfl, rfl, rfl, rfl,
    rfl, rfl, rfl, rfl⟩

/-- C3 on the lines 'X?' CR and 'T143' CR: both are answered with the error
reply. -/
theorem C3_error_witness :
    Enqueued reset_state (send [88, 63, 13] reset_state) error_reply ∧
      Enqueued reset_state (send [84, 49, 52, 51, 13] reset_state) error_reply :=
  ⟨(C3_error (with_line [88, 63, 13] reset_state) (by decide) (by decide)).1,
    (C3_error (with_line [84, 49, 52, 51, 13] reset_state) (by decide) (by decide)).1⟩

/-! ## Clock and schedule stay in range -/

theorem same_times_refl (s : State) : same_times s s := ⟨rfl, rfl, rfl, rfl, rfl, rfl, rfl⟩

theorem same_times_trans {s t u : State} (h1 : same_times s t) (h2 : same_times t u) :
    same_times s u := by
  obtain ⟨a1, a2, a3, a4, a5, a6, a7⟩ := h1
  obtain ⟨b1, b2, b3, b4, b5, b6, b7⟩ := h2
  exact ⟨b1.trans a1, b2.trans a2, b3.trans a3, b4.trans a4, b5.trans a5, b6.trans a6,
    b7.trans a7⟩

theorem times_ok_of_same {s t : State} (h : same_times s t) (hs : times_ok s) : times_ok t := by
  obtain ⟨a1, a2, a3, a4, a5, a6, a7⟩ := h
  unfold times_ok at *
  rw [a1, a2, a3, a4, a5, a6, a7]
  exact hs

theorem wt_put_times (c : Nat) (s : State) : same_times s (wt_put c s) := by
  unfold wt_put same_times
  dsimp only
  split_ifs <;> exact ⟨rfl, rfl, rfl, rfl, rfl, rfl, rfl⟩

theorem pgm_out_str_times (l : List Nat) : ∀ s : State, same_times s (pgm_out_str l s) := by
  induction l with
  | nil => intro s; exact ⟨rfl, rfl, rfl, rfl, rfl, rfl, rfl⟩
  | cons c rest ih =>
    intro s
    unfold pgm_out_str
    dsimp only
    split_ifs
    · exact same_times_trans (s := s) (t := wt_put c { s with tmp_char := c })
        (same_times_trans (s := s) (t := { s with tmp_char := c })
          ⟨rfl, rfl, rfl, rfl, rfl, rfl, rfl⟩ (wt_put_times _ _)) (ih _)
    · exact ⟨rfl, rfl, rfl, rfl, rfl, rfl, rfl⟩

theorem out_str_loop_times (fuel : Nat) : ∀ (i : Nat) (s : State),
    same_times s (out_str_loop fuel i s) := by
  induction fuel with
  | zero => intro i s; exact same_times_refl s
  | succ fuel ih =>
    intro i s
    unfold out_str_loop
    split_ifs
    · exact same_times_trans (wt_put_times _ s) (ih _ _)
    · exact same_times_refl s

theorem out_str_times (s : State) : same_times s (out_str s) := out_str_loop_times 16 0 s

theorem tell_times (tag h m : Nat) (s : State) : same_times s (tell tag h m s) := by
  unfold tell
  dsimp only
  exact same_times_trans (t := _) ⟨rfl, rfl, rfl, rfl, rfl, rfl, rfl⟩ (out_str_times _)

theorem tell_val_times (tag : Nat) (v : Int) (s : State) : same_times s (tell_val tag v s) := by
  unfold tell_val
  dsimp only
  exact same_times_trans (t := _) ⟨rfl, rfl, rfl, rfl, rfl, rfl, rfl⟩ (out_str_times _)

theorem out_str_buf_times (s : State) (b : Nat → Nat) :
    same_times s (out_str { s with tmp_buf := b }) :=
  same_times_trans (t := { s with tmp_buf := b }) ⟨rfl, rfl, rfl, rfl, rfl, rfl, rfl⟩
    (out_str_times _)

theorem tell_B_times (s : State) : same_times s (tell_B s) := by
  unfold tell_B
  dsimp only
  exact same_times_trans (tell_val_times 66 s.bat_volt s)
    (same_times_trans (tell_val_times 84 _ _) (out_str_buf_times _ _))

theorem set_T_ok (s : State) (h : times_ok s) : times_ok (set_T s) := by
  obtain ⟨hr, mn, cb, e, b1, b2⟩ := set_T_any s
  rw [e]
  obtain ⟨a1, a2, a3, a4, a5, a6, a7⟩ := h
  exact ⟨b1, b2, a3, a4, a5, a6, a7⟩

theorem set_A_ok (s : State) (h : times_ok s) : times_ok (set_A s) := by
  obtain ⟨hr, mn, cb, e, b1, b2⟩ := set_A_any s
  rw [e]
  obtain ⟨a1, a2, a3, a4, a5, a6, a7⟩ := h
  exact ⟨a1, a2, a3, b1, b2, a6, a7⟩

theorem set_S_ok (s : State) (h : times_ok s) : times_ok (set_S s) := by
  obtain ⟨hr, mn, cb, e, b1, b2⟩ := set_S_any s
  rw [e]
  obtain ⟨a1, a2, a3, a4, a5, a6, a7⟩ := h
  exact ⟨a1, a2, a3, a4, a5, b1, b2⟩

theorem command_switch_ok (s : State) (h : times_ok s) : times_ok (command_switch s) := by
  have hi : same_times s { s with i := 0 } := ⟨rfl, rfl, rfl, rfl, rfl, rfl, rfl⟩
  have hk : ∀ x : State, same_times x { x with kill_flag := 5 } :=
    fun x => ⟨rfl, rfl, rfl, rfl, rfl, rfl, rfl⟩
  have hb : ∀ x : State, same_times x { x with boot_flag := 10 } :=
    fun x => ⟨rfl, rfl, rfl, rfl, rfl, rfl, rfl⟩
  unfold command_switch
  dsimp only
  split_ifs
  · exact times_ok_of_same (same_times_trans hi (pgm_out_str_times _ _)) h
  · exact times_ok_of_same (pgm_out_str_times _ _) h
  · exact times_ok_of_same (tell_B_times s) h
  · exact times_ok_of_same (pgm_out_str_times _ _) h
  · exact times_ok_of_same (tell_times _ _ _ _) (set_T_ok s h)
  · exact times_ok_of_same (tell_times _ _ _ _) h
  · exact times_ok_of_same (pgm_out_str_times _ _) h
  · exact times_ok_of_same (tell_times _ _ _ _) (set_A_ok s h)
  · exact times_ok_of_same (tell_times _ _ _ _) h
  · exact times_ok_of_same (pgm_out_str_times _ _) h
  · exact times_ok_of_same (tell_times _ _ _ _) (set_S_ok s h)
  · exact times_ok_of_same (tell_times _ _ _ _) h
  · exact times_ok_of_same (pgm_out_str_times _ _) h
  · exact times_ok_of_same
      (same_times_trans (same_times_trans hi (pgm_out_str_times _ _)) (hk _)) h
  · exact times_ok_of_same (pgm_out_str_times _ _) h
  · exact times_ok_of_same
      (same_times_trans (same_times_trans hi (pgm_out_str_times _ _)) (hb _)) h
  · exact times_ok_of_same (pgm_out_str_times _ _) h
  · exact times_ok_of_same (pgm_out_str_times _ _) h

theorem dispatch_ok (s : State) (h : times_ok s) : times_ok (dispatch s) := by
  have := command_switch_ok s h
  unfold dispatch
  exact this

/-! ## The blocks of the supervisor, one by one -/

theorem tstbit_setbit (r n m : Nat) : tstbit (setbit r n) m = (tstbit r m || decide (n = m)) := by
  rw [tstbit_eq, tstbit_eq, testBit_setbit]

theorem tstbit_clrbit (r n m : Nat) :
    tstbit (clrbit r n) m = (tstbit r m && (decide (m < 8) != decide (n = m))) := by
  rw [tstbit_eq, tstbit_eq, testBit_clrbit]

theorem sample_spec (a : AdcIn) (s : State) :
    ∃ bv tp ad P bl,
      sample a s = { s with bat_volt := bv, temp := tp, ADMUX := ad, PORTA := P, blink_flag := bl } ∧
      tstbit P 1 = tstbit s.PORTA 1 ∧ tstbit P 2 = tstbit s.PORTA 2 ∧
      bv = (if s.blink_flag ≠ 0 then s16 a.volt else s.bat_volt) := by
  unfold sample
  dsimp only
  split_ifs with h1 h2
  · exact ⟨_, _, _, _, _, rfl, by simp [tstbit_clrbit], by simp [tstbit_clrbit], rfl⟩
  · exact ⟨_, _, _, _, _, rfl, rfl, rfl, rfl⟩
  · exact ⟨_, _, _, _, _, rfl, by simp [tstbit_setbit], by simp [tstbit_setbit], rfl⟩

theorem schedule_start_spec (s : State) :
    ∃ P f c,
      schedule_start s = { s with PORTA := P, time_set_flag := f, boot_cnt := c } ∧
      tstbit P 2 = tstbit s.PORTA 2 ∧
      (start_due s ∧ s.low_flag = 0 → tstbit P 1 = true ∧ f = 0 ∧ c = 3) ∧
      (¬ (start_due s ∧ s.low_flag = 0) → P = s.PORTA ∧ f = s.time_set_flag ∧ c = s.boot_cnt) := by
  unfold schedule_start start_due
  dsimp only
  split_ifs with h
  · refine ⟨_, _, _, rfl, by simp [tstbit_setbit], fun _ => ⟨by simp [tstbit_setbit], rfl, rfl⟩,
      fun hn => absurd ?_ hn⟩
    tauto
  · refine ⟨_, _, _, rfl, rfl, fun hp => absurd ?_ h, fun _ => ⟨rfl, rfl, rfl⟩⟩
    tauto

theorem schedule_stop_spec (s : State) :
    ∃ P, schedule_stop s = { s with PORTA := P } ∧ tstbit P 2 = tstbit s.PORTA 2 ∧
      (stop_due s → tstbit P 1 = false) ∧ (¬ stop_due s → P = s.PORTA) := by
  unfold schedule_stop stop_due
  split_ifs with h
  · exact ⟨_, rfl, by simp [tstbit_clrbit], fun _ => by simp [tstbit_clrbit],
      fun hn => absurd h hn⟩
  · exact ⟨_, rfl, rfl, fun hp => absurd hp h, fun _ => rfl⟩

theorem battery_spec (s : State) :
    ∃ P t l,
      battery s = { s with PORTA := P, ten_sec_flag := t, low_flag := l } ∧
      tstbit P 2 =
        (if s.bat_volt > 12300 then false
         else if s.bat_volt < 12200 then true else tstbit s.PORTA 2) ∧
      tstbit P 1 = (tstbit s.PORTA 1 && decide (l = 0)) ∧
      t = (if s.sec = 10 then 1 else s.ten_sec_flag) ∧
      l = (if s.bat_volt > 9600 then 0
           else if s.bat_volt < 9300 ∧ t ≠ 0 then 1 else s.low_flag) := by
  unfold battery
  dsimp only
  refine ⟨_, _, _, rfl, ?_, ?_, rfl, rfl⟩
  · split_ifs <;> first | (exfalso; omega) | simp [tstbit_clrbit, tstbit_setbit]
  · generalize (if s.bat_volt > 9600 then 0
      else if s.bat_volt < 9300 ∧ (if s.sec = 10 then 1 else s.ten_sec_flag) ≠ 0 then 1
      else s.low_flag) = l
    have e : tstbit (if s.bat_volt < 12200 then
        setbit (if s.bat_volt > 12300 then clrbit s.PORTA 2 else s.PORTA) 2
        else if s.bat_volt > 12300 then clrbit s.PORTA 2 else s.PORTA) 1 = tstbit s.PORTA 1 := by
      split_ifs <;> simp [tstbit_clrbit, tstbit_setbit]
    by_cases hl : l = 0
    · simp [hl, e]
    · by_cases hp : tstbit s.PORTA 1 = true
      · simp [hl, e, hp, tstbit_clrbit]
      · simp [hl, e, hp]

theorem kill_countdown_spec (s : State) :
    ∃ P, kill_countdown s = { s with PORTA := P, kill_flag := s.kill_flag - 1 } ∧
      tstbit P 2 = tstbit s.PORTA 2 ∧
      tstbit P 1 = (tstbit s.PORTA 1 && !decide (s.kill_flag = 1)) := by
  unfold kill_countdown
  dsimp only
  split_ifs with h1 h2
  · have : s.kill_flag = 1 := by omega
    exact ⟨_, rfl, by simp [tstbit_clrbit], by simp [tstbit_clrbit, this]⟩
  · have : ¬ s.kill_flag = 1 := by omega
    exact ⟨_, rfl, rfl, by simp [this]⟩
  · have h0 : s.kill_flag = 0 := by omega
    have e : s.kill_flag - 1 = s.kill_flag := by omega
    refine ⟨s.PORTA, ?_, rfl, by simp [h0]⟩
    rw [e]

theorem boot_countdown_spec (s : State) :
    ∃ P, boot_countdown s = { s with PORTA := P, boot_flag := s.boot_flag - 1 } ∧
      tstbit P 2 = tstbit s.PORTA 2 ∧
      tstbit P 1 =
        (if s.boot_flag = 1 then true else if s.boot_flag = 6 then false
         else tstbit s.PORTA 1) := by
  unfold boot_countdown
  dsimp only
  split_ifs with h1 h2 h3 h4 h5 h6 h7
  all_goals first
    | (exfalso; omega)
    | exact ⟨_, rfl, by simp [tstbit_clrbit, tstbit_setbit], by simp [tstbit_clrbit, tstbit_setbit]⟩
    | (have e : s.boot_flag - 1 = s.boot_flag := by omega
       exact ⟨s.PORTA, by rw [e], rfl, rfl⟩)

theorem liveness_check_spec (s : State) :
    ∃ c b k,
      liveness_check s = { s with boot_cnt := c, boot_flag := b, kill_flag := k } ∧
      (¬ (s.sec = 59 ∧ s.time_set_flag = 0) →
        c = s.boot_cnt ∧ b = s.boot_flag ∧ k = s.kill_flag) ∧
      (s.sec = 59 ∧ s.time_set_flag = 0 →
        (s8 (s.boot_cnt - 1) > 0 → c = s8 (s.boot_cnt - 1) ∧ b = 10 ∧ k = s.kill_flag) ∧
        (s8 (s.boot_cnt - 1) = 0 → c = 0 ∧ b = s.boot_flag ∧ k = 5) ∧
        (s8 (s.boot_cnt - 1) < 0 → c = 0 ∧ b = s.boot_flag ∧ k = s.kill_flag)) := by
  unfold liveness_check
  dsimp only
  split_ifs with h1 h2 h3
  · exact ⟨_, _, _, rfl, fun hn => absurd h1 hn,
      fun _ => ⟨fun _ => ⟨rfl, rfl, rfl⟩, fun h => by omega, fun h => by omega⟩⟩
  · exact ⟨_, _, _, rfl, fun hn => absurd h1 hn,
      fun _ => ⟨fun h => by omega, fun _ => ⟨h3, rfl, rfl⟩, fun h => by omega⟩⟩
  · exact ⟨_, _, _, rfl, fun hn => absurd h1 hn,
      fun _ => ⟨fun h => by omega, fun h => by omega, fun _ => ⟨rfl, rfl, rfl⟩⟩⟩
  · exact ⟨_, _, _, rfl, fun _ => ⟨rfl, rfl, rfl⟩, fun h => absurd h h1⟩

/-- What one supervisor evaluation does to the state: only the listed
variables change, and the new values of the switch outputs, the flags and the
countdowns are as stated. -/
theorem supervisor_spec (a : AdcIn) (s : State) :
    ∃ bv tp ad bl P f c t l k b,
      supervisor a s =
        { s with old_sec := s.sec, bat_volt := bv, temp := tp, ADMUX := ad, blink_flag := bl,
                 PORTA := P, time_set_flag := f, boot_cnt := c, ten_sec_flag := t,
                 low_flag := l, kill_flag := k, boot_flag := b } ∧
      tstbit P 2 =
        (if bv > 12300 then false else if bv < 12200 then true else tstbit s.PORTA 2) ∧
      tstbit P 1 =
        (if s.boot_flag = 1 then true else if s.boot_flag = 6 then false
         else ((tstbit s.PORTA 1 || decide (start_due s ∧ s.low_flag = 0)) &&
            !decide (stop_due s) && decide (l = 0) && !decide (s.kill_flag = 1))) ∧
      f = (if start_due s ∧ s.low_flag = 0 then 0 else s.time_set_flag) ∧
      t = (if s.sec = 10 then 1 else s.ten_sec_flag) ∧
      l = (if bv > 9600 then 0 else if bv < 9300 ∧ t ≠ 0 then 1 else s.low_flag) ∧
      (¬ (s.sec = 59 ∧ f = 0) →
        c = (if start_due s ∧ s.low_flag = 0 then 3 else s.boot_cnt) ∧
        b = s.boot_flag - 1 ∧ k = s.kill_flag - 1) ∧
      (s.sec = 59 ∧ f = 0 →
        (s8 (s.boot_cnt - 1) > 0 → c = s8 (s.boot_cnt - 1) ∧ b = 10 ∧ k = s.kill_flag - 1) ∧
        (s8 (s.boot_cnt - 1) = 0 → c = 0 ∧ b = s.boot_flag - 1 ∧ k = 5) ∧
        (s8 (s.boot_cnt - 1) < 0 → c = 0 ∧ b = s.boot_flag - 1 ∧ k = s.kill_flag - 1)) ∧
      bv = (if s.blink_flag ≠ 0 then s16 a.volt else s.bat_volt) := by
  obtain ⟨bv, tp, ad, P1, bl, e1, p11, p12, hbv⟩ := sample_spec a { s with old_sec := s.sec }
  dsimp only at e1 p11 p12 hbv
  obtain ⟨P2, f, c2, e2, p22, hs1, hs2⟩ := schedule_start_spec
    { s with old_sec := s.sec, bat_volt := bv, temp := tp, ADMUX := ad, PORTA := P1,
             blink_flag := bl }
  unfold start_due at hs1 hs2
  dsimp only at e2 p22 hs1 hs2
  obtain ⟨P3, e3, p32, ht1, ht2⟩ := schedule_stop_spec
    { s with old_sec := s.sec, bat_volt := bv, temp := tp, ADMUX := ad, PORTA := P2,
             blink_flag := bl, time_set_flag := f, boot_cnt := c2 }
  unfold stop_due at ht1 ht2
  dsimp only at e3 p32 ht1 ht2
  obtain ⟨P4, t, l, e4, p42, p41, ht, hl⟩ := battery_spec
    { s with old_sec := s.sec, bat_volt := bv, temp := tp, ADMUX := ad, PORTA := P3,
             blink_flag := bl, time_set_flag := f, boot_cnt := c2 }
  dsimp only at e4 p42 p41 ht hl
  obtain ⟨P5, e5, p52, p51⟩ := kill_countdown_spec
    { s with old_sec := s.sec, bat_volt := bv, temp := tp, ADMUX := ad, PORTA := P4,
             blink_flag := bl, time_set_flag := f, boot_cnt := c2, ten_sec_flag := t,
             low_flag := l }
  dsimp only at e5 p52 p51
  obtain ⟨P6, e6, p62, p61⟩ := boot_countdown_spec
    { s with old_sec := s.sec, bat_volt := bv, temp := tp, ADMUX := ad, PORTA := P5,
             blink_flag := bl, time_set_flag := f, boot_cnt := c2, ten_sec_flag := t,
             low_flag := l, kill_flag := s.kill_flag - 1 }
  dsimp only at e6 p62 p61
  obtain ⟨c, b, k, e7, hn, hy⟩ := liveness_check_spec
    { s with old_sec := s.sec, bat_volt := bv, temp := tp, ADMUX := ad, PORTA := P6,
             blink_flag := bl, time_set_flag := f, boot_cnt := c2, ten_sec_flag := t,
             low_flag := l, kill_flag := s.kill_flag - 1, boot_flag := s.boot_flag - 1 }
  dsimp only at e7 hn hy
  have hsup : supervisor a s =
      { s with old_sec := s.sec, bat_volt := bv, temp := tp, ADMUX := ad, blink_flag := bl,
               PORTA := P6, time_set_flag := f, boot_cnt := c, ten_sec_flag := t,
               low_flag := l, kill_flag := k, boot_flag := b } := by
    unfold supervisor escalation schedule
    rw [e1, e2, e3, e4, e5, e6, e7]
  have hf : f = (if start_due s ∧ s.low_flag = 0 then 0 else s.time_set_flag) := by
    unfold start_due
    split_ifs with h
    · exact (hs1 h).2.1
    · exact (hs2 h).2.1
  have hc2 : c2 = (if start_due s ∧ s.low_flag = 0 then 3 else s.boot_cnt) := by
    unfold start_due
    split_ifs with h
    · exact (hs1 h).2.2
    · exact (hs2 h).2.2
  have hp2 : tstbit P2 1 = (tstbit s.PORTA 1 || decide (start_due s ∧ s.low_flag = 0)) := by
    unfold start_due
    by_cases h : (s.sec = 0 ∧ s.min = s.a_min ∧ s.hour = s.a_hour) ∧ s.low_flag = 0
    · rw [(hs1 h).1]; simp [h]
    · rw [(hs2 h).1, p11]; simp [h]
  have hp3 : tstbit P3 1 = (tstbit P2 1 && !decide (stop_due s)) := by
    unfold stop_due
    by_cases h : s.sec = 0 ∧ s.min = s.s_min ∧ s.hour = s.s_hour
    · rw [ht1 h]; simp [h]
    · rw [ht2 h]; simp [h]
  refine ⟨bv, tp, ad, bl, P6, f, c, t, l, k, b, hsup, ?_, ?_, hf, ht, hl, ?_, ?_, hbv⟩
  · rw [p62, p52, p42, p32, p22, p12]
  · rw [p61, p51, p41, hp3, hp2]
  · intro h
    obtain ⟨h1, h2, h3⟩ := hn h
    exact ⟨by rw [h1, hc2], h2, h3⟩
  · intro h
    obtain ⟨g1, g2, g3⟩ := hy h
    by_cases hsd : start_due s ∧ s.low_flag = 0
    · exfalso
      unfold start_due at hsd
      omega
    · rw [hc2, if_neg hsd] at g1 g2 g3
      exact ⟨g1, g2, g3⟩

/-! ## Interrupt handlers and the receive path: what they leave alone -/

theorem timekeeping_spec (s : State) :
    ∃ t sc mn hr,
      timekeeping s = { s with tick := t, sec := sc, min := mn, hour := hr } ∧
      (s.hour ≤ 23 → s.min ≤ 59 → s.sec ≤ 59 → hr ≤ 23 ∧ mn ≤ 59 ∧ sc ≤ 59) := by
  unfold timekeeping
  dsimp only
  split_ifs with h1 h2 h3 h4 <;>
    exact ⟨_, _, _, _, rfl, fun a b c => by (try simp only [u8] at *); omega⟩

theorem uart_tx_spec (s : State) :
    ∃ P st bc d r,
      uart_tx s = { s with PORTA := P, SwUartTXState := st, SwUartTXBitCount := bc,
                           SwUartTXData := d, wt_rd_pnt := r } ∧
      tstbit P 1 = tstbit s.PORTA 1 ∧ tstbit P 2 = tstbit s.PORTA 2 := by
  unfold uart_tx
  dsimp only
  split_ifs <;>
    exact ⟨_, _, _, _, _, rfl, by simp [tstbit_clrbit, tstbit_setbit],
      by simp [tstbit_clrbit, tstbit_setbit]⟩

theorem TIM0_OVF_spec (s : State) :
    ∃ t sc mn hr P st bc d r,
      TIM0_OVF s = { s with tick := t, sec := sc, min := mn, hour := hr, PORTA := P,
                            SwUartTXState := st, SwUartTXBitCount := bc, SwUartTXData := d,
                            wt_rd_pnt := r } ∧
      tstbit P 1 = tstbit s.PORTA 1 ∧ tstbit P 2 = tstbit s.PORTA 2 ∧
      (s.hour ≤ 23 → s.min ≤ 59 → s.sec ≤ 59 → hr ≤ 23 ∧ mn ≤ 59 ∧ sc ≤ 59) := by
  obtain ⟨t, sc, mn, hr, e1, hk⟩ := timekeeping_spec s
  obtain ⟨P, st, bc, d, r, e2, p1, p2⟩ := uart_tx_spec
    { s with tick := t, sec := sc, min := mn, hour := hr }
  refine ⟨t, sc, mn, hr, P, st, bc, d, r, ?_, p1, p2, hk⟩
  unfold TIM0_OVF
  rw [e1, e2]

theorem TIM0_OVF_ok (s : State) (h : times_ok s) : times_ok (TIM0_OVF s) := by
  obtain ⟨t, sc, mn, hr, P, st, bc, d, r, e, _, _, hk⟩ := TIM0_OVF_spec s
  obtain ⟨a1, a2, a3, a4, a5, a6, a7⟩ := h
  obtain ⟨b1, b2, b3⟩ := hk a1 a2 a3
  rw [e]
  exact ⟨b1, b2, b3, a4, a5, a6, a7⟩

theorem TIM1_COMPA_times (pin : Bool) (s : State) : same_times s (TIM1_COMPA pin s) := by
  unfold TIM1_COMPA
  dsimp only
  split_ifs <;> exact ⟨rfl, rfl, rfl, rfl, rfl, rfl, rfl⟩

theorem EXT_INT0_times (s : State) : same_times s (EXT_INT0 s) :=
  ⟨rfl, rfl, rfl, rfl, rfl, rfl, rfl⟩

theorem supervisor_times (a : AdcIn) (s : State) : same_times s (supervisor a s) := by
  obtain ⟨bv, tp, ad, bl, P, f, c, t, l, k, b, e, _⟩ := supervisor_spec a s
  rw [e]
  exact ⟨rfl, rfl, rfl, rfl, rfl, rfl, rfl⟩

theorem drain_step_times (s : State) : same_times s (drain_step s) := by
  unfold drain_step
  dsimp only
  split_ifs <;> exact ⟨rfl, rfl, rfl, rfl, rfl, rfl, rfl⟩

theorem drain_loop_times (fuel : Nat) : ∀ s : State, same_times s (drain_loop fuel s) := by
  induction fuel with
  | zero => intro s; exact same_times_refl s
  | succ fuel ih =>
    intro s
    unfold drain_loop
    split_ifs
    · exact same_times_trans (drain_step_times s) (ih _)
    · exact same_times_refl s

theorem drain_times (s : State) : same_times s (drain s) := drain_loop_times BUF_LEN s

theorem main_loop_ok (a : AdcIn) (s : State) (h : times_ok s) : times_ok (main_loop a s) := by
  have h1 : times_ok (if s.old_sec ≠ s.sec then supervisor a s else s) := by
    split_ifs
    · exact times_ok_of_same (supervisor_times a s) h
    · exact h
  have key : ∀ x : State, times_ok x →
      times_ok (if (drain x).cmd_flag ≠ 0 then dispatch (drain x) else drain x) := by
    intro x hx
    have hd : times_ok (drain x) := times_ok_of_same (drain_times x) hx
    split_ifs
    · exact dispatch_ok (drain x) hd
    · exact hd
  exact key _ h1

theorem send_ok (line : List Nat) (s : State) (h : times_ok s) : times_ok (send line s) :=
  dispatch_ok _ h

/-- C5: in every state reachable from reset by runs of the interrupt handlers,
passes through the foreground loop and dispatches of command lines of
arbitrary content, the clock hour and both schedule hours are at most 23 and
the clock minute, the clock second and both schedule minutes at most 59. -/
theorem C5_times_in_range (s : State) (h : Reachable s) :
    s.hour ≤ 23 ∧ s.min ≤ 59 ∧ s.sec ≤ 59 ∧ s.a_hour ≤ 23 ∧ s.a_min ≤ 59 ∧
      s.s_hour ≤ 23 ∧ s.s_min ≤ 59 := by
  show times_ok s
  induction h with
  | reset => exact ⟨by decide, by decide, by decide, by decide, by decide, by decide, by decide⟩
  | tim0 _ ih => exact TIM0_OVF_ok _ ih
  | tim1 pin _ ih => exact times_ok_of_same (TIM1_COMPA_times pin _) ih
  | int0 _ ih => exact times_ok_of_same (EXT_INT0_times _) ih
  | enter _ _ ih => exact ih
  | loop a _ ih => exact main_loop_ok a _ ih
  | command line _ ih => exact send_ok line _ ih

/-- C5 on a line with a signed hour and a blank in the minute, 'T-5 7' CR,
received after one timer tick: the hour is clamped into range. -/
theorem C5_times_in_range_witness :
    Reachable (send [84, 45, 53, 32, 55, 13] (TIM0_OVF reset_state)) ∧
      (send [84, 45, 53, 32, 55, 13] (TIM0_OVF reset_state)).hour ≤ 23 ∧
      (send [84, 45, 53, 32, 55, 13] (TIM0_OVF reset_state)).min ≤ 59 :=
  have r : Reachable (send [84, 45, 53, 32, 55, 13] (TIM0_OVF reset_state)) :=
    Reachable.command _ (Reachable.tim0 Reachable.reset)
  have h := C5_times_in_range _ r
  ⟨r, h.1, h.2.1⟩

/-! ## Claims on the supervisor -/

set_option maxRecDepth 4000 in
/-- C6, evaluation of the code at the failing input: with the low-battery flag
set and 9000 mV measured, a reboot countdown that reaches zero in this
evaluation leaves the flag set and the load output on. -/
theorem C6_reboot_overrides_inhibition :
    low_battery_reboot_state.low_flag = 1 ∧
      load_on low_battery_reboot_state = false ∧
      (supervisor ⟨300, 9000⟩ low_battery_reboot_state).low_flag = 1 ∧
      load_on (supervisor ⟨300, 9000⟩ low_battery_reboot_state) = true := by
  decide

theorem supervisor_inhibits_unless_reboot (a : AdcIn) (s : State)
    (hl : (supervisor a s).low_flag ≠ 0) (hb : s.boot_flag ≠ 1) :
    load_on (supervisor a s) = false := by
  obtain ⟨bv, tp, ad, bl, P, f, c, t, l, k, b, e, _, p1, _⟩ := supervisor_spec a s
  rw [e] at hl ⊢
  have hl2 : ¬ l = 0 := hl
  show tstbit P 1 = false
  rw [p1, if_neg hb]
  split_ifs
  · rfl
  · simp [hl2]

theorem supervisor_reboot_forces_load (a : AdcIn) (s : State) (hb : s.boot_flag = 1) :
    load_on (supervisor a s) = true := by
  obtain ⟨bv, tp, ad, bl, P, f, c, t, l, k, b, e, _, p1, _⟩ := supervisor_spec a s
  rw [e]
  show tstbit P 1 = true
  rw [p1, if_pos hb]

theorem ticks_spec (n : Nat) : ∀ s : State,
    ∃ t sc mn hr P st bc d r,
      ticks n s = { s with tick := t, sec := sc, min := mn, hour := hr, PORTA := P,
                           SwUartTXState := st, SwUartTXBitCount := bc, SwUartTXData := d,
                           wt_rd_pnt := r } ∧
      tstbit P 1 = tstbit s.PORTA 1 ∧ tstbit P 2 = tstbit s.PORTA 2 := by
  induction n with
  | zero => intro s; exact ⟨_, _, _, _, _, _, _, _, _, rfl, rfl, rfl⟩
  | succ n ih =>
    intro s
    obtain ⟨t, sc, mn, hr, P, st, bc, d, r, e1, p1, p2, _⟩ := TIM0_OVF_spec s
    obtain ⟨t2, sc2, mn2, hr2, P2, st2, bc2, d2, r2, e2, q1, q2⟩ := ih (TIM0_OVF s)
    rw [e1] at e2 q1 q2
    dsimp only at e2 q1 q2
    refine ⟨t2, sc2, mn2, hr2, P2, st2, bc2, d2, r2, ?_, by rw [q1, p1], by rw [q2, p2]⟩
    rw [ticks_succ, e1, e2]

theorem second_step_solar (a : AdcIn) (s : State) :
    solar_on (second_step a s) =
      (if (second_step a s).bat_volt > 12300 then false
       else if (second_step a s).bat_volt < 12200 then true else solar_on s) := by
  obtain ⟨t, sc, mn, hr, P0, st, bc, d, r, e0, _, q2⟩ := ticks_spec 2400 s
  obtain ⟨bv, tp, ad, bl, P, f, c, t, l, k, b, e, p2, _⟩ := supervisor_spec a (ticks 2400 s)
  unfold second_step
  rw [e]
  show tstbit P 2 = (if bv > 12300 then false else if bv < 12200 then true else tstbit s.PORTA 2)
  rw [p2, e0]
  show _ = (if bv > 12300 then false else if bv < 12200 then true else tstbit s.PORTA 2)
  rw [q2]

/-- C7: after a supervisor evaluation, with v the battery voltage it leaves in
`bat_volt` (the value its threshold tests read), the charging path is disabled
if v > 12300, enabled if v < 12200 and unchanged if 12200 ≤ v ≤ 12300; and over
any run of seconds in which every evaluation sees at least 12200 mV, a
disabled charging path stays disabled. -/
theorem C7_hysteresis (a : AdcIn) (s : State) :
    ((supervisor a s).bat_volt > 12300 → solar_on (supervisor a s) = false) ∧
      ((supervisor a s).bat_volt < 12200 → solar_on (supervisor a s) = true) ∧
      (12200 ≤ (supervisor a s).bat_volt → (supervisor a s).bat_volt ≤ 12300 →
        solar_on (supervisor a s) = solar_on s) ∧
      (∀ (adc : Nat → AdcIn) (n : Nat), solar_on s = false →
        (∀ k, 1 ≤ k → k ≤ n → 12200 ≤ (after adc k s).bat_volt) →
        solar_on (after adc n s) = false) := by
  obtain ⟨bv, tp, ad, bl, P, f, c, t, l, k, b, e, p2, _⟩ := supervisor_spec a s
  refine ⟨?_, ?_, ?_, ?_⟩
  · rw [e]
    intro h
    have h2 : bv > 12300 := h
    show tstbit P 2 = false
    rw [p2, if_pos h2]
  · rw [e]
    intro h
    have h2 : bv < 12200 := h
    show tstbit P 2 = true
    rw [p2, if_neg (by omega), if_pos h2]
  · rw [e]
    intro h1 h2
    have h3 : 12200 ≤ bv := h1
    have h4 : bv ≤ 12300 := h2
    show tstbit P 2 = tstbit s.PORTA 2
    rw [p2, if_neg (by omega), if_neg (by omega)]
  · intro adc n hoff
    induction n with
    | zero => intro _; exact hoff
    | succ n ih =>
      intro hv
      have hprev : solar_on (after adc n s) = false :=
        ih (fun k h1 h2 => hv k h1 (by omega))
      have hn := hv (n + 1) (by omega) (by omega)
      show solar_on (second_step (adc n) (after adc n s)) = false
      have hn2 : 12200 ≤ (second_step (adc n) (after adc n s)).bat_volt := hn
      rw [second_step_solar]
      split_ifs
      · rfl
      · omega
      · exact hprev

set_option maxRecDepth 4000 in
/-- C7 on concrete readings: 12566 mV switches an enabled charging path off,
12100 mV switches it on, and 12250 mV leaves it as it was. -/
theorem C7_hysteresis_witness :
    solar_on { charging_state with blink_flag := 1 } = true ∧
      solar_on (supervisor ⟨830, 12566⟩ { charging_state with blink_flag := 1 }) = false ∧
      solar_on (supervisor ⟨799, 12100⟩ reset_state) = true ∧
      solar_on (supervisor ⟨300, 0⟩ { charging_state with blink_flag := 0 }) = true :=
  ⟨by decide,
    (C7_hysteresis ⟨830, 12566⟩ { charging_state with blink_flag := 1 }).1 (by decide),
    (C7_hysteresis ⟨799, 12100⟩ reset_state).2.1 (by decide),
    ((C7_hysteresis ⟨300, 0⟩ { charging_state with blink_flag := 0 }).2.2.1
      (by decide) (by decide)).trans (by decide)⟩

/-- C9 as stated fails: at the starting time, with the load off and not
inhibited, a kill countdown that reaches zero in the same evaluation leaves the
load off. -/
theorem C9_counterexample :
    start_due start_with_kill_state ∧ load_on start_with_kill_state = false ∧
      start_with_kill_state.low_flag = 0 ∧
      load_on (supervisor ⟨300, 12000⟩ start_with_kill_state) = false := by
  decide

/-- C9, amended: when the clock reads `Schedule.start` at second 0 and the load
is not inhibited, one supervisor evaluation leaves liveness unconfirmed and
`boot_cnt = 3`; it leaves the load on provided that, in this evaluation, the
clock does not also read `Schedule.stop`, the low-battery flag is not raised,
the kill countdown does not reach 0 and the reboot countdown does not reach 5. -/
theorem C9_start (a : AdcIn) (s : State) (hs : start_due s) (hl : s.low_flag = 0) :
    (supervisor a s).time_set_flag = 0 ∧ (supervisor a s).boot_cnt = 3 ∧
      (¬ stop_due s → (supervisor a s).low_flag = 0 → s.kill_flag ≠ 1 → s.boot_flag ≠ 6 →
        load_on (supervisor a s) = true) := by
  obtain ⟨bv, tp, ad, bl, P, f, c, t, l, k, b, e, _, p1, hf, _, _, hn, _, _⟩ :=
    supervisor_spec a s
  have hsd : start_due s ∧ s.low_flag = 0 := ⟨hs, hl⟩
  have hsec : s.sec = 0 := hs.1
  rw [if_pos hsd] at hf
  have hc := (hn (by omega)).1
  rw [if_pos hsd] at hc
  rw [e]
  refine ⟨hf, hc, ?_⟩
  intro hstop hlow hk hb
  have hl0 : l = 0 := hlow
  show tstbit P 1 = true
  rw [p1]
  split_ifs
  · rfl
  · simp [hsd, hstop, hl0, hk]

set_option maxRecDepth 4000 in
/-- C9, amended, at 20:00:00 from the start-up defaults with 12000 mV measured:
the load goes on, liveness is unconfirmed and `boot_cnt = 3`. -/
theorem C9_start_witness :
    (supervisor ⟨300, 12000⟩ { start_with_kill_state with kill_flag := 0 }).time_set_flag = 0 ∧
      (supervisor ⟨300, 12000⟩ { start_with_kill_state with kill_flag := 0 }).boot_cnt = 3 ∧
      load_on (supervisor ⟨300, 12000⟩ { start_with_kill_state with kill_flag := 0 }) = true :=
  have h := C9_start ⟨300, 12000⟩ { start_with_kill_state with kill_flag := 0 }
    (by decide) (by decide)
  ⟨h.1, h.2.1, h.2.2 (by decide) (by decide) (by decide) (by decide)⟩

/-! ## Liveness escalation -/

/-- One supervisor evaluation on a state `X` that agrees with `x` on everything
but the clock, the clock of `X` being one second ahead: what it does to the
clock, the battery reading and the escalation variables. -/
theorem supervisor_esc (a : AdcIn) (x X : State)
    (c1 : X.tick = x.tick) (a1 : X.a_hour = x.a_hour) (a2 : X.a_min = x.a_min)
    (a3 : X.time_set_flag = x.time_set_flag) (a4 : X.boot_cnt = x.boot_cnt)
    (a5 : X.boot_flag = x.boot_flag) (a6 : X.kill_flag = x.kill_flag)
    (a7 : X.low_flag = x.low_flag) (a8 : X.blink_flag = x.blink_flag)
    (a9 : X.bat_volt = x.bat_volt) (hsec : X.sec = (x.sec + 1) % 60)
    (hsod : 3600 * X.hour + 60 * X.min + X.sec = (seconds_of_day x + 1) % 86400)
    (hvc : X.hour ≤ 23 ∧ X.min ≤ 59 ∧ X.sec ≤ 59) :
    valid_clock (supervisor a X) ∧ (supervisor a X).tick = x.tick ∧
      (supervisor a X).a_hour = x.a_hour ∧ (supervisor a X).a_min = x.a_min ∧
      seconds_of_day (supervisor a X) = (seconds_of_day x + 1) % 86400 ∧
      (supervisor a X).sec = (x.sec + 1) % 60 ∧
      (x.time_set_flag = 0 → (supervisor a X).time_set_flag = 0) ∧
      (supervisor a X).bat_volt =
        (if x.blink_flag ≠ 0 then s16 a.volt else x.bat_volt) ∧
      ((supervisor a X).bat_volt > 9600 → (supervisor a X).low_flag = 0) ∧
      (x.time_set_flag = 0 → (start_fires X → x.boot_cnt = 3) →
        esc_of (supervisor a X) = esc_step (esc_of x)) ∧
      (start_fires X →
        (supervisor a X).boot_cnt = 3 ∧ (supervisor a X).boot_flag = x.boot_flag - 1 ∧
          (supervisor a X).kill_flag = x.kill_flag - 1) ∧
      ((x.sec + 1) % 60 ≠ 59 →
        (supervisor a X).boot_flag = x.boot_flag - 1 ∧
          (supervisor a X).kill_flag = x.kill_flag - 1) ∧
      (x.kill_flag = 1 → x.boot_flag = 0 → load_on (supervisor a X) = false) ∧
      (start_fires X →
        seconds_of_day (supervisor a X) = 3600 * x.a_hour + 60 * x.a_min ∧ x.low_flag = 0) ∧
      (x.a_min ≤ 59 → seconds_of_day (supervisor a X) = 3600 * x.a_hour + 60 * x.a_min →
        x.low_flag = 0 → start_fires X) := by
  obtain ⟨bv, tp, ad, bl, P, f, c, t, l, k, b, e, _, p1, hf, _, hl, hn, hy, hbv⟩ :=
    supervisor_spec a X
  have conv : start_fires X ↔
      ((X.sec = 0 ∧ X.min = x.a_min ∧ X.hour = x.a_hour) ∧ x.low_flag = 0) := by
    unfold start_fires start_due
    rw [a1, a2, a7]
  rw [a5, a6, a7] at p1
  rw [a3, a7] at hf
  rw [a4, a5, a6, a7] at hn
  rw [a4, a5, a6] at hy
  rw [a8, a9] at hbv
  rw [a7] at hl
  unfold start_due at hf hn p1
  unfold stop_due at p1
  simp only [a1, a2] at hf hn p1
  rw [e]
  clear e
  have hstep : esc_step (esc_of x) =
      (if (x.sec + 1) % 60 = 59 then
        if s8 (x.boot_cnt - 1) > 0 then ((x.sec + 1) % 60, s8 (x.boot_cnt - 1), 10, x.kill_flag - 1)
        else if s8 (x.boot_cnt - 1) = 0 then ((x.sec + 1) % 60, 0, x.boot_flag - 1, 5)
        else ((x.sec + 1) % 60, 0, x.boot_flag - 1, x.kill_flag - 1)
      else ((x.sec + 1) % 60, x.boot_cnt, x.boot_flag - 1, x.kill_flag - 1)) := rfl
  refine ⟨hvc, c1, a1, a2, hsod, hsec, ?_, hbv, ?_, ?_, ?_, ?_, ?_, ?_, ?_⟩
  · intro h0
    show f = 0
    rw [hf, h0]
    split_ifs <;> rfl
  · intro hgt
    have hgt2 : bv > 9600 := hgt
    show l = 0
    rw [hl, if_pos hgt2]
  · intro h0 hsf
    show (X.sec, c, b, k) = esc_step (esc_of x)
    rw [hstep, ← hsec]
    by_cases hsd : (X.sec = 0 ∧ X.min = x.a_min ∧ X.hour = x.a_hour) ∧ x.low_flag = 0
    · have h3 : x.boot_cnt = 3 := hsf (conv.2 hsd)
      have hs0 : X.sec = 0 := hsd.1.1
      rw [if_pos hsd] at hn
      obtain ⟨u1, u2, u3⟩ := hn (fun h => by omega)
      rw [if_neg (show ¬ X.sec = 59 by omega), u1, u2, u3, h3]
    · rw [if_neg hsd, h0] at hf
      rw [if_neg hsd] at hn
      by_cases h59 : X.sec = 59
      · obtain ⟨g1, g2, g3⟩ := hy ⟨h59, hf⟩
        rw [if_pos h59]
        by_cases q1 : s8 (x.boot_cnt - 1) > 0
        · obtain ⟨u1, u2, u3⟩ := g1 q1
          rw [if_pos q1, u1, u2, u3]
        · by_cases q2 : s8 (x.boot_cnt - 1) = 0
          · obtain ⟨u1, u2, u3⟩ := g2 q2
            rw [if_neg q1, if_pos q2, u1, u2, u3]
          · obtain ⟨u1, u2, u3⟩ := g3 (by omega)
            rw [if_neg q1, if_neg q2, u1, u2, u3]
      · obtain ⟨u1, u2, u3⟩ := hn (fun h => h59 h.1)
        rw [if_neg h59, u1, u2, u3]
  · intro hsf
    have hsd := conv.1 hsf
    have hs0 : X.sec = 0 := hsd.1.1
    rw [if_pos hsd] at hn
    exact hn (fun h => by omega)
  · intro h59
    rw [← hsec] at h59
    obtain ⟨_, u2, u3⟩ := hn (fun h => h59 h.1)
    exact ⟨u2, u3⟩
  · intro hk hb
    show tstbit P 1 = false
    rw [p1, if_neg (by omega), if_neg (by omega)]
    simp [hk]
  · intro hsf
    obtain ⟨⟨q1, q2, q3⟩, q4⟩ := conv.1 hsf
    refine ⟨?_, q4⟩
    show 3600 * X.hour + 60 * X.min + X.sec = 3600 * x.a_hour + 60 * x.a_min
    omega
  · intro ha heq hlow
    have heq2 : 3600 * X.hour + 60 * X.min + X.sec = 3600 * x.a_hour + 60 * x.a_min := heq
    apply conv.2
    refine ⟨?_, hlow⟩
    obtain ⟨v1, v2, v3⟩ := hvc
    omega

/-- One second of operation (2400 timer ticks, then the supervisor
evaluation): clock, battery reading and escalation variables afterwards. -/
theorem second_step_esc (a : AdcIn) (x : State) (hv : valid_clock x) (ht : x.tick < 2400) :
    valid_clock (second_step a x) ∧ (second_step a x).tick = x.tick ∧
      (second_step a x).a_hour = x.a_hour ∧ (second_step a x).a_min = x.a_min ∧
      seconds_of_day (second_step a x) = (seconds_of_day x + 1) % 86400 ∧
      (second_step a x).sec = (x.sec + 1) % 60 ∧
      (x.time_set_flag = 0 → (second_step a x).time_set_flag = 0) ∧
      (second_step a x).bat_volt =
        (if x.blink_flag ≠ 0 then s16 a.volt else x.bat_volt) ∧
      ((second_step a x).bat_volt > 9600 → (second_step a x).low_flag = 0) ∧
      (x.time_set_flag = 0 → (start_fires (ticks 2400 x) → x.boot_cnt = 3) →
        esc_of (second_step a x) = esc_step (esc_of x)) ∧
      (start_fires (ticks 2400 x) →
        (second_step a x).boot_cnt = 3 ∧ (second_step a x).boot_flag = x.boot_flag - 1 ∧
          (second_step a x).kill_flag = x.kill_flag - 1) ∧
      ((x.sec + 1) % 60 ≠ 59 →
        (second_step a x).boot_flag = x.boot_flag - 1 ∧
          (second_step a x).kill_flag = x.kill_flag - 1) ∧
      (x.kill_flag = 1 → x.boot_flag = 0 → load_on (second_step a x) = false) ∧
      (start_fires (ticks 2400 x) →
        seconds_of_day (second_step a x) = 3600 * x.a_hour + 60 * x.a_min ∧ x.low_flag = 0) ∧
      (x.a_min ≤ 59 → seconds_of_day (second_step a x) = 3600 * x.a_hour + 60 * x.a_min →
        x.low_flag = 0 → start_fires (ticks 2400 x)) := by
  obtain ⟨c1, c2, c3, c4, c5, c6⟩ := ticks_one_second x hv ht
  obtain ⟨t0, sc0, mn0, hr0, P0, st0, bc0, d0, r0, e0, _, _⟩ := ticks_spec 2400 x
  have hsec : (ticks 2400 x).sec = (x.sec + 1) % 60 := by
    rw [c2]; obtain ⟨_, _, h⟩ := hv; split_ifs <;> omega
  exact supervisor_esc a x (ticks 2400 x) c1 (by rw [e0]) (by rw [e0]) (by rw [e0])
    (by rw [e0]) (by rw [e0]) (by rw [e0]) (by rw [e0]) (by rw [e0]) (by rw [e0]) hsec c6 c5

theorem after_succ (adc : Nat → AdcIn) (k : Nat) (s : State) :
    after adc (k + 1) s = second_step (adc k) (after adc k s) := rfl

theorem after_add (adc : Nat → AdcIn) (m : Nat) (s : State) (j : Nat) :
    after adc (m + j) s = after (fun i => adc (m + i)) j (after adc m s) := by
  induction j with
  | zero => rfl
  | succ j ih =>
    rw [← Nat.add_assoc, after_succ, after_succ, ih]

/-- Over `k` seconds of operation the clock advances by `k` seconds, stays
valid, and the schedule, the sub-second counter and an unset time stay as they
are. -/
theorem after_clock (adc : Nat → AdcIn) (s : State) (hv : valid_clock s) (ht : s.tick < 2400)
    (k : Nat) :
    valid_clock (after adc k s) ∧ (after adc k s).tick = s.tick ∧
      (after adc k s).a_hour = s.a_hour ∧ (after adc k s).a_min = s.a_min ∧
      seconds_of_day (after adc k s) = (seconds_of_day s + k) % 86400 ∧
      (after adc k s).sec = (s.sec + k) % 60 ∧
      (s.time_set_flag = 0 → (after adc k s).time_set_flag = 0) := by
  induction k with
  | zero =>
    obtain ⟨h1, h2, h3⟩ := hv
    refine ⟨⟨h1, h2, h3⟩, rfl, rfl, rfl, ?_, ?_, fun h => h⟩
    · show seconds_of_day s = (seconds_of_day s + 0) % 86400
      unfold seconds_of_day
      omega
    · show s.sec = (s.sec + 0) % 60
      omega
  | succ k ih =>
    obtain ⟨i1, i2, i3, i4, i5, i6, i7⟩ := ih
    obtain ⟨g1, g2, g3, g4, g5, g6, g7, _⟩ :=
      second_step_esc (adc k) (after adc k s) i1 (by rw [i2]; exact ht)
    rw [after_succ]
    refine ⟨g1, by rw [g2, i2], by rw [g3, i3], by rw [g4, i4], ?_, ?_, fun h => g7 (i7 h)⟩
    · rw [g5, i5]
      omega
    · rw [g6, i6]
      omega

/-- As long as a scheduled start fires only while `boot_cnt` is 3, the
escalation variables follow `esc_run`. -/
theorem after_esc (adc : Nat → AdcIn) (s : State) (hv : valid_clock s) (ht : s.tick < 2400)
    (hf : s.time_set_flag = 0) (k : Nat)
    (hs : ∀ j, j < k → start_fires (ticks 2400 (after adc j s)) →
      (esc_run j (esc_of s)).2.1 = 3) :
    esc_of (after adc k s) = esc_run k (esc_of s) := by
  induction k with
  | zero => rfl
  | succ k ih =>
    have ih2 := ih (fun j hj => hs j (by omega))
    obtain ⟨i1, i2, _, _, _, _, i7⟩ := after_clock adc s hv ht k
    obtain ⟨_, _, _, _, _, _, _, _, _, g10, _⟩ :=
      second_step_esc (adc k) (after adc k s) i1 (by rw [i2]; exact ht)
    rw [after_succ]
    show _ = esc_step (esc_run k (esc_of s))
    rw [← ih2]
    apply g10 (i7 hf)
    intro hsf
    have h3 := hs k (by omega) hsf
    rw [← ih2] at h3
    exact h3

/-- Before the first second 59 is reached `esc_run` leaves `boot_cnt` alone. -/
theorem esc_run_before (sec : Nat) (c : Int) (b k : Nat) (hsec : sec ≤ 59) (j : Nat)
    (h : ∀ i, 1 ≤ i → i ≤ j → (sec + i) % 60 ≠ 59) :
    (esc_run j (sec, c, b, k)).1 = (sec + j) % 60 ∧ (esc_run j (sec, c, b, k)).2.1 = c := by
  induction j with
  | zero =>
    refine ⟨?_, rfl⟩
    show sec = (sec + 0) % 60
    omega
  | succ j ih =>
    obtain ⟨i1, i2⟩ := ih (fun i h1 h2 => h i h1 (by omega))
    have hn := h (j + 1) (by omega) (by omega)
    have e : ((esc_run j (sec, c, b, k)).1 + 1) % 60 = (sec + (j + 1)) % 60 := by
      rw [i1]; omega
    show (esc_step (esc_run j (sec, c, b, k))).1 = (sec + (j + 1)) % 60 ∧
      (esc_step (esc_run j (sec, c, b, k))).2.1 = c
    unfold esc_step
    dsimp only
    rw [e, if_neg hn]
    exact ⟨rfl, i2⟩

theorem esc_of_eq (y : State) (p : Nat) (c : Int) (b k : Nat)
    (h : esc_of y = (p, c, b, k)) :
    y.sec = p ∧ y.boot_cnt = c ∧ y.boot_flag = b ∧ y.kill_flag = k := by
  unfold esc_of at h
  rw [Prod.mk.injEq, Prod.mk.injEq, Prod.mk.injEq] at h
  exact h

set_option maxRecDepth 100000 in
theorem esc_run_boundaries : ∀ sec, sec < 60 →
    esc_run (if sec = 59 then 60 else 59 - sec) (sec, 3, 0, 0) = (59, 2, 10, 0) ∧
      esc_run ((if sec = 59 then 60 else 59 - sec) + 60) (sec, 3, 0, 0) = (59, 1, 10, 0) ∧
      esc_run ((if sec = 59 then 60 else 59 - sec) + 120) (sec, 3, 0, 0) = (59, 0, 0, 5) := by
  decide

theorem boundary_seconds (sec n k : Nat) (hs : sec ≤ 59)
    (hn : n = (if sec = 59 then 60 else 59 - sec)) (h1 : 1 ≤ k) (h2 : k ≤ n + 120) :
    (sec + k) % 60 = 59 ↔ k = n ∨ k = n + 60 ∨ k = n + 120 := by
  have hn2 : sec + n = 59 ∨ sec + n = 119 := by split_ifs at hn <;> omega
  have hn3 : 1 ≤ n ∧ n ≤ 60 := by split_ifs at hn <;> omega
  clear hn
  constructor
  · intro h
    have : (sec + k) / 60 < 4 := by omega
    omega
  · rintro (h | h | h) <;> omega

theorem before_boundary (sec n j i : Nat) (hs : sec ≤ 59)
    (hn : n = (if sec = 59 then 60 else 59 - sec)) (hj : j < n) (h1 : 1 ≤ i) (h2 : i ≤ j) :
    (sec + i) % 60 ≠ 59 := by
  split_ifs at hn <;> omega

theorem second_step_idle (a : AdcIn) (y : State) (yv : valid_clock y) (yt : y.tick < 2400)
    (ys : y.sec ≠ 58) (yb : y.boot_flag = 0) :
    valid_clock (second_step a y) ∧ (second_step a y).tick < 2400 ∧
      (second_step a y).sec = (y.sec + 1) % 60 ∧ (second_step a y).boot_flag = 0 ∧
      (second_step a y).kill_flag = y.kill_flag - 1 := by
  have h : (y.sec + 1) % 60 ≠ 59 := by
    have := yv.2.2
    omega
  obtain ⟨g1, g2, _, _, _, g6, _, _, _, _, _, g12, _⟩ := second_step_esc a y yv yt
  obtain ⟨u1, u2⟩ := g12 h
  exact ⟨g1, by rw [g2]; exact yt, g6, by rw [u1, yb], u2⟩

/-- From second 59 with `kill_flag = 5` and no reboot countdown, the fifth
following evaluation switches the load off, whatever else happens. -/
theorem kill_five (a1 a2 a3 a4 a5 : AdcIn) (y : State) (yv : valid_clock y)
    (yt : y.tick < 2400) (h59 : y.sec = 59) (yb : y.boot_flag = 0) (yk : y.kill_flag = 5) :
    load_on (second_step a5 (second_step a4 (second_step a3 (second_step a2
      (second_step a1 y))))) = false := by
  obtain ⟨v1, t1, s1, b1, k1⟩ := second_step_idle a1 y yv yt (by omega) yb
  rw [h59] at s1
  rw [yk] at k1
  generalize second_step a1 y = y1 at *
  obtain ⟨v2, t2, s2, b2, k2⟩ := second_step_idle a2 y1 v1 t1 (by omega) b1
  rw [s1] at s2
  rw [k1] at k2
  generalize second_step a2 y1 = y2 at *
  obtain ⟨v3, t3, s3, b3, k3⟩ := second_step_idle a3 y2 v2 t2 (by omega) b2
  rw [s2] at s3
  rw [k2] at k3
  generalize second_step a3 y2 = y3 at *
  obtain ⟨v4, t4, s4, b4, k4⟩ := second_step_idle a4 y3 v3 t3 (by omega) b3
  rw [k3] at k4
  generalize second_step a4 y3 = y4 at *
  obtain ⟨_, _, _, _, _, _, _, _, _, _, _, _, g13, _⟩ := second_step_esc a5 y4 v4 t4
  exact g13 k4 b4

/-- C8 (amended): from a state of the running system (valid clock, sub-second
counter below 2400) with `boot_cnt = 3`, the time not set, and neither
countdown running, and with no command handled, let `n` be the number of the
first supervisor evaluation at second 59.  Provided no scheduled start fires in
the evaluations after the `n`-th and up to the `n + 120`-th, the evaluations at
second 59 among the first `n + 120` are exactly the `n`-th, the `n + 60`-th and
the `n + 120`-th; the first two leave `boot_flag = 10` (reboot countdown
armed) with `boot_cnt` 2 and 1, the third leaves `boot_cnt = 0` and
`kill_flag = 5`; and after the fifth evaluation following the third the load
is off. -/
theorem C8_escalation (adc : Nat → AdcIn) (s : State) (hv : valid_clock s)
    (ht : s.tick < 2400) (hc : s.boot_cnt = 3) (hf : s.time_set_flag = 0)
    (hb : s.boot_flag = 0) (hk : s.kill_flag = 0)
    (hns : ∀ k, first_boundary s ≤ k → k < first_boundary s + 120 →
      ¬ start_fires (ticks 2400 (after adc k s))) :
    (∀ k, 1 ≤ k → k ≤ first_boundary s + 120 →
      ((after adc k s).sec = 59 ↔
        k = first_boundary s ∨ k = first_boundary s + 60 ∨ k = first_boundary s + 120)) ∧
      ((after adc (first_boundary s) s).boot_cnt = 2 ∧
        (after adc (first_boundary s) s).boot_flag = 10) ∧
      ((after adc (first_boundary s + 60) s).boot_cnt = 1 ∧
        (after adc (first_boundary s + 60) s).boot_flag = 10) ∧
      ((after adc (first_boundary s + 120) s).boot_cnt = 0 ∧
        (after adc (first_boundary s + 120) s).kill_flag = 5) ∧
      load_on (after adc (first_boundary s + 125) s) = false := by
  have hs59 : s.sec ≤ 59 := hv.2.2
  have he : esc_of s = (s.sec, 3, 0, 0) := by
    unfold esc_of
    rw [hc, hb, hk]
  have hn : first_boundary s = (if s.sec = 59 then 60 else 59 - s.sec) := rfl
  have e125 : ∀ m : Nat, m + 125 = m + 120 + 1 + 1 + 1 + 1 + 1 := fun m => rfl
  obtain ⟨f1, f2, f3⟩ := esc_run_boundaries s.sec (Nat.lt_succ_of_le hs59)
  rw [← hn, ← he] at f1 f2 f3
  generalize first_boundary s = n at *
  have hs : ∀ j, j < n + 120 → start_fires (ticks 2400 (after adc j s)) →
      (esc_run j (esc_of s)).2.1 = 3 := by
    intro j hj hsf
    by_cases hjn : j < n
    · rw [he]
      exact (esc_run_before s.sec 3 0 0 hs59 j
        (fun i h1 h2 => before_boundary s.sec n j i hs59 hn hjn h1 h2)).2
    · exact absurd hsf (hns j (Nat.le_of_not_lt hjn) hj)
  have E : ∀ k, k ≤ n + 120 → esc_of (after adc k s) = esc_run k (esc_of s) := fun k hk2 =>
    after_esc adc s hv ht hf k (fun j hj => hs j (Nat.lt_of_lt_of_le hj hk2))
  have e1 := (E n (Nat.le_add_right n 120)).trans f1
  have e2 := (E (n + 60) (Nat.add_le_add_left (by decide) n)).trans f2
  have e3 := (E (n + 120) (Nat.le_refl _)).trans f3
  obtain ⟨_, x1, y1, _⟩ := esc_of_eq _ _ _ _ _ e1
  obtain ⟨_, x2, y2, _⟩ := esc_of_eq _ _ _ _ _ e2
  obtain ⟨s0, x3, b0, k0⟩ := esc_of_eq _ _ _ _ _ e3
  refine ⟨?_, ⟨x1, y1⟩, ⟨x2, y2⟩, ⟨x3, k0⟩, ?_⟩
  · intro k h1 h2
    obtain ⟨_, _, _, _, _, i6, _⟩ := after_clock adc s hv ht k
    rw [i6]
    exact boundary_seconds s.sec n k hs59 hn h1 h2
  · obtain ⟨i1, i2, _⟩ := after_clock adc s hv ht (n + 120)
    rw [e125 n, after_succ, after_succ, after_succ, after_succ, after_succ]
    exact kill_five _ _ _ _ _ _ i1 (by rw [i2]; exact ht) s0 b0 k0

/-- No scheduled start fires in the evaluation `k + 1` seconds from `s` unless
the clock then reads the starting time. -/
theorem no_start_of_clock (adc : Nat → AdcIn) (s : State) (hv : valid_clock s)
    (ht : s.tick < 2400) (k : Nat)
    (h : (seconds_of_day s + (k + 1)) % 86400 ≠ 3600 * s.a_hour + 60 * s.a_min) :
    ¬ start_fires (ticks 2400 (after adc k s)) := by
  intro hsf
  obtain ⟨i1, i2, i3, i4, _⟩ := after_clock adc s hv ht k
  obtain ⟨_, _, _, _, j5, _⟩ := after_clock adc s hv ht (k + 1)
  obtain ⟨_, _, _, _, _, _, _, _, _, _, _, _, _, g14, _⟩ :=
    second_step_esc (adc k) (after adc k s) i1 (by rw [i2]; exact ht)
  obtain ⟨q, _⟩ := g14 hsf
  rw [← after_succ, j5, i3, i4] at q
  exact h q

/-- The scheduled start fires in the evaluation `k + 1` seconds from `s` when the
clock then reads the starting time and the battery is not flagged low. -/
theorem start_of_clock (adc : Nat → AdcIn) (s : State) (hv : valid_clock s)
    (ht : s.tick < 2400) (k : Nat) (ha : s.a_min ≤ 59)
    (h : (seconds_of_day s + (k + 1)) % 86400 = 3600 * s.a_hour + 60 * s.a_min)
    (hl : (after adc k s).low_flag = 0) :
    start_fires (ticks 2400 (after adc k s)) := by
  obtain ⟨i1, i2, i3, i4, _⟩ := after_clock adc s hv ht k
  obtain ⟨_, _, _, _, j5, _⟩ := after_clock adc s hv ht (k + 1)
  obtain ⟨_, _, _, _, _, _, _, _, _, _, _, _, _, _, g15⟩ :=
    second_step_esc (adc k) (after adc k s) i1 (by rw [i2]; exact ht)
  apply g15 (by rw [i4]; exact ha) _ hl
  rw [← after_succ, j5, i3, i4]
  exact h

/-- With every conversion giving the same voltage above 9600 mV, the stored
voltage stays at it and the battery is never flagged low. -/
theorem after_battery (adc : Nat → AdcIn) (s : State) (hv : valid_clock s)
    (ht : s.tick < 2400) (v : Int) (hadc : ∀ k, s16 (adc k).volt = v) (hbv : s.bat_volt = v)
    (h96 : v > 9600) (hl : s.low_flag = 0) (k : Nat) :
    (after adc k s).bat_volt = v ∧ (after adc k s).low_flag = 0 := by
  induction k with
  | zero => exact ⟨hbv, hl⟩
  | succ k ih =>
    obtain ⟨i1, i2, _⟩ := after_clock adc s hv ht k
    obtain ⟨_, _, _, _, _, _, _, g8, g9, _⟩ :=
      second_step_esc (adc k) (after adc k s) i1 (by rw [i2]; exact ht)
    rw [hadc k, ih.1, ite_self] at g8
    rw [after_succ]
    refine ⟨g8, g9 ?_⟩
    rw [g8]
    exact h96

set_option maxRecDepth 100000 in
theorem esc_run_restart :
    esc_run 112 (7, 3, 0, 0) = (59, 1, 10, 0) ∧ esc_run 59 (0, 3, 9, 0) = (59, 2, 10, 0) := by
  decide

/-- A run from 00:00:07 with the starting time 00:02: the start fires in the
113th evaluation, between the second and the third evaluation at second 59. -/
theorem restart_run (adc : Nat → AdcIn) (s : State) (hv : valid_clock s) (ht : s.tick < 2400)
    (hsod : seconds_of_day s = 7) (hsec : s.sec = 7) (hah : s.a_hour = 0) (ham : s.a_min = 2)
    (hc : s.boot_cnt = 3) (hf : s.time_set_flag = 0) (hb : s.boot_flag = 0)
    (hk : s.kill_flag = 0) (hl : s.low_flag = 0) (hbv : s.bat_volt = 12000)
    (hadc : ∀ k, s16 (adc k).volt = 12000) :
    (∀ k, 1 ≤ k → k ≤ 172 →
      ((after adc k s).sec = 59 ↔ k = 52 ∨ k = 112 ∨ k = 172)) ∧
      (after adc 172 s).boot_cnt = 2 ∧ (after adc 172 s).boot_flag = 10 ∧
      (after adc 172 s).kill_flag = 0 := by
  have he : esc_of s = (7, 3, 0, 0) := by
    unfold esc_of
    rw [hsec, hc, hb, hk]
  have ar1 : ∀ j, j < 112 → (7 + (j + 1)) % 86400 ≠ 3600 * 0 + 60 * 2 := by
    intro j hj; omega
  have ar2 : ∀ j, j < 59 → (120 + (j + 1)) % 86400 ≠ 3600 * 0 + 60 * 2 := by
    intro j hj; omega
  have ar3 : ∀ k, 1 ≤ k → k ≤ 172 → ((7 + k) % 60 = 59 ↔ k = 52 ∨ k = 112 ∨ k = 172) := by
    intro k h1 h2; omega
  have ar4 : (7 + 113) % 86400 = 120 ∧ (7 + 113) % 60 = 0 ∧
      (7 + (112 + 1)) % 86400 = 3600 * 0 + 60 * 2 := by decide
  have ha59 : s.a_min ≤ 59 := by omega
  have e172 : (172 : Nat) = 113 + 59 := rfl
  have e113 : (113 : Nat) = 112 + 1 := rfl
  rw [← hsod, ← hah, ← ham] at ar1
  obtain ⟨r1, r2⟩ := esc_run_restart
  -- up to the second boundary no scheduled start fires
  have E1 : esc_of (after adc 112 s) = esc_run 112 (esc_of s) :=
    after_esc adc s hv ht hf 112
      (fun j hj hsf => absurd hsf (no_start_of_clock adc s hv ht j (ar1 j hj)))
  rw [he, r1] at E1
  obtain ⟨_, _, b112, k112⟩ := esc_of_eq _ _ _ _ _ E1
  -- the 113th evaluation is the one of the starting time
  obtain ⟨_, l112⟩ := after_battery adc s hv ht 12000 hadc hbv (by decide) hl 112
  have hsf : start_fires (ticks 2400 (after adc 112 s)) :=
    start_of_clock adc s hv ht 112 ha59
      (by rw [hsod, hah, ham]) l112
  obtain ⟨c1, c2, _, _, _, _, _⟩ := after_clock adc s hv ht 112
  obtain ⟨_, _, _, _, _, _, _, _, _, _, g11, _⟩ :=
    second_step_esc (adc 112) (after adc 112 s) c1 (by rw [c2]; exact ht)
  obtain ⟨u1, u2, u3⟩ := g11 hsf
  rw [← after_succ, ← e113] at u1 u2 u3
  rw [b112] at u2
  rw [k112] at u3
  obtain ⟨d1, d2, d3, d4, d5, d6, d7⟩ := after_clock adc s hv ht 113
  rw [hsod, ar4.1] at d5
  rw [hsec, ar4.2.1] at d6
  rw [hah] at d3
  rw [ham] at d4
  have he2 : esc_of (after adc 113 s) = (0, 3, 9, 0) := by
    unfold esc_of
    rw [d6, u1, u2, u3]
  rw [← d5, ← d3, ← d4] at ar2
  have E2 : esc_of (after (fun i => adc (113 + i)) 59 (after adc 113 s)) =
      esc_run 59 (esc_of (after adc 113 s)) :=
    after_esc (fun i => adc (113 + i)) (after adc 113 s) d1 (by rw [d2]; exact ht) (d7 hf) 59
      (fun j hj hsf => absurd hsf
        (no_start_of_clock (fun i => adc (113 + i)) (after adc 113 s) d1
          (by rw [d2]; exact ht) j (ar2 j hj)))
  rw [← after_add, ← e172, he2, r2] at E2
  obtain ⟨_, x1, x2, x3⟩ := esc_of_eq _ _ _ _ _ E2
  refine ⟨?_, x1, x2, x3⟩
  intro k h1 h2
  obtain ⟨_, _, _, _, _, i6, _⟩ := after_clock adc s hv ht k
  rw [i6, hsec]
  exact ar3 k h1 h2

/-- C8 (amended) from the state in which the main loop is entered, 00:00:05 with
the default schedule and a steady 12000 mV: the evaluations at second 59 are
the 54th, 114th and 174th, the first two arm the reboot countdown, the third
arms the kill countdown, and after the 179th evaluation the load is off. -/
theorem C8_escalation_witness :
    (valid_clock loop_entry_state ∧ loop_entry_state.tick < 2400 ∧
        loop_entry_state.boot_cnt = 3 ∧ loop_entry_state.time_set_flag = 0 ∧
        loop_entry_state.boot_flag = 0 ∧ loop_entry_state.kill_flag = 0) ∧
      first_boundary loop_entry_state = 54 ∧
      (∀ k, 54 ≤ k → k < 174 →
        ¬ start_fires (ticks 2400 (after steady_adc k loop_entry_state))) ∧
      (after steady_adc 54 loop_entry_state).boot_flag = 10 ∧
      (after steady_adc 114 loop_entry_state).boot_flag = 10 ∧
      (after steady_adc 174 loop_entry_state).boot_cnt = 0 ∧
      (after steady_adc 174 loop_entry_state).kill_flag = 5 ∧
      load_on (after steady_adc 179 loop_entry_state) = false := by
  have hfb : first_boundary loop_entry_state = 54 := by decide
  have hns : ∀ k, first_boundary loop_entry_state ≤ k →
      k < first_boundary loop_entry_state + 120 →
      ¬ start_fires (ticks 2400 (after steady_adc k loop_entry_state)) := by
    intro k _ h2
    rw [hfb] at h2
    apply no_start_of_clock steady_adc loop_entry_state (by decide) (by decide) k
    show (5 + (k + 1)) % 86400 ≠ 3600 * 20 + 60 * 0
    omega
  have h := C8_escalation steady_adc loop_entry_state (by decide) (by decide) (by decide)
    (by decide) (by decide) (by decide) hns
  rw [hfb] at h hns
  obtain ⟨_, ⟨_, h1⟩, ⟨_, h2⟩, ⟨h3, h4⟩, h5⟩ := h
  exact ⟨⟨by decide, by decide, by decide, by decide, by decide, by decide⟩, hfb, hns,
    h1, h2, h3, h4, h5⟩

/-- C8 fails when a scheduled start fires between the boundaries.  From 00:00:07
with `boot_cnt = 3`, the time not set, no countdown running, the load on, the
starting time 00:02 and a steady 12000 mV, the evaluations at second 59 are the
52nd, 112th and 172nd; the 113th, at 00:02:00, sets `boot_cnt` back to 3, so
the third boundary leaves `boot_cnt = 2`, arms the reboot countdown again and
leaves the kill countdown unarmed. -/
theorem C8_counterexample :
    valid_clock early_start_state ∧ early_start_state.tick < 2400 ∧
      load_on early_start_state = true ∧ early_start_state.boot_cnt = 3 ∧
      early_start_state.time_set_flag = 0 ∧ early_start_state.boot_flag = 0 ∧
      early_start_state.kill_flag = 0 ∧
      (∀ k, 1 ≤ k → k ≤ 172 →
        ((after steady_adc k early_start_state).sec = 59 ↔ k = 52 ∨ k = 112 ∨ k = 172)) ∧
      (after steady_adc 172 early_start_state).boot_cnt = 2 ∧
      (after steady_adc 172 early_start_state).boot_flag = 10 ∧
      (after steady_adc 172 early_start_state).kill_flag = 0 := by
  have h := restart_run steady_adc early_start_state (by decide) (by decide) (by decide)
    (by decide) (by decide) (by decide) (by decide) (by decide) (by decide) (by decide)
    (by decide) (by decide) (fun _ => (by decide : s16 (12000 : Int) = 12000))
  exact ⟨by decide, by decide, by decide, by decide, by decide, by decide, by decide, h⟩

/-! ## Software UART receiver -/

theorem TIM1_COMPA_sample (pin : Bool) (s : State) (h : s.SwUartRXBitCount < 9) :
    TIM1_COMPA pin s =
      { s with SwUartRXBitCount := s.SwUartRXBitCount + 1,
               SwUartRXData :=
                 if pin = true then s.SwUartRXData >>> 1 ||| 128 else s.SwUartRXData >>> 1,
               OCR1A := ONE_BIT } := by
  have hu : u8 (s.SwUartRXBitCount + 1) = s.SwUartRXBitCount + 1 := by unfold u8; omega
  unfold TIM1_COMPA
  dsimp only
  rw [if_pos h, hu]

theorem TIM1_COMPA_store (pin : Bool) (s : State) (h : ¬ s.SwUartRXBitCount < 9)
    (hw : s.rd_wt_pnt < BUF_LEN) :
    TIM1_COMPA pin s =
      { s with rd := upd s.rd s.rd_wt_pnt s.SwUartRXData,
               rd_wt_pnt := (s.rd_wt_pnt + 1) % BUF_LEN,
               TIMSK1 := clrbit s.TIMSK1 OCIE1A, GIMSK := setbit s.GIMSK INT0 } := by
  unfold BUF_LEN at hw
  have hu : u16 (s.rd_wt_pnt + 1) = s.rd_wt_pnt + 1 := by unfold u16; omega
  have hc : (if s.rd_wt_pnt + 1 = BUF_LEN then 0 else s.rd_wt_pnt + 1) =
      (s.rd_wt_pnt + 1) % BUF_LEN := by
    unfold BUF_LEN; split_ifs <;> omega
  unfold TIM1_COMPA
  dsimp only
  rw [if_neg h, hu, hc]

/-- One shift of the receive register: bit 7 takes the sampled level, the other
bits move down by one. -/
theorem rx_shift_bits (pin : Bool) (d : Nat) (hd : d < 256) :
    (if pin = true then d >>> 1 ||| 128 else d >>> 1) < 256 ∧
      ∀ i, (if pin = true then d >>> 1 ||| 128 else d >>> 1).testBit i =
        if i = 7 then pin else (decide (i < 7) && d.testBit (i + 1)) := by
  have h128 : (128 : Nat) = 2 ^ 7 := by norm_num
  have hs : d >>> 1 < 128 := by rw [Nat.shiftRight_eq_div_pow]; omega
  refine ⟨?_, ?_⟩
  · split_ifs
    · exact Nat.or_lt_two_pow (n := 8) (by omega) (by norm_num)
    · omega
  · intro i
    have hhi : ∀ j, 8 ≤ j → d.testBit j = false := fun j hj =>
      Nat.testBit_lt_two_pow (lt_of_lt_of_le hd (by
        calc 256 = 2 ^ 8 := by norm_num
          _ ≤ 2 ^ j := Nat.pow_le_pow_right (by norm_num) hj))
    cases pin
    · simp only [Bool.false_eq_true, if_false, Nat.testBit_shiftRight]
      by_cases h7 : i = 7
      · subst h7; simp [hhi 8 (le_refl 8)]
      · by_cases hlt : i < 7
        · simp [h7, hlt, Nat.add_comm]
        · simp [h7, hlt, hhi (1 + i) (by omega)]
    · simp only [if_true, Nat.testBit_or, Nat.testBit_shiftRight, h128, Nat.testBit_two_pow]
      by_cases h7 : i = 7
      · subst h7; simp
      · by_cases hlt : i < 7
        · simp [h7, hlt, Nat.add_comm, Ne.symm h7]
        · simp [h7, hlt, hhi (1 + i) (by omega), Ne.symm h7]

theorem rx_frame_nine (l0 l1 l2 l3 l4 l5 l6 l7 l8 : Bool) (s : State)
    (hc : s.SwUartRXBitCount = 0) (hd : s.SwUartRXData < 256) :
    ∃ d, rx_frame [l0, l1, l2, l3, l4, l5, l6, l7, l8] s =
        { s with SwUartRXBitCount := 9, SwUartRXData := d, OCR1A := ONE_BIT } ∧
      d < 256 ∧
      d.testBit 0 = l1 ∧ d.testBit 1 = l2 ∧ d.testBit 2 = l3 ∧ d.testBit 3 = l4 ∧
      d.testBit 4 = l5 ∧ d.testBit 5 = l6 ∧ d.testBit 6 = l7 ∧ d.testBit 7 = l8 := by
  obtain ⟨b0, t0⟩ := rx_shift_bits l0 s.SwUartRXData hd
  generalize hd0 : (if l0 = true then s.SwUartRXData >>> 1 ||| 128 else s.SwUartRXData >>> 1) = d0
    at b0 t0
  obtain ⟨b1, t1⟩ := rx_shift_bits l1 d0 b0
  generalize hd1 : (if l1 = true then d0 >>> 1 ||| 128 else d0 >>> 1) = d1 at b1 t1
  obtain ⟨b2, t2⟩ := rx_shift_bits l2 d1 b1
  generalize hd2 : (if l2 = true then d1 >>> 1 ||| 128 else d1 >>> 1) = d2 at b2 t2
  obtain ⟨b3, t3⟩ := rx_shift_bits l3 d2 b2
  generalize hd3 : (if l3 = true then d2 >>> 1 ||| 128 else d2 >>> 1) = d3 at b3 t3
  obtain ⟨b4, t4⟩ := rx_shift_bits l4 d3 b3
  generalize hd4 : (if l4 = true then d3 >>> 1 ||| 128 else d3 >>> 1) = d4 at b4 t4
  obtain ⟨b5, t5⟩ := rx_shift_bits l5 d4 b4
  generalize hd5 : (if l5 = true then d4 >>> 1 ||| 128 else d4 >>> 1) = d5 at b5 t5
  obtain ⟨b6, t6⟩ := rx_shift_bits l6 d5 b5
  generalize hd6 : (if l6 = true then d5 >>> 1 ||| 128 else d5 >>> 1) = d6 at b6 t6
  obtain ⟨b7, t7⟩ := rx_shift_bits l7 d6 b6
  generalize hd7 : (if l7 = true then d6 >>> 1 ||| 128 else d6 >>> 1) = d7 at b7 t7
  obtain ⟨b8, t8⟩ := rx_shift_bits l8 d7 b7
  generalize hd8 : (if l8 = true then d7 >>> 1 ||| 128 else d7 >>> 1) = d8 at b8 t8
  refine ⟨d8, ?_, b8, ?_, ?_, ?_, ?_, ?_, ?_, ?_, ?_⟩
  · unfold rx_frame
    simp only [List.foldl_cons, List.foldl_nil]
    rw [TIM1_COMPA_sample l0 s (by omega), hc, hd0]
    rw [TIM1_COMPA_sample l1 _ (by show (0 + 1 : Nat) < 9; omega)]
    simp only [hd1]
    rw [TIM1_COMPA_sample l2 _ (by show (0 + 1 + 1 : Nat) < 9; omega)]
    simp only [hd2]
    rw [TIM1_COMPA_sample l3 _ (by show (0 + 1 + 1 + 1 : Nat) < 9; omega)]
    simp only [hd3]
    rw [TIM1_COMPA_sample l4 _ (by show (0 + 1 + 1 + 1 + 1 : Nat) < 9; omega)]
    simp only [hd4]
    rw [TIM1_COMPA_sample l5 _ (by show (0 + 1 + 1 + 1 + 1 + 1 : Nat) < 9; omega)]
    simp only [hd5]
    rw [TIM1_COMPA_sample l6 _ (by show (0 + 1 + 1 + 1 + 1 + 1 + 1 : Nat) < 9; omega)]
    simp only [hd6]
    rw [TIM1_COMPA_sample l7 _ (by show (0 + 1 + 1 + 1 + 1 + 1 + 1 + 1 : Nat) < 9; omega)]
    simp only [hd7]
    rw [TIM1_COMPA_sample l8 _ (by show (0 + 1 + 1 + 1 + 1 + 1 + 1 + 1 + 1 : Nat) < 9; omega)]
    simp only [hd8]
  all_goals simp [t8, t7, t6, t5, t4, t3, t2, t1]

theorem EXT_INT0_eq (s : State) :
    EXT_INT0 s =
      { s with GIMSK := clrbit s.GIMSK INT0, SwUartRXBitCount := 0, TCNT1 := 0,
               OCR1A := ONE_HALF_BIT, TIMSK1 := setbit s.TIMSK1 OCIE1A } := rfl

theorem rx_frame_eq (l0 l1 l2 l3 l4 l5 l6 l7 l8 pin : Bool) (s : State)
    (hd : s.SwUartRXData < 256) (hw : s.rd_wt_pnt < BUF_LEN) :
    ∃ d, TIM1_COMPA pin (rx_frame [l0, l1, l2, l3, l4, l5, l6, l7, l8] (EXT_INT0 s)) =
        { s with GIMSK := setbit (clrbit s.GIMSK INT0) INT0, SwUartRXBitCount := 9,
                 TCNT1 := 0, OCR1A := ONE_BIT,
                 TIMSK1 := clrbit (setbit s.TIMSK1 OCIE1A) OCIE1A, SwUartRXData := d,
                 rd := upd s.rd s.rd_wt_pnt d, rd_wt_pnt := (s.rd_wt_pnt + 1) % BUF_LEN } ∧
      d < 256 ∧
      d.testBit 0 = l1 ∧ d.testBit 1 = l2 ∧ d.testBit 2 = l3 ∧ d.testBit 3 = l4 ∧
      d.testBit 4 = l5 ∧ d.testBit 5 = l6 ∧ d.testBit 6 = l7 ∧ d.testBit 7 = l8 := by
  obtain ⟨d, e, hb⟩ := rx_frame_nine l0 l1 l2 l3 l4 l5 l6 l7 l8 (EXT_INT0 s) rfl hd
  refine ⟨d, ?_, hb⟩
  have h9 : ¬ (rx_frame [l0, l1, l2, l3, l4, l5, l6, l7, l8] (EXT_INT0 s)).SwUartRXBitCount < 9 := by
    rw [e]; show ¬ (9 : Nat) < 9; omega
  have hw2 : (rx_frame [l0, l1, l2, l3, l4, l5, l6, l7, l8] (EXT_INT0 s)).rd_wt_pnt < BUF_LEN := by
    rw [e]; exact hw
  rw [TIM1_COMPA_store pin _ h9 hw2, e]
  rfl

/-- C11: after a start-bit detection, nine runs of the bit-interval handler
sampling the levels `l0 … l8` and one more run (sampling nothing) store at the
inbound write cursor the byte whose bit `i` is `l(i+1)` for `i = 0 … 7`,
whatever the receive shift register held before; the other slots and the read
cursor are untouched, the write cursor advances by one modulo 32, the
bit-interval interrupt is disabled and the start-bit interrupt enabled. -/
theorem C11_rx_frame (s : State) (l0 l1 l2 l3 l4 l5 l6 l7 l8 pin : Bool)
    (hd : s.SwUartRXData < 256) (hw : s.rd_wt_pnt < BUF_LEN) :
    (∀ i, i < 8 →
      ((TIM1_COMPA pin (rx_frame [l0, l1, l2, l3, l4, l5, l6, l7, l8] (EXT_INT0 s))).rd
        s.rd_wt_pnt).testBit i = [l1, l2, l3, l4, l5, l6, l7, l8].getD i false) ∧
      (TIM1_COMPA pin (rx_frame [l0, l1, l2, l3, l4, l5, l6, l7, l8] (EXT_INT0 s))).rd
        s.rd_wt_pnt < 256 ∧
      (∀ p, p ≠ s.rd_wt_pnt →
        (TIM1_COMPA pin (rx_frame [l0, l1, l2, l3, l4, l5, l6, l7, l8] (EXT_INT0 s))).rd p =
          s.rd p) ∧
      (TIM1_COMPA pin (rx_frame [l0, l1, l2, l3, l4, l5, l6, l7, l8] (EXT_INT0 s))).rd_wt_pnt =
        (s.rd_wt_pnt + 1) % BUF_LEN ∧
      (TIM1_COMPA pin (rx_frame [l0, l1, l2, l3, l4, l5, l6, l7, l8] (EXT_INT0 s))).rd_rd_pnt =
        s.rd_rd_pnt ∧
      tstbit (TIM1_COMPA pin
        (rx_frame [l0, l1, l2, l3, l4, l5, l6, l7, l8] (EXT_INT0 s))).TIMSK1 OCIE1A = false ∧
      tstbit (TIM1_COMPA pin
        (rx_frame [l0, l1, l2, l3, l4, l5, l6, l7, l8] (EXT_INT0 s))).GIMSK INT0 = true := by
  obtain ⟨d, e, hlt, h0, h1, h2, h3, h4, h5, h6, h7⟩ :=
    rx_frame_eq l0 l1 l2 l3 l4 l5 l6 l7 l8 pin s hd hw
  rw [e]
  have hslot : upd s.rd s.rd_wt_pnt d s.rd_wt_pnt = d := by unfold upd; rw [if_pos rfl]
  refine ⟨?_, ?_, ?_, rfl, rfl, ?_, ?_⟩
  · intro i hi
    show (upd s.rd s.rd_wt_pnt d s.rd_wt_pnt).testBit i = _
    rw [hslot]
    interval_cases i
    · exact h0
    · exact h1
    · exact h2
    · exact h3
    · exact h4
    · exact h5
    · exact h6
    · exact h7
  · show upd s.rd s.rd_wt_pnt d s.rd_wt_pnt < 256
    rw [hslot]
    exact hlt
  · intro p hp
    show upd s.rd s.rd_wt_pnt d p = s.rd p
    unfold upd
    rw [if_neg hp]
  · show tstbit (clrbit (setbit s.TIMSK1 OCIE1A) OCIE1A) OCIE1A = false
    rw [tstbit_clrbit]
    simp [OCIE1A]
  · show tstbit (setbit (clrbit s.GIMSK INT0) INT0) INT0 = true
    rw [tstbit_setbit]
    simp

/-- C11 on a busy receiver: the levels 0 (start bit), then 0,0,1,0,1,0,1,0 give
the byte `0x54` ('T') at slot 31, the write cursor wraps to 0. -/
theorem C11_rx_frame_witness :
    rx_busy_state.SwUartRXData < 256 ∧ rx_busy_state.rd_wt_pnt < BUF_LEN ∧
      (TIM1_COMPA true (rx_frame [false, false, false, true, false, true, false, true, false]
        (EXT_INT0 rx_busy_state))).rd 31 = 84 ∧
      (TIM1_COMPA true (rx_frame [false, false, false, true, false, true, false, true, false]
        (EXT_INT0 rx_busy_state))).rd_wt_pnt = 0 := by
  have h := C11_rx_frame rx_busy_state false false false true false true false true false true
    (by decide) (by decide)
  refine ⟨by decide, by decide, ?_, ?_⟩
  · decide
  · exact h.2.2.2.1

/-! ## Strings in `tmp_buf` -/

theorem upd_same (a : Nat → Nat) (i v : Nat) : upd a i v i = v := by
  unfold upd; rw [if_pos rfl]

theorem upd_other (a : Nat → Nat) (i v k : Nat) (h : k ≠ i) : upd a i v k = a k := by
  unfold upd; rw [if_neg h]

theorem poke_lt (cs : List Nat) : ∀ (buf : Nat → Nat) (off k : Nat), k < off →
    poke buf off cs k = buf k := by
  induction cs with
  | nil => intro buf off k h; exact upd_other _ _ _ _ (by omega)
  | cons c cs ih =>
    intro buf off k h
    show poke (upd buf off c) (off + 1) cs k = buf k
    rw [ih _ _ _ (by omega), upd_other _ _ _ _ (by omega)]

theorem poke_mid (cs : List Nat) : ∀ (buf : Nat → Nat) (off j : Nat), j < cs.length →
    poke buf off cs (off + j) = cs.getD j 0 := by
  induction cs with
  | nil => intro buf off j h; simp at h
  | cons c cs ih =>
    intro buf off j h
    show poke (upd buf off c) (off + 1) cs (off + j) = (c :: cs).getD j 0
    cases j with
    | zero =>
      rw [poke_lt cs _ _ _ (by omega)]
      show upd buf off c off = c
      rw [upd_same]
    | succ j =>
      have e : off + (j + 1) = off + 1 + j := by omega
      rw [e, ih _ _ _ (by simpa using h)]
      rfl

theorem poke_end (cs : List Nat) : ∀ (buf : Nat → Nat) (off : Nat),
    poke buf off cs (off + cs.length) = 0 := by
  induction cs with
  | nil => intro buf off; exact upd_same _ _ _
  | cons c cs ih =>
    intro buf off
    show poke (upd buf off c) (off + 1) cs (off + (cs.length + 1)) = 0
    have e : off + (cs.length + 1) = off + 1 + cs.length := by omega
    rw [e, ih]

theorem strlen_eq (n : Nat) : ∀ (fuel p : Nat) (buf : Nat → Nat),
    (∀ j, j < n → buf (p + j) ≠ 0) → buf (p + n) = 0 → n < fuel → strlen buf fuel p = n := by
  induction n with
  | zero =>
    intro fuel p buf _ h0 hf
    cases fuel with
    | zero => omega
    | succ fuel =>
      show (if buf p = 0 then 0 else 1 + strlen buf fuel (p + 1)) = 0
      rw [if_pos (by simpa using h0)]
  | succ n ih =>
    intro fuel p buf hn h0 hf
    cases fuel with
    | zero => omega
    | succ fuel =>
      show (if buf p = 0 then 0 else 1 + strlen buf fuel (p + 1)) = n + 1
      have h1 : buf p ≠ 0 := by simpa using hn 0 (by omega)
      rw [if_neg h1, ih fuel (p + 1) buf (fun j hj => by
        have := hn (j + 1) (by omega)
        rwa [show p + (j + 1) = p + 1 + j by omega] at this)
        (by rwa [show p + (n + 1) = p + 1 + n by omega] at h0) (by omega)]
      omega

theorem shift2_spec (n : Nat) : ∀ (buf : Nat → Nat) (k : Nat),
    shift2 buf n k = if 2 ≤ k ∧ k < n + 2 then buf (k - 2) else buf k := by
  induction n with
  | zero => intro buf k; rw [if_neg (by omega)]; rfl
  | succ n ih =>
    intro buf k
    show shift2 (upd buf (n + 2) (buf n)) n k = _
    rw [ih]
    by_cases h1 : 2 ≤ k ∧ k < n + 2
    · rw [if_pos h1, if_pos (by omega), upd_other _ _ _ _ (by omega)]
    · rw [if_neg h1]
      by_cases h2 : k = n + 2
      · rw [if_pos (by omega), h2, upd_same]
        rfl
      · rw [if_neg (by omega), upd_other _ _ _ _ h2]

/-- Buffer built by lines 375-381 (and 384-390): tag, '=', the digits, a blank,
NUL. -/
theorem field_buf (tag : Nat) (cs : List Nat) (buf : Nat → Nat) (hb : ∀ b ∈ cs, b ≠ 0)
    (hl : cs.length < 13) :
    strlen (poke buf 0 cs) 16 0 = cs.length ∧
      (∀ k, k < (tag :: 61 :: (cs ++ [32])).length →
        upd (upd (upd (upd (shift2 (poke buf 0 cs) cs.length) 0 tag) 1 61)
          (cs.length + 2) 32) (cs.length + 3) 0 k = (tag :: 61 :: (cs ++ [32])).getD k 0) ∧
      upd (upd (upd (upd (shift2 (poke buf 0 cs) cs.length) 0 tag) 1 61)
          (cs.length + 2) 32) (cs.length + 3) 0 (tag :: 61 :: (cs ++ [32])).length = 0 := by
  have hget : ∀ j, j < cs.length → cs.getD j 0 ≠ 0 := by
    intro j hj
    rw [List.getD_eq_getElem _ _ hj]
    exact hb _ (List.getElem_mem _)
  have hpm : ∀ j, j < cs.length → poke buf 0 cs j = cs.getD j 0 := by
    intro j hj
    have := poke_mid cs buf 0 j hj
    rwa [Nat.zero_add] at this
  refine ⟨?_, ?_, ?_⟩
  · apply strlen_eq
    · intro j hj
      rw [Nat.zero_add, hpm j hj]
      exact hget j hj
    · exact poke_end cs buf 0
    · omega
  · intro k hk
    have hk2 : k < cs.length + 3 := by simpa using hk
    by_cases h0 : k = 0
    · subst h0
      rw [upd_other _ _ _ _ (by omega), upd_other _ _ _ _ (by omega),
        upd_other _ _ _ _ (by omega), upd_same]
      rfl
    · by_cases h1 : k = 1
      · subst h1
        rw [upd_other _ _ _ _ (by omega), upd_other _ _ _ _ (by omega), upd_same]
        rfl
      · by_cases h2 : k = cs.length + 2
        · subst h2
          rw [upd_other _ _ _ _ (by omega), upd_same]
          simp [List.getD_eq_getElem?_getD]
        · rw [upd_other _ _ _ _ (by omega), upd_other _ _ _ _ h2,
            upd_other _ _ _ _ h1, upd_other _ _ _ _ h0, shift2_spec,
            if_pos (by omega), hpm _ (by omega)]
          obtain ⟨j, rfl⟩ : ∃ j, k = j + 2 := ⟨k - 2, by omega⟩
          have hj : j < cs.length := by omega
          simp [List.getD_eq_getElem?_getD, List.getElem?_append_left hj]
  · have e : (tag :: 61 :: (cs ++ [32])).length = cs.length + 3 := by simp
    rw [e, upd_same]

/-! ## Decimal rendering -/

theorem digitChar_toNat (d : Nat) (h : d < 10) : (Nat.digitChar d).toNat = 48 + d := by
  interval_cases d <;> rfl

theorem dec_digits_toDigits (fuel : Nat) : ∀ (n F : Nat) (acc : List Char),
    n < 10 ^ (fuel + 1) → n < F →
    dec_digits (fuel + 1) n (acc.map Char.toNat) =
      (Nat.toDigitsCore 10 F n acc).map Char.toNat := by
  induction fuel with
  | zero =>
    intro n F acc hn hF
    have h10 : n < 10 := by simpa using hn
    obtain ⟨F, rfl⟩ : ∃ G, F = G + 1 := ⟨F - 1, by omega⟩
    have e1 : n / 10 = 0 := by omega
    have e2 : n % 10 = n := by omega
    simp only [dec_digits, Nat.toDigitsCore, h10, e1, e2, if_true, List.map_cons,
      digitChar_toNat n h10]
  | succ fuel ih =>
    intro n F acc hn hF
    obtain ⟨F, rfl⟩ : ∃ G, F = G + 1 := ⟨F - 1, by omega⟩
    by_cases h10 : n < 10
    · have e1 : n / 10 = 0 := by omega
      have e2 : n % 10 = n := by omega
      simp only [dec_digits, Nat.toDigitsCore, h10, e1, e2, if_true, List.map_cons,
        digitChar_toNat n h10]
    · have e1 : n / 10 ≠ 0 := by omega
      have hd : n / 10 < 10 ^ (fuel + 1) := by
        rw [Nat.div_lt_iff_lt_mul (by norm_num)]
        calc n < 10 ^ (fuel + 1 + 1) := hn
          _ = 10 ^ (fuel + 1) * 10 := by ring
      have key := ih (n / 10) F (Nat.digitChar (n % 10) :: acc) hd (by omega)
      rw [List.map_cons, digitChar_toNat _ (Nat.mod_lt _ (by norm_num))] at key
      rw [Nat.toDigitsCore]
      simp only [e1, if_false]
      rw [← key]
      show (if n < 10 then (48 + n) :: List.map Char.toNat acc
        else dec_digits (fuel + 1) (n / 10) ((48 + n % 10) :: List.map Char.toNat acc)) = _
      rw [if_neg h10]

theorem dec_digits_bytes (fuel : Nat) : ∀ (n : Nat) (acc : List Nat),
    (∀ b ∈ acc, b ≠ 0) → ∀ b ∈ dec_digits fuel n acc, b ≠ 0 := by
  induction fuel with
  | zero => intro n acc h; exact h
  | succ fuel ih =>
    intro n acc h
    show ∀ b ∈ (if n < 10 then (48 + n) :: acc
      else dec_digits fuel (n / 10) ((48 + n % 10) :: acc)), b ≠ 0
    split_ifs
    · intro b hb
      rcases List.mem_cons.1 hb with rfl | hb
      · omega
      · exact h b hb
    · apply ih
      intro b hb
      rcases List.mem_cons.1 hb with rfl | hb
      · omega
      · exact h b hb

theorem dec_digits_length (k : Nat) : ∀ (fuel n : Nat) (acc : List Nat),
    n < 10 ^ (k + 1) → (dec_digits fuel n acc).length ≤ k + 1 + acc.length := by
  induction k with
  | zero =>
    intro fuel n acc hn
    have h10 : n < 10 := by simpa using hn
    cases fuel with
    | zero => show acc.length ≤ _; omega
    | succ fuel =>
      show (if n < 10 then (48 + n) :: acc
        else dec_digits fuel (n / 10) ((48 + n % 10) :: acc)).length ≤ _
      rw [if_pos h10]
      simp
      omega
  | succ k ih =>
    intro fuel n acc hn
    cases fuel with
    | zero => show acc.length ≤ _; omega
    | succ fuel =>
      show (if n < 10 then (48 + n) :: acc
        else dec_digits fuel (n / 10) ((48 + n % 10) :: acc)).length ≤ _
      split_ifs
      · simp; omega
      · have hd : n / 10 < 10 ^ (k + 1) := by
          rw [Nat.div_lt_iff_lt_mul (by norm_num)]
          calc n < 10 ^ (k + 1 + 1) := hn
            _ = 10 ^ (k + 1) * 10 := by ring
        have := ih fuel (n / 10) ((48 + n % 10) :: acc) hd
        simp at this
        omega

/-- The model of `itoa` writes the signed base-10 rendering. -/
theorem itoa_chars_decimal (v : Int) (h1 : -1000000 < v) (h2 : v < 1000000) :
    itoa_chars v = decimal v := by
  unfold itoa_chars decimal Nat.toDigits
  split_ifs
  · rw [← dec_digits_toDigits 5 _ _ [] (by norm_num; omega) (by omega)]
    rfl
  · rw [← dec_digits_toDigits 5 _ _ [] (by norm_num; omega) (by omega)]
    rfl

theorem itoa_chars_int16 (v : Int) (h1 : -32768 ≤ v) (h2 : v ≤ 32767) :
    (∀ b ∈ itoa_chars v, b ≠ 0) ∧ (itoa_chars v).length ≤ 6 := by
  unfold itoa_chars
  split_ifs
  · refine ⟨?_, ?_⟩
    · intro b hb
      rcases List.mem_cons.1 hb with rfl | hb
      · omega
      · exact dec_digits_bytes 6 _ [] (by simp) b hb
    · have := dec_digits_length 4 6 (-v).toNat [] (by norm_num; omega)
      simp at this ⊢
      omega
  · refine ⟨dec_digits_bytes 6 _ [] (by simp), ?_⟩
    have := dec_digits_length 4 6 v.toNat [] (by norm_num; omega)
    simp at this
    omega

/-! ## The reply of `B` -/

theorem ring_put_append (a : List Nat) : ∀ (b : List Nat) (wt : Nat → Nat) (w : Nat),
    ring_put wt w (a ++ b) = ring_put (ring_put wt w a).1 (ring_put wt w a).2 b := by
  induction a with
  | nil => intro b wt w; rfl
  | cons x a ih =>
    intro b wt w
    show ring_put (upd wt w x) ((w + 1) % BUF_LEN) (a ++ b) = _
    rw [ih]
    rfl

theorem tell_val_eq (tag : Nat) (v : Int) (s : State) (ht : tag ≠ 0)
    (h1 : -32768 ≤ v) (h2 : v ≤ 32767) (hw : s.wt_wt_pnt < BUF_LEN) :
    ∃ T J, tell_val tag v s =
      { s with tmp_buf := T, j := J, i := -1,
               wt := (ring_put s.wt s.wt_wt_pnt (tag :: 61 :: (itoa_chars v ++ [32]))).1,
               wt_wt_pnt := (ring_put s.wt s.wt_wt_pnt (tag :: 61 :: (itoa_chars v ++ [32]))).2 } := by
  obtain ⟨hb, hl⟩ := itoa_chars_int16 v h1 h2
  obtain ⟨f1, f2, f3⟩ := field_buf tag (itoa_chars v) s.tmp_buf hb (by omega)
  have hbs : ∀ b ∈ tag :: 61 :: (itoa_chars v ++ [32]), b ≠ 0 := by
    intro b hb2
    simp only [List.mem_cons, List.mem_append, List.mem_singleton, List.not_mem_nil,
      or_false] at hb2
    rcases hb2 with rfl | rfl | hb2 | rfl
    · exact ht
    · omega
    · exact hb b hb2
    · omega
  have hlen : (tag :: 61 :: (itoa_chars v ++ [32])).length < 16 := by
    simp; omega
  unfold tell_val itoa
  dsimp only
  rw [f1]
  have key := out_str_reply
    { s with tmp_buf := upd (upd (upd (upd (shift2 (poke s.tmp_buf 0 (itoa_chars v))
                (itoa_chars v).length) 0 tag) 1 61) ((itoa_chars v).length + 2) 32)
                ((itoa_chars v).length + 3) 0,
             j := ((itoa_chars v).length : Int), i := -1 }
    (tag :: 61 :: (itoa_chars v ++ [32])) hw hlen f2 hbs f3
  rw [key]
  exact ⟨_, _, rfl⟩

theorem tell_B_eq (s : State) (hv1 : -32768 ≤ s.bat_volt) (hv2 : s.bat_volt ≤ 32767)
    (ht1 : -32768 ≤ s.temp) (ht2 : s.temp ≤ 32767) (hw : s.wt_wt_pnt < BUF_LEN) :
    ∃ T J, tell_B s =
      { s with tmp_buf := T, j := J, i := -1,
               wt := (ring_put s.wt s.wt_wt_pnt
                 ((66 :: 61 :: (itoa_chars s.bat_volt ++ [32])) ++
                  ((84 :: 61 :: (itoa_chars s.temp ++ [32])) ++
                   [83, 61, if solar_on s = true then 49 else 48, 32, 76, 61,
                    if load_on s = true then 49 else 48, 13, 10]))).1,
               wt_wt_pnt := (ring_put s.wt s.wt_wt_pnt
                 ((66 :: 61 :: (itoa_chars s.bat_volt ++ [32])) ++
                  ((84 :: 61 :: (itoa_chars s.temp ++ [32])) ++
                   [83, 61, if solar_on s = true then 49 else 48, 32, 76, 61,
                    if load_on s = true then 49 else 48, 13, 10]))).2 } := by
  obtain ⟨T1, J1, e1⟩ := tell_val_eq 66 s.bat_volt s (by decide) hv1 hv2 hw
  have hw1 := ring_put_cursor_bound (66 :: 61 :: (itoa_chars s.bat_volt ++ [32])) s.wt
    s.wt_wt_pnt hw
  generalize hr1 : ring_put s.wt s.wt_wt_pnt (66 :: 61 :: (itoa_chars s.bat_volt ++ [32])) = r1
    at e1 hw1
  obtain ⟨T2, J2, e2⟩ := tell_val_eq 84 s.temp
    { s with tmp_buf := T1, j := J1, i := -1, wt := r1.1, wt_wt_pnt := r1.2 } (by decide)
    ht1 ht2 hw1
  have hw2 := ring_put_cursor_bound (84 :: 61 :: (itoa_chars s.temp ++ [32])) r1.1 r1.2 hw1
  generalize hr2 : ring_put r1.1 r1.2 (84 :: 61 :: (itoa_chars s.temp ++ [32])) = r2 at e2 hw2
  rw [ring_put_append, hr1, ring_put_append, hr2]
  unfold tell_B
  dsimp only
  rw [e1]
  dsimp only
  rw [e2]
  dsimp only
  have hx : ∀ (c : Bool) (b : Nat → Nat) (i : Nat),
      (if c = true then upd b i 49 else upd b i 48) = upd b i (if c = true then 49 else 48) := by
    intro c b i; cases c <;> rfl
  rw [hx, hx]
  have key := out_str_reply
    { s with tmp_buf := upd (upd (upd (upd (upd (upd (upd (upd (upd (upd T2 0 83) 1 61) 2
                (if tstbit s.PORTA 2 = true then 49 else 48)) 3 32) 4 76) 5 61) 6
                (if tstbit s.PORTA 1 = true then 49 else 48)) 7 13) 8 10) 9 0,
             j := J2, i := -1, wt := r2.1, wt_wt_pnt := r2.2 }
    [83, 61, if tstbit s.PORTA 2 = true then 49 else 48, 32, 76, 61,
      if tstbit s.PORTA 1 = true then 49 else 48, 13, 10] hw2 (by simp)
    (by
      intro k hk
      have hk9 : k < 9 := hk
      interval_cases k <;> rfl)
    (by
      intro b hb
      simp only [List.mem_cons, List.mem_singleton, List.not_mem_nil, or_false] at hb
      rcases hb with rfl | rfl | rfl | rfl | rfl | rfl | rfl | rfl | rfl <;>
        first | omega | (split_ifs <;> omega))
    rfl
  exact ⟨_, _, key⟩

theorem command_switch_B (s : State) (hc : s.cmd_buf 0 = 66 ∨ s.cmd_buf 0 = 98) :
    command_switch s = if s.cmd_buf_pnt = 3 then tell_B s else pgm_out_str error s := by
  unfold command_switch
  rcases hc with h | h <;> simp [h]

/-- C12: with the voltage and temperature readings in the signed 16-bit range,
a 3-byte line starting with 'B' (or 'b') is answered with "B=" decimal voltage
" T=" decimal temperature " S=" solar switch " L=" load switch CR LF, appended
to the outbound buffer, and the 6-byte form with the error reply. -/
theorem C12_battery_reply (s : State) (h0 : s.cmd_buf 0 = 66 ∨ s.cmd_buf 0 = 98)
    (hv : -32768 ≤ s.bat_volt ∧ s.bat_volt ≤ 32767) (ht : -32768 ≤ s.temp ∧ s.temp ≤ 32767)
    (hw : s.wt_wt_pnt < BUF_LEN) :
    (s.cmd_buf_pnt = 3 →
      Enqueued s (dispatch s) (battery_reply s.bat_volt s.temp (solar_on s) (load_on s))) ∧
      (s.cmd_buf_pnt = 6 → Enqueued s (dispatch s) error_reply) := by
  refine ⟨?_, ?_⟩
  · intro hp
    obtain ⟨T, J, e⟩ := tell_B_eq s hv.1 hv.2 ht.1 ht.2 hw
    obtain ⟨_, l1⟩ := itoa_chars_int16 s.bat_volt hv.1 hv.2
    obtain ⟨_, l2⟩ := itoa_chars_int16 s.temp ht.1 ht.2
    have hlist : (66 :: 61 :: (itoa_chars s.bat_volt ++ [32])) ++
        ((84 :: 61 :: (itoa_chars s.temp ++ [32])) ++
          [83, 61, if solar_on s = true then 49 else 48, 32, 76, 61,
            if load_on s = true then 49 else 48, 13, 10]) =
        battery_reply s.bat_volt s.temp (solar_on s) (load_on s) := by
      unfold battery_reply
      rw [← itoa_chars_decimal s.bat_volt (by omega) (by omega),
        ← itoa_chars_decimal s.temp (by omega) (by omega)]
      simp
    have hlen : (battery_reply s.bat_volt s.temp (solar_on s) (load_on s)).length ≤ BUF_LEN := by
      rw [← hlist]
      unfold BUF_LEN
      simp
      omega
    rw [hlist] at e
    have ed : dispatch s =
        { s with tmp_buf := T, j := J, i := -1,
                 wt := (ring_put s.wt s.wt_wt_pnt
                   (battery_reply s.bat_volt s.temp (solar_on s) (load_on s))).1,
                 wt_wt_pnt := (ring_put s.wt s.wt_wt_pnt
                   (battery_reply s.bat_volt s.temp (solar_on s) (load_on s))).2,
                 cmd_buf_pnt := 0, cmd_flag := 0, rd_rd_pnt := s.rd_wt_pnt } := by
      unfold dispatch
      rw [command_switch_B s h0, if_pos hp, e]
    rw [ed]
    exact enqueued_of_ring_put s _ _ hw hlen rfl rfl rfl
  · intro hp
    have hm : malformed (s.cmd_buf 0) s.cmd_buf_pnt := by
      rw [hp]
      rcases h0 with h | h <;> rw [h] <;> decide
    rw [dispatch_error s hw hm]
    exact enqueued_of_ring_put s _ _ hw (by decide) rfl rfl rfl

/-- C12 on the line 'B?' CR with 12250 mV, -5 degrees, the charging path on and
the load off: the reply is "B=12250 T=-5 S=1 L=0" CR LF. -/
theorem C12_battery_reply_witness :
    Enqueued (with_line [66, 63, 13] { charging_state with temp := -5 })
      (dispatch (with_line [66, 63, 13] { charging_state with temp := -5 }))
      [66, 61, 49, 50, 50, 53, 48, 32, 84, 61, 45, 53, 32, 83, 61, 49, 32, 76, 61, 48, 13, 10] := by
  have h := (C12_battery_reply (with_line [66, 63, 13] { charging_state with temp := -5 })
    (by decide) (by decide) (by decide) (by decide)).1 (by decide)
  have e : battery_reply (with_line [66, 63, 13] { charging_state with temp := -5 }).bat_volt
      (with_line [66, 63, 13] { charging_state with temp := -5 }).temp
      (solar_on (with_line [66, 63, 13] { charging_state with temp := -5 }))
      (load_on (with_line [66, 63, 13] { charging_state with temp := -5 })) =
      [66, 61, 49, 50, 50, 53, 48, 32, 84, 61, 45, 53, 32, 83, 61, 49, 32, 76, 61, 48, 13, 10] := by
    decide
  rw [e] at h
  exact h

/-! ## Draining the inbound buffer -/

theorem drain_step_eq (s : State) (hr : s.rd_rd_pnt < BUF_LEN) (hp : s.cmd_buf_pnt < 31) :
    drain_step s =
      { s with cmd_buf := upd s.cmd_buf s.cmd_buf_pnt (s.rd s.rd_rd_pnt),
               cmd_flag := if s.rd s.rd_rd_pnt = 13 then 1 else s.cmd_flag,
               rd_rd_pnt := (s.rd_rd_pnt + 1) % BUF_LEN,
               cmd_buf_pnt := s.cmd_buf_pnt + 1 } := by
  unfold BUF_LEN at hr
  have h1 : u16 (s.rd_rd_pnt + 1) = s.rd_rd_pnt + 1 := by unfold u16; omega
  have h2 : u16 (s.cmd_buf_pnt + 1) = s.cmd_buf_pnt + 1 := by unfold u16; omega
  have h3 : (if s.rd_rd_pnt + 1 = BUF_LEN then 0 else s.rd_rd_pnt + 1) =
      (s.rd_rd_pnt + 1) % BUF_LEN := by
    unfold BUF_LEN; split_ifs <;> omega
  unfold drain_step
  dsimp only
  rw [h1, h2, h3, if_neg (show ¬ s.cmd_buf_pnt + 1 = BUF_LEN by unfold BUF_LEN; omega)]

theorem drain_loop_eq (m : Nat) : ∀ (fuel : Nat) (s : State), m ≤ fuel →
    s.rd_rd_pnt < BUF_LEN → s.rd_wt_pnt < BUF_LEN →
    (s.rd_wt_pnt + BUF_LEN - s.rd_rd_pnt) % BUF_LEN = m → s.cmd_buf_pnt + m ≤ 31 →
    ∃ F, drain_loop fuel s =
        { s with cmd_buf := fun k =>
                   if s.cmd_buf_pnt ≤ k ∧ k < s.cmd_buf_pnt + m then
                     s.rd ((s.rd_rd_pnt + (k - s.cmd_buf_pnt)) % BUF_LEN)
                   else s.cmd_buf k,
                 cmd_buf_pnt := s.cmd_buf_pnt + m, cmd_flag := F,
                 rd_rd_pnt := s.rd_wt_pnt } ∧
      ((∃ j, j < m ∧ s.rd ((s.rd_rd_pnt + j) % BUF_LEN) = 13) → F = 1) ∧
      ((¬ ∃ j, j < m ∧ s.rd ((s.rd_rd_pnt + j) % BUF_LEN) = 13) → F = s.cmd_flag) := by
  induction m with
  | zero =>
    intro fuel s _ hr hw hm _
    unfold BUF_LEN at hr hw hm
    have e : s.rd_rd_pnt = s.rd_wt_pnt := by omega
    refine ⟨s.cmd_flag, ?_, ?_, fun _ => rfl⟩
    · have hd : drain_loop fuel s = s := by
        cases fuel with
        | zero => rfl
        | succ fuel =>
          show (if s.rd_rd_pnt ≠ s.rd_wt_pnt then drain_loop fuel (drain_step s) else s) = s
          rw [if_neg (by simpa using e)]
      rw [hd]
      have hf : (fun k => if s.cmd_buf_pnt ≤ k ∧ k < s.cmd_buf_pnt + 0 then
          s.rd ((s.rd_rd_pnt + (k - s.cmd_buf_pnt)) % BUF_LEN) else s.cmd_buf k) = s.cmd_buf := by
        funext k
        rw [if_neg (by omega)]
      rw [hf]
      clear hf hd
      cases s
      dsimp only at e ⊢
      subst e
      rfl
    · rintro ⟨j, hj, _⟩
      omega
  | succ m ih =>
    intro fuel s hf hr hw hm hp
    obtain ⟨fuel, rfl⟩ : ∃ g, fuel = g + 1 := ⟨fuel - 1, by omega⟩
    have hne : s.rd_rd_pnt ≠ s.rd_wt_pnt := by
      unfold BUF_LEN at hr hw hm; omega
    have hstep := drain_step_eq s hr (by omega)
    have hr1 : (drain_step s).rd_rd_pnt < BUF_LEN := by
      rw [hstep]; exact Nat.mod_lt _ (by decide)
    have hw1 : (drain_step s).rd_wt_pnt < BUF_LEN := by rw [hstep]; exact hw
    have hm1 : ((drain_step s).rd_wt_pnt + BUF_LEN - (drain_step s).rd_rd_pnt) % BUF_LEN = m := by
      rw [hstep]
      show (s.rd_wt_pnt + BUF_LEN - (s.rd_rd_pnt + 1) % BUF_LEN) % BUF_LEN = m
      unfold BUF_LEN at hr hw hm ⊢
      omega
    have hp1 : (drain_step s).cmd_buf_pnt + m ≤ 31 := by
      rw [hstep]
      show s.cmd_buf_pnt + 1 + m ≤ 31
      omega
    obtain ⟨F, e, f1, f2⟩ := ih fuel (drain_step s) (by omega) hr1 hw1 hm1 hp1
    refine ⟨F, ?_, ?_, ?_⟩
    · show (if s.rd_rd_pnt ≠ s.rd_wt_pnt then drain_loop fuel (drain_step s) else s) = _
      rw [if_pos hne, e, hstep]
      dsimp only
      have hfun : (fun k => if s.cmd_buf_pnt + 1 ≤ k ∧ k < s.cmd_buf_pnt + 1 + m then
            s.rd (((s.rd_rd_pnt + 1) % BUF_LEN + (k - (s.cmd_buf_pnt + 1))) % BUF_LEN)
          else upd s.cmd_buf s.cmd_buf_pnt (s.rd s.rd_rd_pnt) k) =
          (fun k => if s.cmd_buf_pnt ≤ k ∧ k < s.cmd_buf_pnt + (m + 1) then
            s.rd ((s.rd_rd_pnt + (k - s.cmd_buf_pnt)) % BUF_LEN) else s.cmd_buf k) := by
        funext k
        unfold BUF_LEN at hr ⊢
        by_cases h1 : s.cmd_buf_pnt + 1 ≤ k ∧ k < s.cmd_buf_pnt + 1 + m
        · rw [if_pos h1, if_pos (by omega)]
          congr 1
          omega
        · rw [if_neg h1]
          by_cases h2 : k = s.cmd_buf_pnt
          · rw [h2, upd_same, if_pos (by omega), Nat.sub_self, Nat.add_zero,
              Nat.mod_eq_of_lt hr]
          · rw [upd_other _ _ _ _ h2, if_neg (by omega)]
      rw [hfun, show s.cmd_buf_pnt + 1 + m = s.cmd_buf_pnt + (m + 1) by omega]
    · rintro ⟨j, hj, h13⟩
      by_cases hj0 : j = 0
      · subst hj0
        rw [Nat.add_zero, Nat.mod_eq_of_lt hr] at h13
        by_cases hex : ∃ j, j < m ∧
            (drain_step s).rd (((drain_step s).rd_rd_pnt + j) % BUF_LEN) = 13
        · exact f1 hex
        · rw [f2 hex, hstep]
          show (if s.rd s.rd_rd_pnt = 13 then 1 else s.cmd_flag) = 1
          rw [if_pos h13]
      · apply f1
        refine ⟨j - 1, by omega, ?_⟩
        rw [hstep]
        show s.rd (((s.rd_rd_pnt + 1) % BUF_LEN + (j - 1)) % BUF_LEN) = 13
        have : ((s.rd_rd_pnt + 1) % BUF_LEN + (j - 1)) % BUF_LEN = (s.rd_rd_pnt + j) % BUF_LEN := by
          unfold BUF_LEN; omega
        rw [this]
        exact h13
    · intro hno
      have hno1 : ¬ ∃ j, j < m ∧
          (drain_step s).rd (((drain_step s).rd_rd_pnt + j) % BUF_LEN) = 13 := by
        rintro ⟨j, hj, h13⟩
        apply hno
        refine ⟨j + 1, by omega, ?_⟩
        rw [hstep] at h13
        have h13b : s.rd (((s.rd_rd_pnt + 1) % BUF_LEN + j) % BUF_LEN) = 13 := h13
        have : ((s.rd_rd_pnt + 1) % BUF_LEN + j) % BUF_LEN = (s.rd_rd_pnt + (j + 1)) % BUF_LEN := by
          unfold BUF_LEN; omega
        rw [this] at h13b
        exact h13b
      rw [f2 hno1, hstep]
      show (if s.rd s.rd_rd_pnt = 13 then 1 else s.cmd_flag) = s.cmd_flag
      rw [if_neg]
      intro h13
      apply hno
      refine ⟨0, by omega, ?_⟩
      rw [Nat.add_zero, Nat.mod_eq_of_lt hr]
      exact h13

theorem inbound_cr (x : State) (h : 13 ∈ inbound x) :
    ∃ j, j < (x.rd_wt_pnt + BUF_LEN - x.rd_rd_pnt) % BUF_LEN ∧
      x.rd ((x.rd_rd_pnt + j) % BUF_LEN) = 13 := by
  unfold inbound at h
  obtain ⟨j, hj, e⟩ := List.mem_map.1 h
  exact ⟨j, List.mem_range.1 hj, e⟩

theorem inbound_length (x : State) :
    (inbound x).length = (x.rd_wt_pnt + BUF_LEN - x.rd_rd_pnt) % BUF_LEN := by
  unfold inbound
  rw [List.length_map, List.length_range]

theorem inbound_getD (x : State) (k : Nat)
    (hk : k < (x.rd_wt_pnt + BUF_LEN - x.rd_rd_pnt) % BUF_LEN) :
    (inbound x).getD k 0 = x.rd ((x.rd_rd_pnt + k) % BUF_LEN) := by
  have hl : k < (inbound x).length := by rw [inbound_length]; exact hk
  rw [List.getD_eq_getElem _ _ hl]
  unfold inbound
  rw [List.getElem_map, List.getElem_range]

/-- With an empty line buffer and a carriage return among the unread bytes, the
drain loop moves all of them into the line buffer and the dispatch that follows
is the one of the whole content taken as one line. -/
theorem drain_dispatch (x : State) (hr : x.rd_rd_pnt < BUF_LEN) (hw : x.rd_wt_pnt < BUF_LEN)
    (hp : x.cmd_buf_pnt = 0) (hcr : 13 ∈ inbound x) :
    (if (drain x).cmd_flag ≠ 0 then dispatch (drain x) else drain x) =
      send (inbound x) { x with rd_rd_pnt := x.rd_wt_pnt } := by
  have hn : (x.rd_wt_pnt + BUF_LEN - x.rd_rd_pnt) % BUF_LEN < BUF_LEN := Nat.mod_lt _ (by decide)
  obtain ⟨F, e, f1, _⟩ := drain_loop_eq _ BUF_LEN x (le_of_lt hn) hr hw rfl
    (by rw [hp]; unfold BUF_LEN at hn ⊢; omega)
  have hF := f1 (inbound_cr x hcr)
  have hd : drain x = with_line (inbound x) { x with rd_rd_pnt := x.rd_wt_pnt } := by
    unfold drain
    rw [e, hF, hp]
    unfold with_line
    dsimp only
    rw [inbound_length]
    have hfun : (fun k => if 0 ≤ k ∧ k < 0 + (x.rd_wt_pnt + BUF_LEN - x.rd_rd_pnt) % BUF_LEN then
          x.rd ((x.rd_rd_pnt + (k - 0)) % BUF_LEN) else x.cmd_buf k) =
        (fun k => if k < (x.rd_wt_pnt + BUF_LEN - x.rd_rd_pnt) % BUF_LEN then
          (inbound x).getD k 0 else x.cmd_buf k) := by
      funext k
      by_cases hk : k < (x.rd_wt_pnt + BUF_LEN - x.rd_rd_pnt) % BUF_LEN
      · rw [if_pos hk, if_pos (by omega), inbound_getD x k hk, Nat.sub_zero]
      · rw [if_neg hk, if_neg (by omega)]
    rw [hfun, Nat.zero_add]
  rw [hd]
  unfold send
  rw [if_pos (show (with_line (inbound x) { x with rd_rd_pnt := x.rd_wt_pnt }).cmd_flag ≠ 0 by
    show (1 : Nat) ≠ 0; decide)]

/-- What one pass through the foreground loop does with the unread bytes: with
an empty line buffer, both inbound cursors inside the buffer and a carriage
return among the unread bytes, it moves all of them into the line buffer, those
behind the carriage return too, and interprets the lot as one line (after the
supervisor block, if it is due). -/
theorem main_loop_drained_line (a : AdcIn) (s : State) (hr : s.rd_rd_pnt < BUF_LEN)
    (hw : s.rd_wt_pnt < BUF_LEN) (hp : s.cmd_buf_pnt = 0) (hcr : 13 ∈ inbound s) :
    main_loop a s =
      send (inbound s)
        { (if s.old_sec ≠ s.sec then supervisor a s else s) with rd_rd_pnt := s.rd_wt_pnt } := by
  have key : ∀ x : State, x.rd = s.rd → x.rd_rd_pnt = s.rd_rd_pnt →
      x.rd_wt_pnt = s.rd_wt_pnt → x.cmd_buf_pnt = s.cmd_buf_pnt →
      (if (drain x).cmd_flag ≠ 0 then dispatch (drain x) else drain x) =
        send (inbound s) { x with rd_rd_pnt := s.rd_wt_pnt } := by
    intro x e1 e2 e3 e4
    have ei : inbound x = inbound s := by
      unfold inbound
      rw [e1, e2, e3]
    rw [drain_dispatch x (by rw [e2]; exact hr) (by rw [e3]; exact hw) (by rw [e4]; exact hp)
      (by rw [ei]; exact hcr), ei, e3]
  unfold main_loop
  by_cases h : s.old_sec ≠ s.sec
  · obtain ⟨bv, tp, ad, bl, P, f, c, t, l, k, b, e, _⟩ := supervisor_spec a s
    rw [if_pos h]
    exact key (supervisor a s) (by rw [e]) (by rw [e]) (by rw [e]) (by rw [e])
  · rw [if_neg h]
    exact key s rfl rfl rfl rfl

set_option maxRecDepth 100000 in
/-- C13 fails on the code: the bytes behind the carriage return are counted as
part of the line.  At 10:30 with the time not set, the line 'T?' CR alone is
answered as a query and leaves the clock alone; followed by "123" in the same
burst it is taken as a 6-byte set command: the clock is set to 00:12 and the
time counts as set. -/
theorem C13_trailing_bytes_counted :
    inbound (received 30 [84, 63, 13]) = [84, 63, 13] ∧
      inbound (received 30 [84, 63, 13, 49, 50, 51]) = [84, 63, 13, 49, 50, 51] ∧
      (main_loop ⟨0, 0⟩ (received 30 [84, 63, 13])).hour = 10 ∧
      (main_loop ⟨0, 0⟩ (received 30 [84, 63, 13])).min = 30 ∧
      (main_loop ⟨0, 0⟩ (received 30 [84, 63, 13])).time_set_flag = 0 ∧
      (main_loop ⟨0, 0⟩ (received 30 [84, 63, 13, 49, 50, 51])).hour = 0 ∧
      (main_loop ⟨0, 0⟩ (received 30 [84, 63, 13, 49, 50, 51])).min = 12 ∧
      (main_loop ⟨0, 0⟩ (received 30 [84, 63, 13, 49, 50, 51])).time_set_flag = 1 := by
  decide

/-! ## Liveness flag and load switch-on -/

/-- The scheduled start clears `time_set_flag`; an evaluation in which it does
not fire leaves the flag as it is, also when the reboot countdown switches the
load on. -/
theorem supervisor_liveness_flag (a : AdcIn) (s : State) :
    (start_fires s → (supervisor a s).time_set_flag = 0) ∧
      (¬ start_fires s → (supervisor a s).time_set_flag = s.time_set_flag) ∧
      (s.boot_flag = 1 → load_on (supervisor a s) = true) := by
  obtain ⟨bv, tp, ad, bl, P, f, c, t, l, k, b, e, _, p1, hf, _⟩ := supervisor_spec a s
  rw [e]
  unfold start_fires
  refine ⟨?_, ?_, ?_⟩
  · intro h
    show f = 0
    rw [hf, if_pos h]
  · intro h
    show f = s.time_set_flag
    rw [hf, if_neg h]
  · intro h
    show tstbit P 1 = true
    rw [p1, if_pos h]

/-- C14 fails on the reboot path: with the time set, the load off and the
reboot countdown at its last tick, the evaluation switches the load on and
leaves `time_set_flag` at 1. -/
theorem C14_reboot_keeps_liveness :
    load_on confirmed_reboot_state = false ∧ confirmed_reboot_state.time_set_flag = 1 ∧
      confirmed_reboot_state.boot_flag = 1 ∧
      load_on (supervisor ⟨300, 12000⟩ confirmed_reboot_state) = true ∧
      (supervisor ⟨300, 12000⟩ confirmed_reboot_state).boot_flag = 0 ∧
      (supervisor ⟨300, 12000⟩ confirmed_reboot_state).time_set_flag = 1 := by
  decide

/-! ## A/D channel selection -/

theorem sample_channel (a : AdcIn) (s : State) :
    (sample a s).ADMUX = (if s.blink_flag ≠ 0 then 128 else 162) ∧
      (sample a s).blink_flag = (if s.blink_flag ≠ 0 then 0 else 1) := by
  unfold sample
  by_cases h : s.blink_flag ≠ 0
  · rw [if_pos h, if_pos h, if_pos h]
    exact ⟨rfl, rfl⟩
  · rw [if_neg h, if_neg h, if_neg h]
    exact ⟨rfl, rfl⟩

/-- The blocks after the conversions leave `ADMUX` and `blink_flag` alone. -/
theorem rest_keeps_channel (x : State) :
    (escalation (battery (schedule x))).ADMUX = x.ADMUX ∧
      (escalation (battery (schedule x))).blink_flag = x.blink_flag := by
  have h1 : ∀ y, (schedule_start y).ADMUX = y.ADMUX ∧
      (schedule_start y).blink_flag = y.blink_flag := fun y => by
    obtain ⟨P, f, c, e, _⟩ := schedule_start_spec y
    rw [e]; exact ⟨rfl, rfl⟩
  have h2 : ∀ y, (schedule_stop y).ADMUX = y.ADMUX ∧
      (schedule_stop y).blink_flag = y.blink_flag := fun y => by
    obtain ⟨P, e, _⟩ := schedule_stop_spec y
    rw [e]; exact ⟨rfl, rfl⟩
  have h3 : ∀ y, (battery y).ADMUX = y.ADMUX ∧ (battery y).blink_flag = y.blink_flag :=
    fun y => by
      obtain ⟨P, t, l, e, _⟩ := battery_spec y
      rw [e]; exact ⟨rfl, rfl⟩
  have h4 : ∀ y, (kill_countdown y).ADMUX = y.ADMUX ∧
      (kill_countdown y).blink_flag = y.blink_flag := fun y => by
    obtain ⟨P, e, _⟩ := kill_countdown_spec y
    rw [e]; exact ⟨rfl, rfl⟩
  have h5 : ∀ y, (boot_countdown y).ADMUX = y.ADMUX ∧
      (boot_countdown y).blink_flag = y.blink_flag := fun y => by
    obtain ⟨P, e, _⟩ := boot_countdown_spec y
    rw [e]; exact ⟨rfl, rfl⟩
  have h6 : ∀ y, (liveness_check y).ADMUX = y.ADMUX ∧
      (liveness_check y).blink_flag = y.blink_flag := fun y => by
    obtain ⟨c, b, k, e, _⟩ := liveness_check_spec y
    rw [e]; exact ⟨rfl, rfl⟩
  unfold escalation schedule
  refine ⟨?_, ?_⟩
  · rw [(h6 _).1, (h5 _).1, (h4 _).1, (h3 _).1, (h2 _).1, (h1 _).1]
  · rw [(h6 _).2, (h5 _).2, (h4 _).2, (h3 _).2, (h2 _).2, (h1 _).2]

/-- A supervisor evaluation that starts with `blink_flag` set converts the
voltage and leaves `ADMUX = 0x80`; one that starts with it clear converts the
temperature and leaves `ADMUX = 0xa2`. -/
theorem supervisor_channel (a : AdcIn) (s : State) :
    (supervisor a s).ADMUX = (if s.blink_flag ≠ 0 then 128 else 162) ∧
      (supervisor a s).blink_flag = (if s.blink_flag ≠ 0 then 0 else 1) := by
  obtain ⟨k1, k2⟩ := rest_keeps_channel (sample a { s with old_sec := s.sec })
  obtain ⟨c1, c2⟩ := sample_channel a { s with old_sec := s.sec }
  unfold supervisor
  rw [k1, k2, c1, c2]
  exact ⟨rfl, rfl⟩

theorem second_step_channel (a : AdcIn) (x : State) :
    (ticks 2400 x).ADMUX = x.ADMUX ∧ (ticks 2400 x).blink_flag = x.blink_flag ∧
      (second_step a x).ADMUX = (if x.blink_flag ≠ 0 then 128 else 162) ∧
      (second_step a x).blink_flag = (if x.blink_flag ≠ 0 then 0 else 1) := by
  obtain ⟨t0, sc0, mn0, hr0, P0, st0, bc0, d0, r0, e0, _, _⟩ := ticks_spec 2400 x
  have b1 : (ticks 2400 x).blink_flag = x.blink_flag := by rw [e0]
  have b2 : (ticks 2400 x).ADMUX = x.ADMUX := by rw [e0]
  obtain ⟨c1, c2⟩ := supervisor_channel a (ticks 2400 x)
  rw [b1] at c1 c2
  exact ⟨b2, b1, c1, c2⟩

theorem channel_step (n b : Nat) (hb : b = (if n % 2 = 0 then 1 else 0)) :
    (if b ≠ 0 then 0 else 1) = (if (n + 1) % 2 = 0 then 1 else 0) ∧
      (if b ≠ 0 then 128 else 162) =
        (if n + 1 = 0 then 128 else if (n + 1) % 2 = 1 then 128 else 162) := by
  subst hb
  rcases Nat.mod_two_eq_zero_or_one n with h | h
  · have h1 : (n + 1) % 2 = 1 := by omega
    simp [h, h1]
  · have h1 : (n + 1) % 2 = 0 := by omega
    simp [h, h1]

/-- C18 fails on the channel: in every run from the entry of the main loop,
the conversions alternate, voltage first (`blink_flag` is 1 before the
evaluations number 1, 3, 5, … and 0 before the others), but when a temperature
conversion starts `ADMUX` holds `0x80`, the battery channel value, and when a
voltage conversion other than the first starts it holds `0xa2`. -/
theorem C18_channels_swapped (adc : Nat → AdcIn) (n : Nat) :
    (ticks 2400 (after adc n loop_entry_state)).blink_flag = (if n % 2 = 0 then 1 else 0) ∧
      (ticks 2400 (after adc n loop_entry_state)).ADMUX =
        (if n = 0 then 128 else if n % 2 = 1 then 128 else 162) := by
  have key : ∀ n, (after adc n loop_entry_state).blink_flag = (if n % 2 = 0 then 1 else 0) ∧
      (after adc n loop_entry_state).ADMUX =
        (if n = 0 then 128 else if n % 2 = 1 then 128 else 162) := by
    intro n
    induction n with
    | zero => exact ⟨rfl, rfl⟩
    | succ n ih =>
      obtain ⟨i1, i2⟩ := ih
      obtain ⟨_, _, c1, c2⟩ := second_step_channel (adc n) (after adc n loop_entry_state)
      rw [after_succ, c1, c2]
      exact channel_step n _ i1
  obtain ⟨b2, b1, _⟩ := second_step_channel (adc n) (after adc n loop_entry_state)
  rw [b1, b2]
  exact key n

/-! ## The `R` command -/

theorem command_switch_R (s : State) (hc : s.cmd_buf 0 = 82 ∨ s.cmd_buf 0 = 114) :
    command_switch s =
      if s.cmd_buf_pnt = 3 then { pgm_out_str boot { s with i := 0 } with boot_flag := 10 }
      else pgm_out_str error s := by
  unfold command_switch
  rcases hc with h | h <;> simp [h]

theorem dispatch_R (s : State) (hw : s.wt_wt_pnt < BUF_LEN)
    (h0 : s.cmd_buf 0 = 82 ∨ s.cmd_buf 0 = 114) (hp : s.cmd_buf_pnt = 3) :
    dispatch s =
      { s with i := 0, wt := (ring_put s.wt s.wt_wt_pnt boot_reply).1,
               wt_wt_pnt := (ring_put s.wt s.wt_wt_pnt boot_reply).2, tmp_char := 0,
               boot_flag := 10, cmd_buf_pnt := 0, cmd_flag := 0, rd_rd_pnt := s.rd_wt_pnt } := by
  have e := pgm_out_str_eq boot_reply [] { s with i := 0 } hw (by decide)
  unfold dispatch
  rw [command_switch_R s h0, if_pos hp]
  have hb : boot = boot_reply ++ 0 :: [] := rfl
  rw [hb, e]

/-- One evaluation and the reboot countdown: unless the liveness check arms it
anew, the countdown loses one tick; the tick from 6 to 5 switches the load off
and the tick from 1 to 0 switches it on. -/
theorem supervisor_boot (a : AdcIn) (X : State) :
    (¬ rearmed (supervisor a X) → (supervisor a X).boot_flag = X.boot_flag - 1) ∧
      (X.boot_flag = 6 → load_on (supervisor a X) = false) ∧
      (X.boot_flag = 1 → load_on (supervisor a X) = true) := by
  obtain ⟨bv, tp, ad, bl, P, f, c, t, l, k, b, e, _, p1, _, _, _, hn, hy, _⟩ :=
    supervisor_spec a X
  rw [e]
  refine ⟨?_, ?_, ?_⟩
  · intro hr
    have hr2 : ¬ (X.sec = 59 ∧ f = 0 ∧ c > 0) := hr
    show b = X.boot_flag - 1
    by_cases h : X.sec = 59 ∧ f = 0
    · obtain ⟨g1, g2, g3⟩ := hy h
      by_cases q1 : s8 (X.boot_cnt - 1) > 0
      · exfalso
        apply hr2
        refine ⟨h.1, h.2, ?_⟩
        rw [(g1 q1).1]
        exact q1
      · by_cases q2 : s8 (X.boot_cnt - 1) = 0
        · exact (g2 q2).2.1
        · exact (g3 (by omega)).2.1
    · exact (hn h).2.1
  · intro h
    show tstbit P 1 = false
    rw [p1, if_neg (by omega), if_pos h]
  · intro h
    show tstbit P 1 = true
    rw [p1, if_pos h]

theorem second_step_boot (a : AdcIn) (x : State) :
    (¬ rearmed (second_step a x) → (second_step a x).boot_flag = x.boot_flag - 1) ∧
      (x.boot_flag = 6 → load_on (second_step a x) = false) ∧
      (x.boot_flag = 1 → load_on (second_step a x) = true) := by
  obtain ⟨t0, sc0, mn0, hr0, P0, st0, bc0, d0, r0, e0, _, _⟩ := ticks_spec 2400 x
  have b1 : (ticks 2400 x).boot_flag = x.boot_flag := by rw [e0]
  have h := supervisor_boot a (ticks 2400 x)
  rw [b1] at h
  exact h

/-- While no liveness check arms the countdown anew, `k` evaluations take `k`
ticks off it. -/
theorem boot_flag_run (adc : Nat → AdcIn) (t : State) (k : Nat)
    (h : ∀ j, 1 ≤ j → j ≤ k → ¬ rearmed (after adc j t)) :
    (after adc k t).boot_flag = t.boot_flag - k := by
  induction k with
  | zero => rfl
  | succ k ih =>
    have i1 := ih (fun j h1 h2 => h j h1 (by omega))
    have hr := h (k + 1) (by omega) (by omega)
    rw [after_succ] at hr ⊢
    rw [(second_step_boot (adc k) (after adc k t)).1 hr, i1]
    omega

/-- C15 (amended): a 3-byte line starting with 'R' (or 'r') is answered with
"Rebooting" CR LF and sets `boot_flag` to 10.  With no further command, if no
liveness check arms the countdown anew in the first four evaluations that
follow, the load is off after the fifth; if none does in the first nine and the
tenth evaluation leaves the battery not flagged low, the load is on after the
tenth. -/
theorem C15_reboot (adc : Nat → AdcIn) (s : State) (hw : s.wt_wt_pnt < BUF_LEN)
    (h0 : s.cmd_buf 0 = 82 ∨ s.cmd_buf 0 = 114) (hp : s.cmd_buf_pnt = 3) :
    Enqueued s (dispatch s) boot_reply ∧ (dispatch s).boot_flag = 10 ∧
      ((∀ j, 1 ≤ j → j ≤ 4 → ¬ rearmed (after adc j (dispatch s))) →
        load_on (after adc 5 (dispatch s)) = false) ∧
      ((∀ j, 1 ≤ j → j ≤ 9 → ¬ rearmed (after adc j (dispatch s))) →
        (after adc 10 (dispatch s)).low_flag = 0 →
        load_on (after adc 10 (dispatch s)) = true) := by
  have e := dispatch_R s hw h0 hp
  have hb : (dispatch s).boot_flag = 10 := by rw [e]
  refine ⟨?_, hb, ?_, ?_⟩
  · rw [e]
    exact enqueued_of_ring_put s _ _ hw (by decide) rfl rfl rfl
  · intro h
    have h4 := boot_flag_run adc (dispatch s) 4 h
    rw [hb] at h4
    exact (second_step_boot (adc 4) (after adc 4 (dispatch s))).2.1 h4
  · intro h _
    have h9 := boot_flag_run adc (dispatch s) 9 h
    rw [hb] at h9
    exact (second_step_boot (adc 9) (after adc 9 (dispatch s))).2.2 h9

/-- C15 (amended) at 10:30:20 with a steady 12000 mV: the evaluations that
follow are those of the seconds 21 to 30, none at second 59, and the battery is
never flagged low. -/
theorem C15_reboot_witness :
    Enqueued reboot_line_state (dispatch reboot_line_state) boot_reply ∧
      (dispatch reboot_line_state).boot_flag = 10 ∧
      load_on (after steady_adc 5 (dispatch reboot_line_state)) = false ∧
      (after steady_adc 10 (dispatch reboot_line_state)).low_flag = 0 ∧
      load_on (after steady_adc 10 (dispatch reboot_line_state)) = true := by
  have ar : ∀ j, j ≤ 9 → (20 + j) % 60 ≠ 59 := by intro j hj; omega
  have hs : (dispatch reboot_line_state).sec = 20 := by decide
  have hno : ∀ j, 1 ≤ j → j ≤ 9 →
      ¬ rearmed (after steady_adc j (dispatch reboot_line_state)) := by
    intro j _ h2 hr
    obtain ⟨_, _, _, _, _, i6, _⟩ := after_clock steady_adc
      (dispatch reboot_line_state) (by decide) (by decide) j
    rw [hs] at i6
    exact ar j h2 (i6.symm.trans hr.1)
  have hlow := (after_battery steady_adc (dispatch reboot_line_state) (by decide) (by decide)
    12000 (fun _ => (by decide : s16 (12000 : Int) = 12000)) (by decide) (by decide)
    (by decide) 10).2
  obtain ⟨h1, h2, h3, h4⟩ := C15_reboot steady_adc reboot_line_state
    (by decide) (by decide) (by decide)
  exact ⟨h1, h2, h3 (fun j a b => hno j a (le_trans b (by decide))), hlow, h4 hno hlow⟩

set_option maxRecDepth 100000 in
theorem esc_run_rearm :
    esc_run 5 (54, 3, 10, 0) = (59, 2, 10, 0) ∧ esc_run 9 (54, 3, 10, 0) = (3, 2, 6, 0) := by
  decide

/-- A reboot countdown started at second 54 with the time not set: the fifth
evaluation, at second 59, arms the countdown anew, and the tenth switches the
load off. -/
theorem rearm_run (adc : Nat → AdcIn) (t : State) (hv : valid_clock t) (ht : t.tick < 2400)
    (hsod : seconds_of_day t = 37854) (hsec : t.sec = 54) (hah : t.a_hour = 20)
    (ham : t.a_min = 0) (hc : t.boot_cnt = 3) (hf : t.time_set_flag = 0)
    (hb : t.boot_flag = 10) (hk : t.kill_flag = 0) :
    rearmed (after adc 5 t) ∧ load_on (after adc 10 t) = false := by
  have he : esc_of t = (54, 3, 10, 0) := by
    unfold esc_of
    rw [hsec, hc, hb, hk]
  have ar1 : ∀ j, j < 9 → (37854 + (j + 1)) % 86400 ≠ 3600 * 20 + 60 * 0 := by
    intro j hj; omega
  rw [← hsod, ← hah, ← ham] at ar1
  obtain ⟨r5, r9⟩ := esc_run_rearm
  have E : ∀ k, k ≤ 9 → esc_of (after adc k t) = esc_run k (esc_of t) := fun k hk9 =>
    after_esc adc t hv ht hf k
      (fun j hj hsf => absurd hsf (no_start_of_clock adc t hv ht j
        (ar1 j (Nat.lt_of_lt_of_le hj hk9))))
  have E5 := E 5 (by decide)
  have E9 := E 9 (by decide)
  rw [he, r5] at E5
  rw [he, r9] at E9
  obtain ⟨s5, c5, _, _⟩ := esc_of_eq _ _ _ _ _ E5
  obtain ⟨_, _, b9, _⟩ := esc_of_eq _ _ _ _ _ E9
  obtain ⟨_, _, _, _, _, _, f5⟩ := after_clock adc t hv ht 5
  refine ⟨⟨s5, f5 hf, ?_⟩, ?_⟩
  · rw [c5]; decide
  · exact (second_step_boot (adc 9) (after adc 9 t)).2.1 b9

/-- C15 fails when the liveness check arms the countdown anew.  The line 'R?'
CR is dispatched at 10:30:54 with the time not set and `boot_cnt = 3`; the
fifth evaluation that follows is the one of second 59 and sets the countdown
back to 10, so that the tenth evaluation switches the load off instead of
on. -/
theorem C15_counterexample :
    reboot_request_state.cmd_buf 0 = 82 ∧ reboot_request_state.cmd_buf_pnt = 3 ∧
      (dispatch reboot_request_state).boot_flag = 10 ∧
      rearmed (after steady_adc 5 (dispatch reboot_request_state)) ∧
      load_on (after steady_adc 10 (dispatch reboot_request_state)) = false := by
  have h := rearm_run steady_adc (dispatch reboot_request_state) (by decide) (by decide)
    (by decide) (by decide) (by decide) (by decide) (by decide) (by decide) (by decide)
    (by decide)
  exact ⟨by decide, by decide, by decide, h.1, h.2⟩

/-! ## What the command interpreter leaves alone -/

theorem quiet_refl (s : State) : quiet s s := ⟨rfl, rfl, fun h => h⟩

theorem quiet_trans {s t u : State} (h1 : quiet s t) (h2 : quiet t u) : quiet s u :=
  ⟨h2.1.trans h1.1, h2.2.1.trans h1.2.1, fun h => h2.2.2 (h1.2.2 h)⟩

theorem wt_put_quiet (c : Nat) (s : State) : quiet s (wt_put c s) := by
  refine ⟨?_, ?_, ?_⟩
  · unfold wt_put
    dsimp only
    split_ifs <;> rfl
  · unfold wt_put
    dsimp only
    split_ifs <;> rfl
  · intro h
    rw [wt_put_eq c s h]
    exact Nat.mod_lt _ (by decide)

theorem pgm_out_str_quiet (l : List Nat) : ∀ s : State, quiet s (pgm_out_str l s) := by
  induction l with
  | nil => intro s; exact ⟨rfl, rfl, fun h => h⟩
  | cons c rest ih =>
    intro s
    unfold pgm_out_str
    dsimp only
    split_ifs
    · exact quiet_trans (s := s) (t := wt_put c { s with tmp_char := c })
        (quiet_trans (s := s) (t := { s with tmp_char := c }) ⟨rfl, rfl, fun h => h⟩
          (wt_put_quiet _ _)) (ih _)
    · exact ⟨rfl, rfl, fun h => h⟩

theorem out_str_loop_quiet (fuel : Nat) : ∀ (i : Nat) (s : State),
    quiet s (out_str_loop fuel i s) := by
  induction fuel with
  | zero => intro i s; exact quiet_refl s
  | succ fuel ih =>
    intro i s
    unfold out_str_loop
    split_ifs
    · exact quiet_trans (wt_put_quiet _ s) (ih _ _)
    · exact quiet_refl s

theorem out_str_quiet (s : State) : quiet s (out_str s) := out_str_loop_quiet 16 0 s

theorem tell_quiet (tag h m : Nat) (s : State) : quiet s (tell tag h m s) := by
  unfold tell
  dsimp only
  exact quiet_trans (t := _) ⟨rfl, rfl, fun h => h⟩ (out_str_quiet _)

theorem tell_val_quiet (tag : Nat) (v : Int) (s : State) : quiet s (tell_val tag v s) := by
  unfold tell_val
  dsimp only
  exact quiet_trans (t := _) ⟨rfl, rfl, fun h => h⟩ (out_str_quiet _)

theorem out_str_buf_quiet (s : State) (b : Nat → Nat) :
    quiet s (out_str { s with tmp_buf := b }) :=
  quiet_trans (t := { s with tmp_buf := b }) ⟨rfl, rfl, fun h => h⟩ (out_str_quiet _)

theorem tell_B_quiet (s : State) : quiet s (tell_B s) := by
  unfold tell_B
  dsimp only
  exact quiet_trans (tell_val_quiet 66 s.bat_volt s)
    (quiet_trans (tell_val_quiet 84 _ _) (out_str_buf_quiet _ _))

theorem control_flags {s t : State} (h : control t = control s) :
    t.boot_flag = s.boot_flag ∧ t.kill_flag = s.kill_flag := by
  exact ⟨congrArg (fun p => p.2.2.2.2.2.2.2.1) h, congrArg (fun p => p.2.2.2.2.2.2.2.2) h⟩

/-- The set forms write clock or schedule and, for `T`, the liveness flag. -/
theorem set_frame (s : State) :
    (plant (set_T s) = plant s ∧ (set_T s).wt_wt_pnt = s.wt_wt_pnt ∧
        (set_T s).boot_flag = s.boot_flag ∧ (set_T s).kill_flag = s.kill_flag) ∧
      (plant (set_A s) = plant s ∧ (set_A s).wt_wt_pnt = s.wt_wt_pnt ∧
        (set_A s).boot_flag = s.boot_flag ∧ (set_A s).kill_flag = s.kill_flag) ∧
      (plant (set_S s) = plant s ∧ (set_S s).wt_wt_pnt = s.wt_wt_pnt ∧
        (set_S s).boot_flag = s.boot_flag ∧ (set_S s).kill_flag = s.kill_flag) := by
  obtain ⟨_, _, _, e1, _⟩ := set_T_any s
  obtain ⟨_, _, _, e2, _⟩ := set_A_any s
  obtain ⟨_, _, _, e3, _⟩ := set_S_any s
  rw [e1, e2, e3]
  exact ⟨⟨rfl, rfl, rfl, rfl⟩, ⟨rfl, rfl, rfl, rfl⟩, ⟨rfl, rfl, rfl, rfl⟩⟩

theorem effect_of_quiet {s t : State} (h : quiet s t) : command_effect s t :=
  ⟨h.1, h.2.2, Or.inl (control_flags h.2.1).1, Or.inl (control_flags h.2.1).2, fun _ => h.2.1⟩

theorem effect_of_set {s x t : State}
    (hx : plant x = plant s ∧ x.wt_wt_pnt = s.wt_wt_pnt ∧ x.boot_flag = s.boot_flag ∧
      x.kill_flag = s.kill_flag)
    (h : quiet x t) (hq : ¬ is_query s) : command_effect s t :=
  ⟨h.1.trans hx.1, fun hw => h.2.2 (by rw [hx.2.1]; exact hw),
    Or.inl ((control_flags h.2.1).1.trans hx.2.2.1),
    Or.inl ((control_flags h.2.1).2.trans hx.2.2.2), fun q => absurd q hq⟩

theorem command_switch_effect (s : State) : command_effect s (command_switch s) := by
  have hi : quiet s { s with i := 0 } := ⟨rfl, rfl, fun h => h⟩
  have hset := set_frame s
  have hk : ∀ x : State, quiet s x → ¬ is_query s →
      command_effect s { x with kill_flag := 5 } := fun x h hq =>
    ⟨h.1, h.2.2, Or.inl (control_flags h.2.1).1, Or.inr rfl, fun q => absurd q hq⟩
  have hb : ∀ x : State, quiet s x → ¬ is_query s →
      command_effect s { x with boot_flag := 10 } := fun x h hq =>
    ⟨h.1, h.2.2, Or.inr rfl, Or.inl (control_flags h.2.1).2, fun q => absurd q hq⟩
  have hlen : s.cmd_buf_pnt = 6 → ¬ is_query s := fun h q => by
    have := q.1
    omega
  have hletter : (s.cmd_buf 0 = 75 ∨ s.cmd_buf 0 = 107 ∨ s.cmd_buf 0 = 82 ∨ s.cmd_buf 0 = 114) →
      ¬ is_query s := fun h q => by
    have hm := q.2
    simp only [List.mem_cons, List.mem_singleton, List.not_mem_nil, or_false] at hm
    omega
  unfold command_switch
  dsimp only
  split_ifs with c1 p1 c2 p2 c3 p3 p4 c4 p5 p6 c5 p7 p8 c6 p9 c7 p10
  · exact effect_of_quiet (quiet_trans hi (pgm_out_str_quiet _ _))
  · exact effect_of_quiet (pgm_out_str_quiet _ _)
  · exact effect_of_quiet (tell_B_quiet s)
  · exact effect_of_quiet (pgm_out_str_quiet _ _)
  · exact effect_of_set hset.1 (tell_quiet _ _ _ _) (hlen p3)
  · exact effect_of_quiet (tell_quiet _ _ _ _)
  · exact effect_of_quiet (pgm_out_str_quiet _ _)
  · exact effect_of_set hset.2.1 (tell_quiet _ _ _ _) (hlen p5)
  · exact effect_of_quiet (tell_quiet _ _ _ _)
  · exact effect_of_quiet (pgm_out_str_quiet _ _)
  · exact effect_of_set hset.2.2 (tell_quiet _ _ _ _) (hlen p7)
  · exact effect_of_quiet (tell_quiet _ _ _ _)
  · exact effect_of_quiet (pgm_out_str_quiet _ _)
  · exact hk _ (quiet_trans hi (pgm_out_str_quiet _ _)) (hletter (by omega))
  · exact effect_of_quiet (pgm_out_str_quiet _ _)
  · exact hb _ (quiet_trans hi (pgm_out_str_quiet _ _)) (hletter (by omega))
  · exact effect_of_quiet (pgm_out_str_quiet _ _)
  · exact effect_of_quiet (pgm_out_str_quiet _ _)

theorem dispatch_effect (s : State) : command_effect s (dispatch s) := by
  have h := command_switch_effect s
  unfold dispatch
  exact h

theorem plant_eq {s t : State} (h : plant t = plant s) :
    t.PORTA = s.PORTA ∧ t.bat_volt = s.bat_volt ∧ t.temp = s.temp ∧ t.low_flag = s.low_flag ∧
      t.boot_cnt = s.boot_cnt ∧ t.sec = s.sec ∧ t.old_sec = s.old_sec ∧ t.tick = s.tick ∧
      t.blink_flag = s.blink_flag ∧ t.ten_sec_flag = s.ten_sec_flag ∧ t.ADMUX = s.ADMUX ∧
      t.rd_wt_pnt = s.rd_wt_pnt ∧ t.wt_rd_pnt = s.wt_rd_pnt := by
  exact ⟨congrArg (fun p => p.1) h,
    congrArg (fun p => p.2.1) h,
    congrArg (fun p => p.2.2.1) h,
    congrArg (fun p => p.2.2.2.1) h,
    congrArg (fun p => p.2.2.2.2.1) h,
    congrArg (fun p => p.2.2.2.2.2.1) h,
    congrArg (fun p => p.2.2.2.2.2.2.1) h,
    congrArg (fun p => p.2.2.2.2.2.2.2.1) h,
    congrArg (fun p => p.2.2.2.2.2.2.2.2.1) h,
    congrArg (fun p => p.2.2.2.2.2.2.2.2.2.1) h,
    congrArg (fun p => p.2.2.2.2.2.2.2.2.2.2.1) h,
    congrArg (fun p => p.2.2.2.2.2.2.2.2.2.2.2.1) h,
    congrArg (fun p => p.2.2.2.2.2.2.2.2.2.2.2.2) h⟩

theorem control_eq {s t : State} (h : control t = control s) :
    t.hour = s.hour ∧ t.min = s.min ∧ t.a_hour = s.a_hour ∧ t.a_min = s.a_min ∧
      t.s_hour = s.s_hour ∧ t.s_min = s.s_min ∧ t.time_set_flag = s.time_set_flag ∧
      t.boot_flag = s.boot_flag ∧ t.kill_flag = s.kill_flag := by
  exact ⟨congrArg (fun p => p.1) h,
    congrArg (fun p => p.2.1) h,
    congrArg (fun p => p.2.2.1) h,
    congrArg (fun p => p.2.2.2.1) h,
    congrArg (fun p => p.2.2.2.2.1) h,
    congrArg (fun p => p.2.2.2.2.2.1) h,
    congrArg (fun p => p.2.2.2.2.2.2.1) h,
    congrArg (fun p => p.2.2.2.2.2.2.2.1) h,
    congrArg (fun p => p.2.2.2.2.2.2.2.2) h⟩

/-- C16: the dispatch of a line, whatever the line buffer holds, leaves the port
register (hence both switch outputs), both readings, the low-battery flag and
`boot_cnt` as they are, and also second, `old_sec`, `blink_flag` and
`ten_sec_flag`: of what the supervisor block works with it can change only
clock hour and minute, the schedule, `time_set_flag`, `boot_flag` and
`kill_flag`; and a 3-byte line starting with H, B, T, A or S changes none of
these either. -/
theorem C16_dispatch_frame (s : State) :
    (solar_on (dispatch s) = solar_on s ∧ load_on (dispatch s) = load_on s ∧
        (dispatch s).PORTA = s.PORTA ∧ (dispatch s).bat_volt = s.bat_volt ∧
        (dispatch s).temp = s.temp ∧ (dispatch s).low_flag = s.low_flag ∧
        (dispatch s).boot_cnt = s.boot_cnt) ∧
      ((dispatch s).sec = s.sec ∧ (dispatch s).old_sec = s.old_sec ∧
        (dispatch s).blink_flag = s.blink_flag ∧
        (dispatch s).ten_sec_flag = s.ten_sec_flag) ∧
      (is_query s →
        (dispatch s).hour = s.hour ∧ (dispatch s).min = s.min ∧
          (dispatch s).a_hour = s.a_hour ∧ (dispatch s).a_min = s.a_min ∧
          (dispatch s).s_hour = s.s_hour ∧ (dispatch s).s_min = s.s_min ∧
          (dispatch s).time_set_flag = s.time_set_flag ∧
          (dispatch s).boot_flag = s.boot_flag ∧ (dispatch s).kill_flag = s.kill_flag) := by
  obtain ⟨hp, _, _, _, hq⟩ := dispatch_effect s
  obtain ⟨a1, a2, a3, a4, a5, a6, a7, _, a9, a10, _⟩ := plant_eq hp
  refine ⟨⟨?_, ?_, a1, a2, a3, a4, a5⟩, ⟨a6, a7, a9, a10⟩, fun q => control_eq (hq q)⟩
  · unfold solar_on; rw [a1]
  · unfold load_on; rw [a1]

/-! ## Overwriting the outbound buffer -/

/-- Of the bytes written, the last 32 are in the buffer afterwards. -/
theorem ring_put_last (bs : List Nat) : ∀ (wt : Nat → Nat) (w k : Nat),
    w < BUF_LEN → k < bs.length → bs.length ≤ k + BUF_LEN →
    (ring_put wt w bs).1 ((w + k) % BUF_LEN) = bs.getD k 0 := by
  induction bs with
  | nil => intro wt w k _ hk _; simp at hk
  | cons b bs ih =>
    intro wt w k hw hk hl
    rw [ring_put]
    unfold BUF_LEN at *
    simp only [List.length_cons] at hl hk
    cases k with
    | zero =>
      rw [ring_put_other bs (upd wt w b) ((w + 1) % 32) ((w + 0) % 32) ?_
        (by unfold BUF_LEN; omega)]
      · have : (w + 0) % 32 = w := by omega
        rw [this, upd_same]
        rfl
      · intro j hj
        unfold BUF_LEN
        omega
    | succ k =>
      have := ih (upd wt w b) ((w + 1) % 32) k (by omega) (by omega) (by omega)
      have e : ((w + 1) % 32 + k) % 32 = (w + (k + 1)) % 32 := by omega
      rw [e] at this
      rw [this]
      rfl

/-- The index of the last byte written to the slot that byte `k` of an
`n`-byte string goes to. -/
theorem last_index (n k : Nat) (hk : k < n) :
    k + 32 * ((n - 1 - k) / 32) < n ∧ n ≤ k + 32 * ((n - 1 - k) / 32) + 32 ∧
      ∀ w, (w + (k + 32 * ((n - 1 - k) / 32))) % 32 = (w + k) % 32 := by
  refine ⟨by omega, by omega, fun w => by omega⟩

/-- C17: with the outbound write cursor `w` inside the buffer, `pgm_out_str`
on a string of `n` non-NUL bytes, of any length, returns with the cursor at
`(w + n) % 32` and the read cursor untouched; the buffer is the one obtained by
storing byte `k` at slot `(w + k) % 32` for `k = 0, 1, …` in turn, so that a
slot holds the last byte stored there (the last 32 bytes of the string are all
present) and a slot no byte went to is unchanged.  The same holds for `out_str`
on the string held in `tmp_buf`. -/
theorem C17_enqueue_wraps (s : State) (bs rest : List Nat) (hw : s.wt_wt_pnt < BUF_LEN)
    (hb : ∀ b ∈ bs, b ≠ 0) :
    ((pgm_out_str (bs ++ 0 :: rest) s).wt_wt_pnt = (s.wt_wt_pnt + bs.length) % BUF_LEN ∧
        (pgm_out_str (bs ++ 0 :: rest) s).wt_rd_pnt = s.wt_rd_pnt ∧
        (pgm_out_str (bs ++ 0 :: rest) s).wt = (ring_put s.wt s.wt_wt_pnt bs).1 ∧
        (∀ k, k < bs.length →
          (pgm_out_str (bs ++ 0 :: rest) s).wt ((s.wt_wt_pnt + k) % BUF_LEN) =
            bs.getD (k + 32 * ((bs.length - 1 - k) / 32)) 0) ∧
        (∀ k, k < bs.length → bs.length ≤ k + BUF_LEN →
          (pgm_out_str (bs ++ 0 :: rest) s).wt ((s.wt_wt_pnt + k) % BUF_LEN) = bs.getD k 0) ∧
        (∀ p, (∀ k, k < bs.length → p ≠ (s.wt_wt_pnt + k) % BUF_LEN) →
          (pgm_out_str (bs ++ 0 :: rest) s).wt p = s.wt p)) ∧
      (bs.length < 16 → (∀ k, k < bs.length → s.tmp_buf k = bs.getD k 0) →
        s.tmp_buf bs.length = 0 →
        (out_str s).wt_wt_pnt = (s.wt_wt_pnt + bs.length) % BUF_LEN ∧
          (out_str s).wt_rd_pnt = s.wt_rd_pnt ∧
          (out_str s).wt = (ring_put s.wt s.wt_wt_pnt bs).1) := by
  have hlast : ∀ k, k < bs.length → bs.length ≤ k + BUF_LEN →
      (ring_put s.wt s.wt_wt_pnt bs).1 ((s.wt_wt_pnt + k) % BUF_LEN) = bs.getD k 0 :=
    fun k h1 h2 => ring_put_last bs s.wt s.wt_wt_pnt k hw h1 h2
  refine ⟨?_, ?_⟩
  · rw [pgm_out_str_eq bs rest s hw hb]
    refine ⟨ring_put_cursor_lt bs s.wt s.wt_wt_pnt hw, rfl, rfl, ?_, hlast, ?_⟩
    · intro k hk
      obtain ⟨l1, l2, l3⟩ := last_index bs.length k hk
      have := hlast (k + 32 * ((bs.length - 1 - k) / 32)) l1 l2
      unfold BUF_LEN at this
      rw [l3] at this
      exact this
    · intro p hp
      exact ring_put_other bs s.wt s.wt_wt_pnt p hp hw
  · intro hl hk h0
    rw [out_str_reply s bs hw hl hk hb h0]
    exact ⟨ring_put_cursor_lt bs s.wt s.wt_wt_pnt hw, rfl, rfl⟩

set_option maxRecDepth 10000 in
/-- C17 on a string of 34 bytes written from slot 30 on: the cursor ends at
slot 0, and slot 30 holds byte 32 of the string, slot 31 byte 33, slot 0 byte 2
(the bytes being 1, 2, …, 34). -/
theorem C17_enqueue_wraps_witness :
    (pgm_out_str (List.range' 1 34 ++ 0 :: []) near_wrap_state).wt_wt_pnt = 0 ∧
      (pgm_out_str (List.range' 1 34 ++ 0 :: []) near_wrap_state).wt_rd_pnt = 30 ∧
      (pgm_out_str (List.range' 1 34 ++ 0 :: []) near_wrap_state).wt 30 = 33 ∧
      (pgm_out_str (List.range' 1 34 ++ 0 :: []) near_wrap_state).wt 31 = 34 ∧
      (pgm_out_str (List.range' 1 34 ++ 0 :: []) near_wrap_state).wt 0 = 3 := by
  obtain ⟨⟨h1, h2, _, h4, _⟩, _⟩ :=
    C17_enqueue_wraps near_wrap_state (List.range' 1 34) [] (by decide) (by decide)
  exact ⟨h1, h2, h4 0 (by decide), h4 1 (by decide), h4 2 (by decide)⟩

/-! ## Ranges of the escalation variables -/

theorem drain_step_frame (s : State) :
    plant (drain_step s) = plant s ∧ control (drain_step s) = control s ∧
      (drain_step s).wt_wt_pnt = s.wt_wt_pnt ∧
      (s.rd_rd_pnt < BUF_LEN → (drain_step s).rd_rd_pnt < BUF_LEN) ∧
      (s.cmd_buf_pnt < BUF_LEN → (drain_step s).cmd_buf_pnt < BUF_LEN) ∧
      (s.cmd_buf_pnt = 31 → (drain_step s).cmd_buf_pnt = 31) := by
  unfold drain_step BUF_LEN u16
  dsimp only
  split_ifs <;> refine ⟨rfl, rfl, rfl, ?_, ?_, ?_⟩ <;> intro h <;> dsimp only <;> omega

theorem drain_loop_frame (fuel : Nat) : ∀ s : State,
    plant (drain_loop fuel s) = plant s ∧ control (drain_loop fuel s) = control s ∧
      (drain_loop fuel s).wt_wt_pnt = s.wt_wt_pnt ∧
      (s.rd_rd_pnt < BUF_LEN → (drain_loop fuel s).rd_rd_pnt < BUF_LEN) ∧
      (s.cmd_buf_pnt < BUF_LEN → (drain_loop fuel s).cmd_buf_pnt < BUF_LEN) := by
  induction fuel with
  | zero => intro s; exact ⟨rfl, rfl, rfl, fun h => h, fun h => h⟩
  | succ fuel ih =>
    intro s
    unfold drain_loop
    split_ifs
    · obtain ⟨a1, a2, a3, a4, a5, _⟩ := drain_step_frame s
      obtain ⟨b1, b2, b3, b4, b5⟩ := ih (drain_step s)
      exact ⟨b1.trans a1, b2.trans a2, b3.trans a3, fun h => b4 (a4 h), fun h => b5 (a5 h)⟩
    · exact ⟨rfl, rfl, rfl, fun h => h, fun h => h⟩

theorem esc_ok_of {s t : State} (hp : plant t = plant s) (hc : control t = control s)
    (h : esc_ok s) : esc_ok t := by
  obtain ⟨_, _, _, _, a5, _⟩ := plant_eq hp
  obtain ⟨c1, c2⟩ := control_flags hc
  unfold esc_ok
  rw [a5, c1, c2]
  exact h

theorem s8_small (x : Int) (h1 : -128 ≤ x) (h2 : x ≤ 127) : s8 x = x := by
  unfold s8
  omega

theorem supervisor_esc_ok (a : AdcIn) (s : State) (h : esc_ok s) :
    esc_ok (supervisor a s) := by
  obtain ⟨bv, tp, ad, bl, P, f, c, t, l, k, b, e, _, _, _, _, _, hn, hy, _⟩ :=
    supervisor_spec a s
  obtain ⟨h1, h2, h3, h4⟩ := h
  have hs8 : s8 (s.boot_cnt - 1) = s.boot_cnt - 1 := s8_small _ (by omega) (by omega)
  rw [hs8] at hy
  rw [e]
  show b ≤ 10 ∧ k ≤ 5 ∧ 0 ≤ c ∧ c ≤ 3
  by_cases hc : s.sec = 59 ∧ f = 0
  · obtain ⟨g1, g2, g3⟩ := hy hc
    by_cases q1 : s.boot_cnt - 1 > 0
    · obtain ⟨u1, u2, u3⟩ := g1 q1
      rw [u1, u2, u3]
      refine ⟨by omega, by omega, by omega, by omega⟩
    · by_cases q2 : s.boot_cnt - 1 = 0
      · obtain ⟨u1, u2, u3⟩ := g2 q2
        rw [u1, u2, u3]
        refine ⟨by omega, by omega, by omega, by omega⟩
      · obtain ⟨u1, u2, u3⟩ := g3 (by omega)
        rw [u1, u2, u3]
        refine ⟨by omega, by omega, by omega, by omega⟩
  · obtain ⟨u1, u2, u3⟩ := hn hc
    rw [u1, u2, u3]
    refine ⟨by omega, by omega, ?_, ?_⟩ <;> split_ifs <;> omega

theorem dispatch_esc_ok (s : State) (h : esc_ok s) : esc_ok (dispatch s) := by
  obtain ⟨hp, _, hb, hk, _⟩ := dispatch_effect s
  obtain ⟨_, _, _, _, a5, _⟩ := plant_eq hp
  obtain ⟨h1, h2, h3, h4⟩ := h
  unfold esc_ok
  rw [a5]
  refine ⟨?_, ?_, h3, h4⟩
  · rcases hb with e | e
    · rw [e]; exact h1
    · rw [e]
  · rcases hk with e | e
    · rw [e]; exact h2
    · rw [e]

theorem main_loop_esc_ok (a : AdcIn) (s : State) (h : esc_ok s) : esc_ok (main_loop a s) := by
  have h1 : esc_ok (if s.old_sec ≠ s.sec then supervisor a s else s) := by
    split_ifs
    · exact supervisor_esc_ok a s h
    · exact h
  have key : ∀ x : State, esc_ok x →
      esc_ok (if (drain x).cmd_flag ≠ 0 then dispatch (drain x) else drain x) := by
    intro x hx
    obtain ⟨b1, b2, _⟩ := drain_loop_frame BUF_LEN x
    have hd : esc_ok (drain x) := esc_ok_of b1 b2 hx
    split_ifs
    · exact dispatch_esc_ok (drain x) hd
    · exact hd
  exact key _ h1

theorem TIM0_OVF_esc_ok (x : State) (h : esc_ok x) : esc_ok (TIM0_OVF x) := by
  obtain ⟨t, sc, mn, hr, P, st, bc, d, r, e, _⟩ := TIM0_OVF_spec x
  rw [e]
  exact h

theorem TIM1_COMPA_esc_ok (pin : Bool) (x : State) (h : esc_ok x) :
    esc_ok (TIM1_COMPA pin x) := by
  unfold TIM1_COMPA
  dsimp only
  split_ifs <;> exact h

/-- Once `boot_cnt` is 0 the liveness check arms nothing: an evaluation only
counts both countdowns down, and `boot_cnt` stays 0 unless the scheduled start
fires and sets it to 3. -/
theorem supervisor_exhausted (a : AdcIn) (s : State) (h0 : s.boot_cnt = 0) :
    (supervisor a s).boot_flag = s.boot_flag - 1 ∧
      (supervisor a s).kill_flag = s.kill_flag - 1 ∧
      (¬ start_fires s → (supervisor a s).boot_cnt = 0) ∧
      (start_fires s → (supervisor a s).boot_cnt = 3) := by
  obtain ⟨bv, tp, ad, bl, P, f, c, t, l, k, b, e, _, _, _, _, _, hn, hy, _⟩ :=
    supervisor_spec a s
  have hs8 : s8 (s.boot_cnt - 1) < 0 := by rw [h0]; decide
  rw [e]
  unfold start_fires start_due
  show b = s.boot_flag - 1 ∧ k = s.kill_flag - 1 ∧ (_ → c = 0) ∧ (_ → c = 3)
  by_cases hc : s.sec = 59 ∧ f = 0
  · obtain ⟨u1, u2, u3⟩ := (hy hc).2.2 hs8
    refine ⟨u2, u3, fun _ => u1, fun hsf => ?_⟩
    have := hsf.1.1
    omega
  · obtain ⟨u1, u2, u3⟩ := hn hc
    unfold start_due at u1
    refine ⟨u2, u3, fun hsf => ?_, fun hsf => ?_⟩
    · rw [u1, if_neg hsf, h0]
    · rw [u1, if_pos hsf]

/-- C19: in every state reachable from reset by runs of the interrupt
handlers, passes through the foreground loop and dispatches of command lines,
the reboot countdown is at most 10, the kill countdown at most 5 and `boot_cnt`
between 0 and 3; and from such a state with `boot_cnt = 0` a supervisor
evaluation arms no countdown (both only count down) and leaves `boot_cnt` at 0
unless the scheduled start fires, which sets it to 3. -/
theorem C19_escalation_ranges (s : State) (h : Reachable s) :
    (s.boot_flag ≤ 10 ∧ s.kill_flag ≤ 5 ∧ 0 ≤ s.boot_cnt ∧ s.boot_cnt ≤ 3) ∧
      (s.boot_cnt = 0 → ∀ a : AdcIn,
        (supervisor a s).boot_flag = s.boot_flag - 1 ∧
          (supervisor a s).kill_flag = s.kill_flag - 1 ∧
          (¬ start_fires s → (supervisor a s).boot_cnt = 0) ∧
          (start_fires s → (supervisor a s).boot_cnt = 3)) := by
  refine ⟨?_, fun h0 a => supervisor_exhausted a s h0⟩
  show esc_ok s
  induction h with
  | reset => decide
  | tim0 _ ih => exact TIM0_OVF_esc_ok _ ih
  | tim1 pin _ ih => exact TIM1_COMPA_esc_ok pin _ ih
  | int0 _ ih => exact ih
  | enter _ _ ih => exact ih
  | loop a _ ih => exact main_loop_esc_ok a _ ih
  | command line _ ih => exact dispatch_esc_ok _ ih

/-- C19 after an `R` command sent right after reset: the countdown is at 10. -/
theorem C19_escalation_ranges_witness :
    Reachable (send [82, 63, 13] (TIM0_OVF reset_state)) ∧
      (send [82, 63, 13] (TIM0_OVF reset_state)).boot_flag = 10 ∧
      (send [82, 63, 13] (TIM0_OVF reset_state)).boot_flag ≤ 10 ∧
      (send [82, 63, 13] (TIM0_OVF reset_state)).kill_flag ≤ 5 ∧
      0 ≤ (send [82, 63, 13] (TIM0_OVF reset_state)).boot_cnt ∧
      (send [82, 63, 13] (TIM0_OVF reset_state)).boot_cnt ≤ 3 := by
  have r : Reachable (send [82, 63, 13] (TIM0_OVF reset_state)) :=
    Reachable.command _ (Reachable.tim0 Reachable.reset)
  obtain ⟨⟨h1, h2, h3, h4⟩, _⟩ := C19_escalation_ranges _ r
  exact ⟨r, by decide, h1, h2, h3, h4⟩

/-! ## Cursors stay inside the buffers -/

theorem uart_tx_cursor (s : State) (h : s.wt_rd_pnt < BUF_LEN) :
    (uart_tx s).wt_rd_pnt < BUF_LEN := by
  unfold BUF_LEN at h
  unfold uart_tx BUF_LEN u16
  dsimp only
  split_ifs <;> (try dsimp only) <;> omega

theorem TIM0_OVF_cursors (s : State) (h : cursors_ok s) : cursors_ok (TIM0_OVF s) := by
  obtain ⟨h1, h2, h3, h4, h5⟩ := h
  have hr : (TIM0_OVF s).wt_rd_pnt < BUF_LEN := by
    unfold TIM0_OVF
    apply uart_tx_cursor
    rw [(timekeeping_tx s).2.2.2.2.1]
    exact h3
  obtain ⟨t, sc, mn, hr0, P, st, bc, d, r, e, _⟩ := TIM0_OVF_spec s
  rw [e] at hr ⊢
  exact ⟨h1, h2, hr, h4, h5⟩

theorem TIM1_COMPA_cursors (pin : Bool) (s : State) (h : cursors_ok s) :
    cursors_ok (TIM1_COMPA pin s) := by
  obtain ⟨h1, h2, h3, h4, h5⟩ := h
  by_cases hc : s.SwUartRXBitCount < 9
  · rw [TIM1_COMPA_sample pin s hc]
    exact ⟨h1, h2, h3, h4, h5⟩
  · rw [TIM1_COMPA_store pin s hc h2]
    exact ⟨h1, Nat.mod_lt _ (by decide), h3, h4, h5⟩

theorem supervisor_cursors (a : AdcIn) (s : State) (h : cursors_ok s) :
    cursors_ok (supervisor a s) := by
  obtain ⟨bv, tp, ad, bl, P, f, c, t, l, k, b, e, _⟩ := supervisor_spec a s
  rw [e]
  exact h

theorem drain_step_cursors (s : State) (h : cursors_ok s) : cursors_ok (drain_step s) := by
  obtain ⟨h1, h2, h3, h4, h5⟩ := h
  obtain ⟨a1, _, a3, a4, a5, _⟩ := drain_step_frame s
  obtain ⟨_, _, _, _, _, _, _, _, _, _, _, p12, p13⟩ := plant_eq a1
  exact ⟨a4 h1, by rw [p12]; exact h2, by rw [p13]; exact h3, by rw [a3]; exact h4, a5 h5⟩

theorem drain_step_rd (s : State) (hr : s.rd_rd_pnt < BUF_LEN) :
    (drain_step s).rd_rd_pnt = (s.rd_rd_pnt + 1) % BUF_LEN ∧
      (drain_step s).rd_wt_pnt = s.rd_wt_pnt := by
  unfold BUF_LEN at hr
  unfold drain_step BUF_LEN u16
  dsimp only
  split_ifs <;> refine ⟨?_, rfl⟩ <;> dsimp only <;> omega

/-- The bound of 32 iterations on the drain loop is never reached: with both
inbound cursors inside the buffer the loop ends with the read cursor on the
write cursor. -/
theorem drain_loop_complete (m : Nat) : ∀ (fuel : Nat) (s : State), m ≤ fuel →
    s.rd_rd_pnt < BUF_LEN → s.rd_wt_pnt < BUF_LEN →
    (s.rd_wt_pnt + BUF_LEN - s.rd_rd_pnt) % BUF_LEN = m →
    (drain_loop fuel s).rd_rd_pnt = s.rd_wt_pnt := by
  induction m with
  | zero =>
    intro fuel s _ hr hw hm
    unfold BUF_LEN at hr hw hm
    have e : s.rd_rd_pnt = s.rd_wt_pnt := by omega
    cases fuel with
    | zero => exact e
    | succ fuel =>
      show (if s.rd_rd_pnt ≠ s.rd_wt_pnt then drain_loop fuel (drain_step s) else s).rd_rd_pnt = _
      rw [if_neg (by simpa using e)]
      exact e
  | succ m ih =>
    intro fuel s hf hr hw hm
    obtain ⟨fuel, rfl⟩ : ∃ g, fuel = g + 1 := ⟨fuel - 1, by omega⟩
    have hne : s.rd_rd_pnt ≠ s.rd_wt_pnt := by
      unfold BUF_LEN at hr hw hm; omega
    obtain ⟨e1, e2⟩ := drain_step_rd s hr
    show (if s.rd_rd_pnt ≠ s.rd_wt_pnt then drain_loop fuel (drain_step s) else s).rd_rd_pnt = _
    rw [if_pos hne, ih fuel (drain_step s) (by omega) (by rw [e1]; exact Nat.mod_lt _ (by decide))
      (by rw [e2]; exact hw) (by rw [e1, e2]; unfold BUF_LEN at hr hw hm ⊢; omega), e2]

theorem drain_complete (s : State) (hr : s.rd_rd_pnt < BUF_LEN) (hw : s.rd_wt_pnt < BUF_LEN) :
    (drain s).rd_rd_pnt = s.rd_wt_pnt :=
  drain_loop_complete _ BUF_LEN s (le_of_lt (Nat.mod_lt _ (by decide))) hr hw rfl

theorem drain_cursors (s : State) (h : cursors_ok s) : cursors_ok (drain s) := by
  obtain ⟨h1, h2, h3, h4, h5⟩ := h
  obtain ⟨a1, _, a3, a4, a5⟩ := drain_loop_frame BUF_LEN s
  obtain ⟨_, _, _, _, _, _, _, _, _, _, _, p12, p13⟩ := plant_eq a1
  unfold drain
  exact ⟨a4 h1, by rw [p12]; exact h2, by rw [p13]; exact h3, by rw [a3]; exact h4, a5 h5⟩

/-- The dispatch leaves the line index at 0 and the inbound read cursor on the
write cursor, whatever they were. -/
theorem dispatch_cursors (s : State) (h2 : s.rd_wt_pnt < BUF_LEN) (h3 : s.wt_rd_pnt < BUF_LEN)
    (h4 : s.wt_wt_pnt < BUF_LEN) : cursors_ok (dispatch s) := by
  obtain ⟨hp, hw, _⟩ := command_switch_effect s
  obtain ⟨_, _, _, _, _, _, _, _, _, _, _, p12, p13⟩ := plant_eq hp
  unfold dispatch
  refine ⟨?_, ?_, ?_, hw h4, ?_⟩
  · show (command_switch s).rd_wt_pnt < BUF_LEN
    rw [p12]; exact h2
  · show (command_switch s).rd_wt_pnt < BUF_LEN
    rw [p12]; exact h2
  · show (command_switch s).wt_rd_pnt < BUF_LEN
    rw [p13]; exact h3
  · show (0 : Nat) < BUF_LEN
    decide

theorem main_loop_cursors (a : AdcIn) (s : State) (h : cursors_ok s) :
    cursors_ok (main_loop a s) := by
  have h1 : cursors_ok (if s.old_sec ≠ s.sec then supervisor a s else s) := by
    split_ifs
    · exact supervisor_cursors a s h
    · exact h
  have key : ∀ x : State, cursors_ok x →
      cursors_ok (if (drain x).cmd_flag ≠ 0 then dispatch (drain x) else drain x) := by
    intro x hx
    have hd := drain_cursors x hx
    split_ifs
    · exact dispatch_cursors (drain x) hd.2.1 hd.2.2.1 hd.2.2.2.1
    · exact hd
  exact key _ h1

theorem wt_put_cursors (c : Nat) (s : State) (h : cursors_ok s) : cursors_ok (wt_put c s) := by
  obtain ⟨h1, h2, h3, h4, h5⟩ := h
  rw [wt_put_eq c s h4]
  exact ⟨h1, h2, h3, Nat.mod_lt _ (by decide), h5⟩

/-- C20: in every state reachable from reset by runs of the three interrupt
handlers (with any level on the receive pin), passes through the foreground
loop and dispatches of lines of any content, the four ring-buffer cursors and
the line index are below 32; the steps inside the loops keep them there (one
store into the outbound buffer, one byte moved from the inbound buffer to the
line buffer), a line index at 31 stays at 31, and the drain loop ends with the
inbound buffer empty. -/
theorem C20_cursors_in_range (s : State) (h : Reachable s) :
    (s.rd_rd_pnt < BUF_LEN ∧ s.rd_wt_pnt < BUF_LEN ∧ s.wt_rd_pnt < BUF_LEN ∧
        s.wt_wt_pnt < BUF_LEN ∧ s.cmd_buf_pnt < BUF_LEN) ∧
      (∀ x : State, cursors_ok x →
        cursors_ok (drain_step x) ∧ (∀ c, cursors_ok (wt_put c x)) ∧
          (x.cmd_buf_pnt = 31 → (drain_step x).cmd_buf_pnt = 31) ∧
          (drain x).rd_rd_pnt = x.rd_wt_pnt) := by
  refine ⟨?_, fun x hx => ⟨drain_step_cursors x hx, fun c => wt_put_cursors c x hx,
    (drain_step_frame x).2.2.2.2.2, drain_complete x hx.1 hx.2.1⟩⟩
  show cursors_ok s
  induction h with
  | reset => decide
  | tim0 _ ih => exact TIM0_OVF_cursors _ ih
  | tim1 pin _ ih => exact TIM1_COMPA_cursors pin _ ih
  | int0 _ ih => exact ih
  | enter _ _ ih => exact ih
  | loop a _ ih => exact main_loop_cursors a _ ih
  | command line _ ih => exact dispatch_cursors _ ih.2.1 ih.2.2.1 ih.2.2.2.1

set_option maxRecDepth 10000 in
/-- C20 after a byte received into slot 0 and a line of 40 bytes dispatched: the
cursors are inside the buffers. -/
theorem C20_cursors_in_range_witness :
    Reachable (send (List.replicate 40 65) (TIM1_COMPA true (TIM0_OVF reset_state))) ∧
      (send (List.replicate 40 65) (TIM1_COMPA true (TIM0_OVF reset_state))).cmd_buf_pnt < BUF_LEN ∧
      (send (List.replicate 40 65) (TIM1_COMPA true (TIM0_OVF reset_state))).wt_wt_pnt < BUF_LEN ∧
      (send (List.replicate 40 65) (TIM1_COMPA true (TIM0_OVF reset_state))).rd_rd_pnt < BUF_LEN := by
  have r : Reachable (send (List.replicate 40 65) (TIM1_COMPA true (TIM0_OVF reset_state))) :=
    Reachable.command _ (Reachable.tim1 true (Reachable.tim0 Reachable.reset))
  obtain ⟨⟨h1, _, _, h4, h5⟩, _⟩ := C20_cursors_in_range _ r
  exact ⟨r, h5, h4, h1⟩

end SolarCtl
